import Mathlib

/-!
# DelayArchitect: host bridge and tap editor

A shallow embedding of the plugin-host bridge (`sources/processor/Processor.cpp`),
the combo-box parameter attachment
(`sources/editor/attachments/ComboBoxParameterAttachmentByID.cpp`) and the tap
editor (`sources/editor/parts/TapEditScreen.cpp`).

Conventions of the embedding:

* `float` and `double` values are rationals (`ℚ`); `int` values are `Int`, array
  indices and counts are `Nat`. Where a statement depends on the rounding of
  binary32 the operations are rounded with `roundToFloat`, and where it
  depends on infinities or NaN the values are `FloatValue`; elsewhere the
  arithmetic is exact.
* Objects become records, member functions become functions from record to
  record, `for` loops become `forLoop`.
* What the sources only call (the `Gd` engine, the preset codec, the parameter
  conversions of the host API) is either an explicit argument of the embedding
  or a small model whose documentation says so.
-/

namespace DelayArchitect

/-! ## Control flow helpers -/

/-- Counted loop `for (i = 0; i < n; ++i) body(i)` over a threaded state. -/
def forLoop {σ : Type} (n : Nat) (body : Nat → σ → σ) (s : σ) : σ :=
  (List.range n).foldl (fun acc i => body i acc) s

/-- Array store `a[i] = v` on an array represented by its index function. -/
def setAt {α : Type} (a : Nat → α) (i : Nat) (v : α) : Nat → α :=
  fun j => if j = i then v else a j

/-! ## The engine and the host parameters (Processor.cpp) -/

/-- Modelled from the spec: the opaque DSP engine `Gd`, whose header and
implementation are not among the visible sources. The engine is represented by
what the processor hands to it: channel counts, sample rate, buffer size, tempo
and one value per parameter index. -/
structure Gd where
  numInputs : Nat
  numOutputs : Nat
  sampleRate : ℚ
  bufferSize : Nat
  tempo : ℚ
  parameters : Nat → ℚ

/-- The parameter table of the plugin: the number of parameters, their defaults
(`GdParameterDefault`) and the conversions between the normalised range of the
host and the range of the engine (`RangedAudioParameter::convertFrom0to1`,
`convertTo0to1`), one pair per parameter index. -/
structure ParameterTable where
  GD_PARAMETER_COUNT : Nat
  GdParameterDefault : Nat → ℚ
  convertFrom0to1 : Nat → ℚ → ℚ
  convertTo0to1 : Nat → ℚ → ℚ

/-- Modelled from the spec: `GdNew(numInputs, numOutputs)` creates an engine
whose parameters hold their defaults. -/
def GdNew (P : ParameterTable) (numInputs numOutputs : Nat) : Gd :=
  { numInputs := numInputs, numOutputs := numOutputs, sampleRate := 0, bufferSize := 0,
    tempo := 0, parameters := P.GdParameterDefault }

/-- Modelled from the spec: `GdSetSampleRate(gd, rate)`. -/
def GdSetSampleRate (gd : Gd) (rate : ℚ) : Gd := { gd with sampleRate := rate }

/-- Modelled from the spec: `GdSetBufferSize(gd, size)`. -/
def GdSetBufferSize (gd : Gd) (size : Nat) : Gd := { gd with bufferSize := size }

/-- Modelled from the spec: `GdSetTempo(gd, tempo)`. -/
def GdSetTempo (gd : Gd) (tempo : ℚ) : Gd := { gd with tempo := tempo }

/-- Modelled from the spec: `GdSetParameter(gd, p, value)` stores `value` as the
engine's parameter `p`. -/
def GdSetParameter (gd : Gd) (p : Nat) (value : ℚ) : Gd :=
  { gd with parameters := setAt gd.parameters p value }

/-- Modelled from the spec: `GdClear(gd)` empties the audio memory of the engine,
which the record does not represent. -/
def GdClear (gd : Gd) : Gd := gd

/-- A preset, `PresetFile`: validity flag, name buffer, one value per parameter. -/
structure PresetFile where
  valid : Bool
  name : String
  values : Nat → ℚ

/-- The preset codec of `processor/PresetFile.h`, which the processor only calls:
`saveToData` yields the success flag and the written block, `loadFromData` parses
a block (the result is invalid when parsing fails) and `makeDefault` is the
built-in preset. `Blob` is the type of memory blocks. -/
structure PresetCodec (Blob : Type) where
  saveToData : PresetFile → Bool × Blob
  loadFromData : Blob → PresetFile
  makeDefault : PresetFile

/-- State of `Processor` with its `Impl`: the engine pointer `gd_` (null when
absent), `lastKnownBpm_`, the preset name buffer, the normalised value of every
host parameter (`getParameters()[i]->getValue()`), whether the main input bus is
stereo, and whether the editor state updater has been triggered. -/
structure Processor where
  gd_ : Option Gd
  lastKnownBpm_ : ℚ
  presetNameBuf_ : String
  parameters : Nat → ℚ
  mainInputIsStereo : Bool
  editorUpdateTriggered : Bool

/-- State after `Processor::Processor()`: no engine, tempo marker -1, empty name
buffer, every parameter at its default. -/
def Processor.init (P : ParameterTable) (stereo : Bool) : Processor :=
  { gd_ := none, lastKnownBpm_ := -1, presetNameBuf_ := "",
    parameters := fun i => P.convertTo0to1 i (P.GdParameterDefault i),
    mainInputIsStereo := stereo, editorUpdateTriggered := false }

/-- Listener callback: `Processor::Impl::audioProcessorParameterChanged`. -/
def audioProcessorParameterChanged (P : ParameterTable) (s : Processor)
    (parameterIndex : Nat) (newValue : ℚ) : Processor :=
  match s.gd_ with
  | some gd =>
      let newValue := P.convertFrom0to1 parameterIndex newValue
      { s with gd_ := some (GdSetParameter gd parameterIndex newValue) }
  | none => s

/-- Host API `setValueNotifyingHost` on parameter `i`: the parameter takes the
normalised value and the listeners of the processor are told; the constructor
of `Processor` registered its `Impl` as one. -/
def setValueNotifyingHost (P : ParameterTable) (s : Processor) (i : Nat) (v : ℚ) :
    Processor :=
  audioProcessorParameterChanged P { s with parameters := setAt s.parameters i v } i v

/-- Engine set-up: `Processor::prepareToPlay`. -/
def prepareToPlay (P : ParameterTable) (s : Processor) (sampleRate : ℚ)
    (samplesPerBlock : Nat) : Processor :=
  let gd : Gd :=
    match s.gd_ with
    | some gd => gd
    | none =>
        let numInputs := if s.mainInputIsStereo then 2 else 1
        let numOutputs := 2
        GdNew P numInputs numOutputs
  let gd := GdSetSampleRate gd sampleRate
  let gd := GdSetBufferSize gd samplesPerBlock
  let gd := GdSetTempo gd 120
  let gd := forLoop P.GD_PARAMETER_COUNT
    (fun i gd => GdSetParameter gd i (P.convertFrom0to1 i (s.parameters i))) gd
  let gd := GdClear gd
  { s with gd_ := some gd, lastKnownBpm_ := -1 }

/-- Engine tear-down: `Processor::releaseResources`. -/
def releaseResources (s : Processor) : Processor := { s with gd_ := none }

/-- Preset saving: `Processor::getStateInformation`, returning `destData`. -/
def getStateInformation {Blob : Type} (P : ParameterTable) (C : PresetCodec Blob)
    (s : Processor) : Blob :=
  let pst : PresetFile := { valid := true, name := s.presetNameBuf_, values := fun _ => 0 }
  let pst := forLoop P.GD_PARAMETER_COUNT
    (fun i pst =>
      { pst with values := setAt pst.values i (P.convertFrom0to1 i (s.parameters i)) }) pst
  (C.saveToData pst).2

/-- Preset loading: `Processor::setStateInformation`. -/
def setStateInformation {Blob : Type} (P : ParameterTable) (C : PresetCodec Blob)
    (s : Processor) (data : Blob) : Processor :=
  let pst := C.loadFromData data
  let pst := if !pst.valid then C.makeDefault else pst
  let s := { s with presetNameBuf_ := pst.name }
  let s := forLoop P.GD_PARAMETER_COUNT
    (fun i s => setValueNotifyingHost P s i (P.convertTo0to1 i (pst.values i))) s
  { s with editorUpdateTriggered := true }

/-- The engine mirrors the host: an engine exists and each of its parameters
below `GD_PARAMETER_COUNT` is the denormalised value of the host parameter. -/
def EngineMirrorsHost (P : ParameterTable) (s : Processor) : Prop :=
  ∃ gd, s.gd_ = some gd ∧
    ∀ i, i < P.GD_PARAMETER_COUNT → gd.parameters i = P.convertFrom0to1 i (s.parameters i)

/-! ## JUCE value types used by the editor -/

/-- Clamp of the GUI library, `juce::jlimit (lowerLimit, upperLimit, value)`. -/
def jlimit (lowerLimit upperLimit valueToConstrain : ℚ) : ℚ :=
  if valueToConstrain < lowerLimit then lowerLimit
  else if upperLimit < valueToConstrain then upperLimit
  else valueToConstrain

/-- An interval `juce::Range<float>` with its two stored bounds. -/
structure Range where
  start : ℚ
  end_ : ℚ
deriving DecidableEq

/-- Constructor `Range (startValue, endValue)`: the end is never below the start. -/
def Range.make (startValue endValue : ℚ) : Range :=
  { start := startValue, end_ := max startValue endValue }

/-- Accessor `Range::getLength`. -/
def Range.getLength (r : Range) : ℚ := r.end_ - r.start

/-- Mutator `Range::setStart`: moves the start, pushing the end along if needed. -/
def Range.setStart (r : Range) (newStart : ℚ) : Range :=
  { start := newStart, end_ := if r.end_ < newStart then newStart else r.end_ }

/-- Mutator `Range::setEnd`: moves the end, pulling the start along if needed. -/
def Range.setEnd (r : Range) (newEnd : ℚ) : Range :=
  { start := if newEnd < r.start then newEnd else r.start, end_ := newEnd }

/-- A rectangle `juce::Rectangle`: position of the top-left corner and size. The
integer rectangles of the sources are those with integer fields, so `toFloat`
is the identity. -/
structure Rectangle where
  x : ℚ
  y : ℚ
  w : ℚ
  h : ℚ
deriving DecidableEq

/-- Accessor `Rectangle::getRight`. -/
def Rectangle.getRight (r : Rectangle) : ℚ := r.x + r.w

/-- Resizing `Rectangle::expanded (deltaX, deltaY)`; sizes never go below zero. -/
def Rectangle.expanded (r : Rectangle) (deltaX deltaY : ℚ) : Rectangle :=
  { x := r.x - deltaX, y := r.y - deltaY,
    w := max 0 (r.w + deltaX * 2), h := max 0 (r.h + deltaY * 2) }

/-- Resizing `Rectangle::reduced (deltaX, deltaY)`. -/
def Rectangle.reduced (r : Rectangle) (deltaX deltaY : ℚ) : Rectangle :=
  r.expanded (-deltaX) (-deltaY)

/-- Edge move `Rectangle::withLeft`: the right edge stays. -/
def Rectangle.withLeft (r : Rectangle) (newLeft : ℚ) : Rectangle :=
  { r with x := newLeft, w := max 0 (r.x + r.w - newLeft) }

/-- Edge move `Rectangle::withRight`: the left edge stays. -/
def Rectangle.withRight (r : Rectangle) (newRight : ℚ) : Rectangle :=
  { r with x := min r.x newRight, w := max 0 (newRight - r.x) }

/-- Point test `Rectangle::contains (Point)`. -/
def Rectangle.contains (r : Rectangle) (px py : ℚ) : Bool :=
  decide (px ≥ r.x) && decide (py ≥ r.y) && decide (px < r.x + r.w) && decide (py < r.y + r.h)

/-- The part of a `juce::MouseEvent` the editor reads: the position, the x
coordinate of the last mouse-down and the Shift modifier. -/
structure MouseEvent where
  x : ℚ
  y : ℚ
  mouseDownX : Int
  shiftDown : Bool

/-- C++ conversion `(int) value` of a float: truncation towards zero. C++ defines
the conversion only when the truncated value is an `int`, that is from `-2 ^ 31`
to `2 ^ 31 - 1`; what is stated of a converted value is stated within that
range. -/
def truncToInt (value : ℚ) : Int :=
  if 0 ≤ value then ⌊value⌋ else ⌈value⌉

/-! ## Binary32 rounding -/

/-- Rounding of a rational to the nearest integer, a tie going to the even one. -/
def roundHalfEven (q : ℚ) : Int :=
  let f : Int := ⌊q⌋
  if q - f < 1 / 2 then f
  else if 1 / 2 < q - f then f + 1
  else if f % 2 = 0 then f
  else f + 1

/-- Exponent of the unit in the last place of the binary32 numbers around `x`:
24 significant bits, and the spacing of the subnormal numbers below `2 ^ (-126)`. -/
def ulpExponent (x : ℚ) : Int :=
  max (Int.log 2 |x|) (-126) - 23

/-- The `float` (IEEE binary32) nearest to `x`, a tie going to the even
significand: the result of a C++ float operation whose exact result is `x`, and
of the conversion `(float) x`. Overflow to infinity, from `2 ^ 128` on, is not
represented. -/
def roundToFloat (x : ℚ) : ℚ :=
  (roundHalfEven (x / (2 : ℚ) ^ ulpExponent x) : ℚ) * (2 : ℚ) ^ ulpExponent x

/-! ## ComboBoxParameterAttachmentByID.cpp -/

/-- State of `ComboBoxParameterAttachmentByID`: the id selected in the attached
combo box (`comboBox_.getSelectedId()`), the flag `ignoreCallbacks_`, and the
values handed to `attachment_.setValueAsCompleteGesture`, newest first. -/
structure ComboBoxParameterAttachmentByID where
  selectedId : Int
  ignoreCallbacks_ : Bool
  sentToParameter : List ℚ

/-- Listener callback: `ComboBoxParameterAttachmentByID::comboBoxChanged`. The
conversion `(float) (id - 1)` rounds to the nearest `float`. -/
def ComboBoxParameterAttachmentByID.comboBoxChanged (a : ComboBoxParameterAttachmentByID) :
    ComboBoxParameterAttachmentByID :=
  if a.ignoreCallbacks_ then a
  else
    let selected : ℚ := roundToFloat ((a.selectedId - 1 : Int) : ℚ)
    { a with sentToParameter := selected :: a.sentToParameter }

/-- Combo box call `setSelectedId (id, sendNotificationSync)`: the selection
changes and the listener is called before the call returns. -/
def ComboBoxParameterAttachmentByID.setSelectedIdSync (a : ComboBoxParameterAttachmentByID)
    (id : Int) : ComboBoxParameterAttachmentByID :=
  ComboBoxParameterAttachmentByID.comboBoxChanged { a with selectedId := id }

/-- Parameter-to-widget update: `ComboBoxParameterAttachmentByID::setValue`. The
scoped setter stores `true` in `ignoreCallbacks_` and puts the previous value
back when the function returns. -/
def ComboBoxParameterAttachmentByID.setValue (a : ComboBoxParameterAttachmentByID)
    (newValue : ℚ) : ComboBoxParameterAttachmentByID :=
  let id : Int := 1 + truncToInt newValue
  if id = a.selectedId then a
  else
    let originalValue := a.ignoreCallbacks_
    let a := { a with ignoreCallbacks_ := true }
    let a := a.setSelectedIdSync id
    { a with ignoreCallbacks_ := originalValue }

/-! ## TapMiniMap (TapEditScreen.cpp) -/

/-- Drag status of the mini-map, the anonymous enum of `TapMiniMap::Impl`. -/
inductive MiniMapStatus where
  | kStatusNormal
  | kStatusMoving
  | kStatusDraggingLeft
  | kStatusDraggingRight
deriving DecidableEq

/-- State of `TapMiniMap` with its `Impl`: component size, the displayed time
range, the range recorded when a move started, the drag status, and the ranges
announced through `miniMapRangeChanged`, newest first. -/
structure TapMiniMap where
  width : Int
  height : Int
  timeRange_ : Range
  timeRangeBeforeMove_ : Range
  status_ : MiniMapStatus
  announced : List Range

/-- Component bounds `getLocalBounds()`. -/
def TapMiniMap.getLocalBounds (m : TapMiniMap) : Rectangle :=
  { x := 0, y := 0, w := m.width, h := m.height }

/-- Time to pixel: `TapMiniMap::Impl::getXForDelay`. -/
def TapMiniMap.getXForDelay (GdMaxDelay : ℚ) (m : TapMiniMap) (t : ℚ) : ℚ :=
  let rc := m.getLocalBounds.reduced 1 1
  rc.x + rc.w * (t / GdMaxDelay)

/-- Pixel to time: `TapMiniMap::Impl::getDelayForX`. -/
def TapMiniMap.getDelayForX (GdMaxDelay : ℚ) (m : TapMiniMap) (x : ℚ) : ℚ :=
  let rc := m.getLocalBounds.reduced 1 1
  GdMaxDelay * ((x - rc.x) / rc.w)

/-- The window rectangle: `TapMiniMap::Impl::getRangeBounds`. -/
def TapMiniMap.getRangeBounds (GdMaxDelay : ℚ) (m : TapMiniMap) : Rectangle :=
  let tr := m.timeRange_
  ((m.getLocalBounds.reduced 1 1).withLeft (m.getXForDelay GdMaxDelay tr.start)).withRight
    (m.getXForDelay GdMaxDelay tr.end_)

/-- Grab margin `kResizeGrabMargin`. -/
def kResizeGrabMargin : ℚ := 4

/-- Left grab zone: `TapMiniMap::Impl::getLeftResizeBounds`. -/
def TapMiniMap.getLeftResizeBounds (GdMaxDelay : ℚ) (m : TapMiniMap) : Rectangle :=
  let rangeBounds := m.getRangeBounds GdMaxDelay
  let boundsRszL : Rectangle := { x := rangeBounds.x, y := rangeBounds.y, w := 0, h := rangeBounds.h }
  boundsRszL.expanded kResizeGrabMargin 0

/-- Right grab zone: `TapMiniMap::Impl::getRightResizeBounds`. -/
def TapMiniMap.getRightResizeBounds (GdMaxDelay : ℚ) (m : TapMiniMap) : Rectangle :=
  let rangeBounds := m.getRangeBounds GdMaxDelay
  let boundsRszR : Rectangle :=
    { x := rangeBounds.getRight, y := rangeBounds.y, w := 0, h := rangeBounds.h }
  boundsRszR.expanded kResizeGrabMargin 0

/-- Listener call `miniMapRangeChanged (this, timeRange_)`. -/
def TapMiniMap.announce (m : TapMiniMap) : TapMiniMap :=
  { m with announced := m.timeRange_ :: m.announced }

/-- State after `TapMiniMap::TapMiniMap()`: size 200 by 20, the full window, an
empty recorded range, status normal. -/
def TapMiniMap.init (GdMaxDelay : ℚ) : TapMiniMap :=
  { width := 200, height := 20, timeRange_ := Range.make 0 GdMaxDelay,
    timeRangeBeforeMove_ := { start := 0, end_ := 0 },
    status_ := MiniMapStatus.kStatusNormal, announced := [] }

/-- Window update from outside: `TapMiniMap::setTimeRange`; `notify` stands for
`nt != juce::dontSendNotification`. -/
def TapMiniMap.setTimeRange (m : TapMiniMap) (timeRange : Range) (notify : Bool) : TapMiniMap :=
  if m.timeRange_ = timeRange then m
  else
    let m := { m with timeRange_ := timeRange }
    if notify then TapMiniMap.announce m else m

/-- Start of a drag: `TapMiniMap::mouseDown` (the cursor is not represented). -/
def TapMiniMap.mouseDown (GdMaxDelay : ℚ) (m : TapMiniMap) (event : MouseEvent) : TapMiniMap :=
  if m.status_ = MiniMapStatus.kStatusNormal then
    if (m.getLeftResizeBounds GdMaxDelay).contains event.x event.y then
      { m with status_ := MiniMapStatus.kStatusDraggingLeft }
    else if (m.getRightResizeBounds GdMaxDelay).contains event.x event.y then
      { m with status_ := MiniMapStatus.kStatusDraggingRight }
    else if (m.getRangeBounds GdMaxDelay).contains event.x event.y then
      { m with status_ := MiniMapStatus.kStatusMoving, timeRangeBeforeMove_ := m.timeRange_ }
    else m
  else m

/-- End of a drag: `TapMiniMap::mouseUp` (the cursor is not represented). -/
def TapMiniMap.mouseUp (m : TapMiniMap) : TapMiniMap :=
  if m.status_ ≠ MiniMapStatus.kStatusNormal then
    { m with status_ := MiniMapStatus.kStatusNormal }
  else m

/-- Smallest window length `kMinTimeRange` of `TapMiniMap::mouseDrag`. -/
def kMinTimeRange : ℚ := 1 / 5

/-- Drag step: `TapMiniMap::mouseDrag`. -/
def TapMiniMap.mouseDrag (GdMaxDelay : ℚ) (m : TapMiniMap) (event : MouseEvent) : TapMiniMap :=
  match m.status_ with
  | MiniMapStatus.kStatusDraggingLeft =>
      let rangeBounds := m.getRangeBounds GdMaxDelay
      let minT : ℚ := 0
      let maxT := max minT (m.getDelayForX GdMaxDelay rangeBounds.getRight - kMinTimeRange)
      let newT := jlimit minT maxT (m.getDelayForX GdMaxDelay event.x)
      if m.timeRange_.start ≠ newT then
        TapMiniMap.announce { m with timeRange_ := m.timeRange_.setStart newT }
      else m
  | MiniMapStatus.kStatusDraggingRight =>
      let rangeBounds := m.getRangeBounds GdMaxDelay
      let maxT : ℚ := GdMaxDelay
      let minT := min maxT (m.getDelayForX GdMaxDelay rangeBounds.x + kMinTimeRange)
      let newT := jlimit minT maxT (m.getDelayForX GdMaxDelay event.x)
      if m.timeRange_.end_ ≠ newT then
        TapMiniMap.announce { m with timeRange_ := m.timeRange_.setEnd newT }
      else m
  | MiniMapStatus.kStatusMoving =>
      let dt : ℚ := GdMaxDelay * ((event.x - (event.mouseDownX : ℚ)) / (m.width : ℚ))
      let tr := m.timeRangeBeforeMove_
      let dt :=
        if dt > 0 then min dt (GdMaxDelay - tr.end_)
        else if dt < 0 then max dt (-tr.start)
        else dt
      let tr := Range.make (tr.start + dt) (tr.end_ + dt)
      if m.timeRange_ ≠ tr then
        TapMiniMap.announce { m with timeRange_ := tr }
      else m
  | MiniMapStatus.kStatusNormal => m

/-! ## TapEditScreen and TapEditItem (TapEditScreen.cpp) -/

/-- Edit mode of the tap editor, `TapEditMode`. -/
inductive TapEditMode where
  | kTapEditOff
  | kTapEditCutoff
  | kTapEditResonance
  | kTapEditTune
  | kTapEditPan
  | kTapEditLevel
deriving DecidableEq

/-- Tap data shown by an item, `TapEditData`: the enable flag and the delay. -/
structure TapEditData where
  enabled : Bool
  delay : ℚ
deriving DecidableEq

/-- Modelled from the spec: the slider widget `TapSlider`, a `juce::Slider` whose
header is not among the visible sources, as far as the item reads and writes it:
the value, the lower and upper values of a two-value slider, the minimum of the
range, the map `valueToProportionOfLength` and the visibility. -/
structure TapSlider where
  value : ℚ
  minValue : ℚ
  maxValue : ℚ
  minimum : ℚ
  valueToProportionOfLength : ℚ → ℚ
  visible : Bool

/-- Modelled from the spec: `Slider::setValue` stores the value. -/
def TapSlider.setValue (slider : TapSlider) (newValue : ℚ) : TapSlider :=
  { slider with value := newValue }

/-- Modelled from the spec: `Slider::setMinValue` stores the lower value. -/
def TapSlider.setMinValue (slider : TapSlider) (newValue : ℚ) : TapSlider :=
  { slider with minValue := newValue }

/-- Modelled from the spec: `Slider::setMaxValue` stores the upper value. -/
def TapSlider.setMaxValue (slider : TapSlider) (newValue : ℚ) : TapSlider :=
  { slider with maxValue := newValue }

/-- State of a `TapEditItem::Impl::Button`, a toggling `juce::Button`: the toggle
state and the visibility. -/
structure TapButton where
  toggleState : Bool
  visible : Bool
deriving DecidableEq

/-- Button call `setToggleState (shouldBeOn, nt)`: the button takes the state. -/
def TapButton.setToggleState (button : TapButton) (shouldBeOn : Bool) : TapButton :=
  { button with toggleState := shouldBeOn }

/-- State of `TapEditItem` with its `Impl`: the tap data, the tap number, the edit
mode, the selection flag, the visibility of the component, and the sliders and
buttons that the constructor files under the five edit modes other than off
(`sliders_`, `buttons_`; the entry at `kTapEditOff` stands for no widget). -/
structure TapEditItem where
  data_ : TapEditData
  itemNumber_ : Nat
  editMode_ : TapEditMode
  tapSelected_ : Bool
  visible : Bool
  sliders_ : TapEditMode → TapSlider
  buttons_ : TapEditMode → TapButton

/-- Interaction status of the screen, the anonymous enum of `TapEditScreen::Impl`. -/
inductive ScreenStatus where
  | kStatusNormal
  | kStatusClicked
  | kStatusPencil
  | kStatusLasso
deriving DecidableEq

/-- State of `TapEditScreen` with its `Impl`: component size, the items (one per
tap number below `GdMaxLines`), the displayed time range, the edit mode, the grid
settings `sync_`, `div_`, `swing_`, `bpm_`, the tap-capture flags and the
interaction status, the clock reading `tapBeginTime_` at the start of a tap
capture, whether the tap-capture timer runs, and the connected mini-map. -/
structure TapEditScreen where
  width : Int
  height : Int
  items_ : Nat → TapEditItem
  timeRange_ : Range
  editMode_ : TapEditMode
  sync_ : Bool
  div_ : Int
  swing_ : ℚ
  bpm_ : ℚ
  tapHasBegun_ : Bool
  tapCaptureCount_ : Nat
  status_ : ScreenStatus
  tapBeginTime_ : ℚ
  tapCaptureTimerRunning : Bool
  miniMap_ : Option TapMiniMap

/-- A slider as `createSlider` leaves it, given the start of its range, its
default and its proportion map: it shows the default and is hidden. -/
def TapSlider.init (rangeStart def_ : ℚ) (proportion : ℚ → ℚ) : TapSlider :=
  { value := def_, minValue := def_, maxValue := def_, minimum := rangeStart,
    valueToProportionOfLength := proportion, visible := false }

/-- State after `TapEditItem::TapEditItem (screen, itemNumber)`: a disabled,
unselected, hidden tap in mode off, with hidden buttons that are toggled off.
`sliders` are the sliders that `createSlider` builds from the range and default
tables of the engine header. -/
def TapEditItem.init (sliders : TapEditMode → TapSlider) (itemNumber : Nat) : TapEditItem :=
  { data_ := { enabled := false, delay := 0 }, itemNumber_ := itemNumber,
    editMode_ := TapEditMode.kTapEditOff, tapSelected_ := false, visible := false,
    sliders_ := sliders,
    buttons_ := fun _ => { toggleState := false, visible := false } }

/-- State after `TapEditScreen::TapEditScreen()`, given the component size, the
constant `GdDefaultDivisor` and the sliders of every item. -/
def TapEditScreen.init (width height : Int) (GdDefaultDivisor : Int)
    (sliders : Nat → TapEditMode → TapSlider) : TapEditScreen :=
  { width := width, height := height,
    items_ := fun itemNumber => TapEditItem.init (sliders itemNumber) itemNumber,
    timeRange_ := Range.make 0 5, editMode_ := TapEditMode.kTapEditOff,
    sync_ := true, div_ := GdDefaultDivisor, swing_ := 1 / 2, bpm_ := 120,
    tapHasBegun_ := false, tapCaptureCount_ := 0, status_ := ScreenStatus.kStatusNormal,
    tapBeginTime_ := 0, tapCaptureTimerRunning := false, miniMap_ := none }

/-- Margin `TapEditScreen::Impl::xMargin`. -/
def xMargin : ℚ := 10

/-- Margin `TapEditScreen::Impl::yMargin`. -/
def yMargin : ℚ := 10

/-- Component bounds `getLocalBounds()`. -/
def TapEditScreen.getLocalBounds (s : TapEditScreen) : Rectangle :=
  { x := 0, y := 0, w := s.width, h := s.height }

/-- Bounds inside the margins: `TapEditScreen::getLocalBoundsNoMargin`. -/
def TapEditScreen.getLocalBoundsNoMargin (s : TapEditScreen) : Rectangle :=
  s.getLocalBounds.reduced xMargin yMargin

/-- The rectangle `rc` of `delayToX` and `xToDelay`: the bounds inside the margins,
narrowed on both sides by half of `TapEditItem::getLabelWidth()`. -/
def TapEditScreen.drawableArea (labelWidth : Int) (s : TapEditScreen) : Rectangle :=
  s.getLocalBoundsNoMargin.reduced ((labelWidth : ℚ) / 2) 0

/-- Time to pixel: `TapEditScreen::Impl::delayToX`. -/
def TapEditScreen.delayToX (labelWidth : Int) (s : TapEditScreen) (t : ℚ) : ℚ :=
  let rc := s.drawableArea labelWidth
  let tr := s.timeRange_
  rc.x + rc.w * ((t - tr.start) / tr.getLength)

/-- Pixel to time: `TapEditScreen::Impl::xToDelay`. -/
def TapEditScreen.xToDelay (labelWidth : Int) (s : TapEditScreen) (x : ℚ) : ℚ :=
  let rc := s.drawableArea labelWidth
  let tr := s.timeRange_
  tr.start + tr.getLength * ((x - rc.x) / rc.w)

/-- Public wrapper: `TapEditScreen::getXForDelay`. -/
def TapEditScreen.getXForDelay (labelWidth : Int) (s : TapEditScreen) (delay : ℚ) : ℚ :=
  s.delayToX labelWidth delay

/-- Public wrapper: `TapEditScreen::getDelayForX`. -/
def TapEditScreen.getDelayForX (labelWidth : Int) (s : TapEditScreen) (x : ℚ) : ℚ :=
  s.xToDelay labelWidth x

/-- Grid alignment of a delay: `TapEditScreen::alignDelayToGrid`. The engine
function `GdAlignDelayToGrid` and the constant `GdMaxDelay` are arguments. -/
def TapEditScreen.alignDelayToGrid (GdMaxDelay : ℚ)
    (GdAlignDelayToGrid : ℚ → Int → ℚ → ℚ → ℚ) (s : TapEditScreen) (delay : ℚ) : ℚ :=
  if !s.sync_ then jlimit 0 GdMaxDelay delay
  else GdAlignDelayToGrid delay s.div_ s.swing_ s.bpm_

/-- The loop of `findUnusedTap`, from `itemNumber` with the current
`selectedNumber`; `fuel` bounds the number of iterations. -/
def findUnusedTapLoop (items : Nat → TapEditItem) (GdMaxLines : Nat) :
    Nat → Nat → Int → Int
  | 0, _, selectedNumber => selectedNumber
  | fuel + 1, itemNumber, selectedNumber =>
      if itemNumber < GdMaxLines ∧ selectedNumber = -1 then
        let data := (items itemNumber).data_
        let selectedNumber := if !data.enabled then (itemNumber : Int) else selectedNumber
        findUnusedTapLoop items GdMaxLines fuel (itemNumber + 1) selectedNumber
      else selectedNumber

/-- Search for a free tap: `TapEditScreen::Impl::findUnusedTap`. The loop runs at
most `GdMaxLines` times. -/
def TapEditScreen.findUnusedTap (GdMaxLines : Nat) (s : TapEditScreen) : Int :=
  findUnusedTapLoop s.items_ GdMaxLines GdMaxLines 0 (-1)

/-- Hit test of a tap item: `TapEditItem::hitTest`. The arguments are the Shift
state of `ModifierKeys::currentModifiers` and the hit test of the base class
`juce::Component`. -/
def TapEditItem.hitTest (shiftDown : Bool) (componentHitTest : Int → Int → Bool)
    (x y : Int) : Bool :=
  if shiftDown then false
  else componentHitTest x y

/-- Clamp of a value to the interval from `lo` to `hi`, as the words "clamped to"
are usually read: the nearest point of the interval. -/
def clampTo (lo hi d : ℚ) : ℚ := max lo (min hi d)

/-! ## Parameter identifiers of the engine header -/

/-- Modelled from the spec: the per-tap parameters of the engine header, which is
not among the visible sources. Each constructor `X` stands for the identifier
`GDP_TAP_A_X` of the first tap; `other` stands for per-tap parameters that the
editor has no widget for. -/
inductive TapParameter where
  | ENABLE
  | DELAY
  | LPF_CUTOFF
  | HPF_CUTOFF
  | RESONANCE
  | TUNE
  | PAN
  | LEVEL
  | FILTER_ENABLE
  | FILTER
  | TUNE_ENABLE
  | FLIP
  | MUTE
  | other (n : Nat)
deriving DecidableEq

/-- Modelled from the spec: a parameter identifier `GdParameter` of the engine
header: `GDP_NONE`, the global parameters `GDP_SYNC`, `GDP_GRID`, `GDP_SWING` and
the remaining global ones, and a per-tap parameter of a given tap number. -/
inductive GdParameter where
  | GDP_NONE
  | GDP_SYNC
  | GDP_GRID
  | GDP_SWING
  | global (n : Nat)
  | tap (kind : TapParameter) (tapNumber : Nat)
deriving DecidableEq

/-- Modelled from the spec: `GdDecomposeParameter (id, &tapNumber)` yields the
parameter of the first tap that `id` is an instance of, and the tap number, which
is -1 for a parameter that belongs to no tap. -/
def GdDecomposeParameter (id : GdParameter) : GdParameter × Int :=
  match id with
  | GdParameter.tap kind tapNumber => (GdParameter.tap kind 0, (tapNumber : Int))
  | other => (other, -1)

/-- Modelled from the spec: `GdRecomposeParameter (id, tapNumber)` yields the
instance of a per-tap parameter for the given tap. -/
def GdRecomposeParameter (id : GdParameter) (tapNumber : Nat) : GdParameter :=
  match id with
  | GdParameter.tap kind _ => GdParameter.tap kind tapNumber
  | other => other

/-- What the editor takes from headers that are not among the visible sources:
the constants `GdMaxLines`, `GdMaxDelay` and `GdNumPametersPerTap`, the per-tap
parameter at `GdFirstParameterOfFirstTap + i`, the functions `GdParameterDefault`,
`GdAlignDelayToGrid` and `GdFindNearestDivisor` of the engine, and the label size
`TapEditItem::getLabelWidth()`, `getLabelHeight()`. -/
structure EditorEnv where
  GdMaxLines : Nat
  GdMaxDelay : ℚ
  GdNumPametersPerTap : Nat
  tapParameterAt : Nat → TapParameter
  GdParameterDefault : GdParameter → ℚ
  GdAlignDelayToGrid : ℚ → Int → ℚ → ℚ → ℚ
  GdFindNearestDivisor : ℚ → Int
  labelWidth : Int
  labelHeight : Int

/-- C++ conversion `(bool) value` of a float: true unless the value is zero. -/
def floatToBool (value : ℚ) : Bool := decide (value ≠ 0)

/-- C++ conversion `(float) flag` of a bool. -/
def boolToFloat (flag : Bool) : ℚ := if flag then 1 else 0

/-! ## TapEditItem: widgets and tap values -/

/-- Map lookup: `TapEditItem::Impl::getSliderForEditMode`. -/
def TapEditItem.getSliderForEditMode (item : TapEditItem) (editMode : TapEditMode) :
    Option TapSlider :=
  if editMode = TapEditMode.kTapEditOff then none else some (item.sliders_ editMode)

/-- Map lookup: `TapEditItem::Impl::getButtonForEditMode`. -/
def TapEditItem.getButtonForEditMode (item : TapEditItem) (editMode : TapEditMode) :
    Option TapButton :=
  if editMode = TapEditMode.kTapEditOff then none else some (item.buttons_ editMode)

/-- Write through the pointer that `getSliderForEditMode` returned. -/
def TapEditItem.putSlider (item : TapEditItem) (editMode : TapEditMode) (slider : TapSlider) :
    TapEditItem :=
  { item with sliders_ := fun m => if m = editMode then slider else item.sliders_ m }

/-- Write through the pointer that `getButtonForEditMode` returned. -/
def TapEditItem.putButton (item : TapEditItem) (editMode : TapEditMode) (button : TapButton) :
    TapEditItem :=
  { item with buttons_ := fun m => if m = editMode then button else item.buttons_ m }

/-- Widget visibility: `TapEditItem::Impl::updateSliderAndButtonVisibility`; the
slider and the button of the current edit mode are shown, the others hidden. -/
def TapEditItem.updateSliderAndButtonVisibility (item : TapEditItem) : TapEditItem :=
  { item with
    sliders_ := fun m => { item.sliders_ m with visible := decide (m = item.editMode_) }
    buttons_ := fun m => { item.buttons_ m with visible := decide (m = item.editMode_) } }

/-- Mode change of one item: `TapEditItem::setEditMode`. -/
def TapEditItem.setEditMode (item : TapEditItem) (mode : TapEditMode) : TapEditItem :=
  if item.editMode_ = mode then item
  else TapEditItem.updateSliderAndButtonVisibility { item with editMode_ := mode }

/-- Value of a slider read through `getSliderForEditMode`, with the fallback 0 of
the label `notfound`. -/
def TapEditItem.readSlider (item : TapEditItem) (editMode : TapEditMode)
    (read : TapSlider → ℚ) : ℚ :=
  match item.getSliderForEditMode editMode with
  | some slider => read slider
  | none => 0

/-- Value of a button read through `getButtonForEditMode`, with the fallback 0 of
the label `notfound`. -/
def TapEditItem.readButton (item : TapEditItem) (editMode : TapEditMode)
    (read : TapButton → ℚ) : ℚ :=
  match item.getButtonForEditMode editMode with
  | some button => read button
  | none => 0

/-- Read of a tap value: `TapEditItem::getTapValue`. -/
def TapEditItem.getTapValue (item : TapEditItem) (id : GdParameter) : ℚ :=
  if (item.itemNumber_ : Int) ≠ (GdDecomposeParameter id).2 then 0
  else
    match (GdDecomposeParameter id).1 with
    | GdParameter.tap TapParameter.ENABLE _ => boolToFloat item.data_.enabled
    | GdParameter.tap TapParameter.DELAY _ => item.data_.delay
    | GdParameter.tap TapParameter.LPF_CUTOFF _ =>
        item.readSlider TapEditMode.kTapEditCutoff (fun slider => slider.maxValue)
    | GdParameter.tap TapParameter.HPF_CUTOFF _ =>
        item.readSlider TapEditMode.kTapEditCutoff (fun slider => slider.minValue)
    | GdParameter.tap TapParameter.RESONANCE _ =>
        item.readSlider TapEditMode.kTapEditResonance (fun slider => slider.value)
    | GdParameter.tap TapParameter.TUNE _ =>
        item.readSlider TapEditMode.kTapEditTune (fun slider => slider.value)
    | GdParameter.tap TapParameter.PAN _ =>
        item.readSlider TapEditMode.kTapEditPan (fun slider => slider.value)
    | GdParameter.tap TapParameter.LEVEL _ =>
        item.readSlider TapEditMode.kTapEditLevel (fun slider => slider.value)
    | GdParameter.tap TapParameter.FILTER_ENABLE _ =>
        item.readButton TapEditMode.kTapEditCutoff (fun button => boolToFloat button.toggleState)
    | GdParameter.tap TapParameter.FILTER _ =>
        item.readButton TapEditMode.kTapEditResonance
          (fun button => boolToFloat button.toggleState)
    | GdParameter.tap TapParameter.TUNE_ENABLE _ =>
        item.readButton TapEditMode.kTapEditTune (fun button => boolToFloat button.toggleState)
    | GdParameter.tap TapParameter.FLIP _ =>
        item.readButton TapEditMode.kTapEditPan (fun button => boolToFloat (!button.toggleState))
    | GdParameter.tap TapParameter.MUTE _ =>
        item.readButton TapEditMode.kTapEditLevel
          (fun button => boolToFloat (!button.toggleState))
    | _ => 0

/-- Update of a slider reached through `getSliderForEditMode`; nothing happens
when there is none. -/
def TapEditItem.writeSlider (item : TapEditItem) (editMode : TapEditMode)
    (write : TapSlider → TapSlider) : TapEditItem :=
  match item.getSliderForEditMode editMode with
  | some slider => item.putSlider editMode (write slider)
  | none => item

/-- Update of a button reached through `getButtonForEditMode`; nothing happens
when there is none. -/
def TapEditItem.writeButton (item : TapEditItem) (editMode : TapEditMode)
    (write : TapButton → TapButton) : TapEditItem :=
  match item.getButtonForEditMode editMode with
  | some button => item.putButton editMode (write button)
  | none => item

/-- Write of a tap value: `TapEditItem::setTapValue`. `screenEditMode` is
`screen.getEditMode()`. Listener calls, the position of the item and the
polarity transform of the pan slider are not represented. -/
def TapEditItem.setTapValue (screenEditMode : TapEditMode) (item : TapEditItem)
    (id : GdParameter) (value : ℚ) : TapEditItem :=
  if (item.itemNumber_ : Int) ≠ (GdDecomposeParameter id).2 then item
  else
    match (GdDecomposeParameter id).1 with
    | GdParameter.tap TapParameter.ENABLE _ =>
        let enabled := floatToBool value
        if item.data_.enabled = enabled then item
        else
          let item := { item with data_ := { item.data_ with enabled := enabled } }
          let item := { item with visible := enabled }
          item.setEditMode (if enabled then screenEditMode else TapEditMode.kTapEditOff)
    | GdParameter.tap TapParameter.DELAY _ =>
        let delay := value
        if item.data_.delay = delay then item
        else { item with data_ := { item.data_ with delay := delay } }
    | GdParameter.tap TapParameter.LPF_CUTOFF _ =>
        item.writeSlider TapEditMode.kTapEditCutoff (fun slider => slider.setMaxValue value)
    | GdParameter.tap TapParameter.HPF_CUTOFF _ =>
        item.writeSlider TapEditMode.kTapEditCutoff (fun slider => slider.setMinValue value)
    | GdParameter.tap TapParameter.RESONANCE _ =>
        item.writeSlider TapEditMode.kTapEditResonance (fun slider => slider.setValue value)
    | GdParameter.tap TapParameter.TUNE _ =>
        item.writeSlider TapEditMode.kTapEditTune (fun slider => slider.setValue value)
    | GdParameter.tap TapParameter.PAN _ =>
        item.writeSlider TapEditMode.kTapEditPan (fun slider => slider.setValue value)
    | GdParameter.tap TapParameter.LEVEL _ =>
        item.writeSlider TapEditMode.kTapEditLevel (fun slider => slider.setValue value)
    | GdParameter.tap TapParameter.FILTER_ENABLE _ =>
        item.writeButton TapEditMode.kTapEditCutoff
          (fun button => button.setToggleState (floatToBool value))
    | GdParameter.tap TapParameter.FILTER _ =>
        item.writeButton TapEditMode.kTapEditResonance
          (fun button => button.setToggleState (floatToBool value))
    | GdParameter.tap TapParameter.TUNE_ENABLE _ =>
        item.writeButton TapEditMode.kTapEditTune
          (fun button => button.setToggleState (floatToBool value))
    | GdParameter.tap TapParameter.FLIP _ =>
        item.writeButton TapEditMode.kTapEditPan
          (fun button => button.setToggleState (!floatToBool value))
    | GdParameter.tap TapParameter.MUTE _ =>
        item.writeButton TapEditMode.kTapEditLevel
          (fun button => button.setToggleState (!floatToBool value))
    | _ => item

/-- A bar of the mini-map, `TapMiniMapValue`: a delay and a range of proportions. -/
structure TapMiniMapValue where
  delay : ℚ
  range : Range
deriving DecidableEq

/-- The value-initialised `TapMiniMapValue {}`. -/
def TapMiniMapValue.empty : TapMiniMapValue := { delay := 0, range := { start := 0, end_ := 0 } }

/-- The bar built at the end of `getMinimapValues` from `start` and `end`. -/
def TapEditItem.makeMinimapValue (item : TapEditItem) (start end_ : ℚ) : TapMiniMapValue :=
  { delay := item.getTapValue
      (GdRecomposeParameter (GdParameter.tap TapParameter.DELAY 0) item.itemNumber_),
    range := Range.make start end_ }

/-- Bar of one tap for the mini-map: `TapEditItem::getMinimapValues`. -/
def TapEditItem.getMinimapValues (item : TapEditItem) : TapMiniMapValue :=
  let editMode := item.editMode_
  match editMode with
  | TapEditMode.kTapEditOff => TapMiniMapValue.empty
  | TapEditMode.kTapEditResonance | TapEditMode.kTapEditLevel =>
      match item.getSliderForEditMode editMode with
      | some slider =>
          let start := slider.valueToProportionOfLength slider.minimum
          let end_ := slider.valueToProportionOfLength slider.value
          item.makeMinimapValue start end_
      | none => TapMiniMapValue.empty
  | TapEditMode.kTapEditCutoff =>
      match item.getSliderForEditMode editMode with
      | some slider =>
          let start := slider.valueToProportionOfLength slider.minValue
          let end_ := slider.valueToProportionOfLength slider.maxValue
          item.makeMinimapValue start end_
      | none => TapMiniMapValue.empty
  | TapEditMode.kTapEditTune | TapEditMode.kTapEditPan =>
      match item.getSliderForEditMode editMode with
      | some slider =>
          let start : ℚ := 0
          let end_ := slider.value
          let swapped := decide (end_ < start)
          let start' := if swapped then end_ else start
          let end' := if swapped then start else end_
          item.makeMinimapValue (slider.valueToProportionOfLength start')
            (slider.valueToProportionOfLength end')
      | none => TapMiniMapValue.empty

/-- Selection flag of one item: `TapEditItem::setTapSelected`. -/
def TapEditItem.setTapSelected (item : TapEditItem) (selected : Bool) : TapEditItem :=
  if item.tapSelected_ = selected then item
  else { item with tapSelected_ := selected }

/-! ## TapEditScreen: taps, selection, capture, zoom, mouse and keys -/

/-- Window update: `TapEditScreen::setTimeRange`. The connected mini-map is given
the new range without notification; item positions and labels are not
represented. -/
def TapEditScreen.setTimeRange (s : TapEditScreen) (newTimeRange : Range) : TapEditScreen :=
  if s.timeRange_ = newTimeRange then s
  else
    { s with
      timeRange_ := newTimeRange
      miniMap_ := s.miniMap_.map (fun miniMap => miniMap.setTimeRange newTimeRange false) }

/-- Mode change of the screen: `TapEditScreen::setEditMode`. -/
def TapEditScreen.setEditMode (GdMaxLines : Nat) (s : TapEditScreen) (mode : TapEditMode) :
    TapEditScreen :=
  if s.editMode_ = mode then s
  else
    let s := { s with editMode_ := mode }
    forLoop GdMaxLines
      (fun itemNumber s =>
        let item := s.items_ itemNumber
        let data := item.data_
        { s with
          items_ := setAt s.items_ itemNumber
            (item.setEditMode (if data.enabled then mode else TapEditMode.kTapEditOff)) }) s

/-- Read of a value through the screen: `TapEditScreen::getTapValue`. -/
def TapEditScreen.getTapValue (s : TapEditScreen) (id : GdParameter) : ℚ :=
  match id with
  | GdParameter.GDP_SYNC => boolToFloat s.sync_
  | GdParameter.GDP_GRID => (s.div_ : ℚ)
  | GdParameter.GDP_SWING => s.swing_ * 100
  | _ =>
      let tapNumber := (GdDecomposeParameter id).2
      if tapNumber ≠ -1 then (s.items_ tapNumber.toNat).getTapValue id
      else 0

/-- Write of a value through the screen: `TapEditScreen::setTapValue`. The
mini-map update timer is not represented. -/
def TapEditScreen.setTapValue (env : EditorEnv) (s : TapEditScreen) (id : GdParameter)
    (value : ℚ) : TapEditScreen :=
  match id with
  | GdParameter.GDP_SYNC => { s with sync_ := floatToBool value }
  | GdParameter.GDP_GRID => { s with div_ := env.GdFindNearestDivisor value }
  | GdParameter.GDP_SWING => { s with swing_ := value / 100 }
  | _ =>
      let tapNumber := (GdDecomposeParameter id).2
      if tapNumber ≠ -1 then
        { s with
          items_ := setAt s.items_ tapNumber.toNat
            ((s.items_ tapNumber.toNat).setTapValue s.editMode_ id value) }
      else s

/-- Selection query: `TapEditScreen::isTapSelected`. -/
def TapEditScreen.isTapSelected (s : TapEditScreen) (tapNumber : Nat) : Bool :=
  (s.items_ tapNumber).tapSelected_

/-- Selection of all or none: `TapEditScreen::setAllTapsSelected`. -/
def TapEditScreen.setAllTapsSelected (GdMaxLines : Nat) (s : TapEditScreen) (selected : Bool) :
    TapEditScreen :=
  forLoop GdMaxLines
    (fun tapNumber s =>
      { s with items_ := setAt s.items_ tapNumber ((s.items_ tapNumber).setTapSelected selected) })
    s

/-- Selection of one tap: `TapEditScreen::setOnlyTapSelected`; bringing the item
to the front is not represented. -/
def TapEditScreen.setOnlyTapSelected (GdMaxLines : Nat) (s : TapEditScreen)
    (selectedTapNumber : Int) : TapEditScreen :=
  forLoop GdMaxLines
    (fun tapNumber s =>
      let selected := decide ((tapNumber : Int) = selectedTapNumber)
      { s with items_ := setAt s.items_ tapNumber ((s.items_ tapNumber).setTapSelected selected) })
    s

/-- New tap with defaults: `TapEditScreen::Impl::createNewTap`. -/
def TapEditScreen.createNewTap (env : EditorEnv) (s : TapEditScreen) (tapNumber : Nat)
    (delay : ℚ) : TapEditScreen :=
  forLoop env.GdNumPametersPerTap
    (fun i s =>
      let decomposedId := env.tapParameterAt i
      let id := GdRecomposeParameter (GdParameter.tap decomposedId 0) tapNumber
      match decomposedId with
      | TapParameter.ENABLE => s.setTapValue env id (boolToFloat true)
      | TapParameter.DELAY => s.setTapValue env id delay
      | _ => s.setTapValue env id (env.GdParameterDefault id))
    s

/-- Disabling of every tap: `TapEditScreen::Impl::clearAllTaps`. -/
def TapEditScreen.clearAllTaps (env : EditorEnv) (s : TapEditScreen) : TapEditScreen :=
  forLoop env.GdMaxLines
    (fun tapNumber s =>
      let id := GdRecomposeParameter (GdParameter.tap TapParameter.ENABLE 0) tapNumber
      s.setTapValue env id (boolToFloat false))
    s

/-- Elapsed capture time: `TapEditScreen::Impl::currentTapTime` at the clock
reading `now`, in seconds. -/
def TapEditScreen.currentTapTime (s : TapEditScreen) (now : ℚ) : ℚ :=
  now - s.tapBeginTime_

/-- One captured tap: `TapEditScreen::Impl::nextTapCapture` at the clock reading
`now`. -/
def TapEditScreen.nextTapCapture (env : EditorEnv) (s : TapEditScreen) (now : ℚ) :
    TapEditScreen :=
  let delay := s.currentTapTime now
  if delay > env.GdMaxDelay then s
  else
    let delay := s.alignDelayToGrid env.GdMaxDelay env.GdAlignDelayToGrid delay
    let s := if s.tapCaptureCount_ = 0 then s.clearAllTaps env else s
    let nextTapNumber := s.findUnusedTap env.GdMaxLines
    if nextTapNumber = -1 then s
    else
      let s := s.createNewTap env nextTapNumber.toNat delay
      { s with tapCaptureCount_ := s.tapCaptureCount_ + 1 }

/-- The loop of `autoZoomTimeRange`: the number of enabled taps and the largest
of their delays, starting from 0. -/
def TapEditScreen.autoZoomScan (GdMaxLines : Nat) (s : TapEditScreen) : Nat × ℚ :=
  forLoop GdMaxLines
    (fun tapNumber acc =>
      let item := s.items_ tapNumber
      let enable := floatToBool
        (item.getTapValue (GdRecomposeParameter (GdParameter.tap TapParameter.ENABLE 0) tapNumber))
      let delay :=
        item.getTapValue (GdRecomposeParameter (GdParameter.tap TapParameter.DELAY 0) tapNumber)
      if enable then (acc.1 + 1, max delay acc.2) else acc)
    (0, 0)

/-- The float expression `interval * std::floor ((maxDelay + interval) / interval)`
of `autoZoomTimeRange`, with `interval` = 0.5f: the sum, the quotient and the
product are each rounded to `float`, and `std::floor` is exact. -/
def zoomGridEnd (maxDelay : ℚ) : ℚ :=
  let interval : ℚ := 1 / 2
  roundToFloat
    (interval * ((⌊roundToFloat (roundToFloat (maxDelay + interval) / interval)⌋ : Int) : ℚ))

/-- The end of the window chosen by `autoZoomTimeRange`. -/
def TapEditScreen.autoZoomEnd (env : EditorEnv) (s : TapEditScreen) : ℚ :=
  let scan := s.autoZoomScan env.GdMaxLines
  let count := scan.1
  let maxDelay := scan.2
  if count = 0 then env.GdMaxDelay
  else min env.GdMaxDelay (zoomGridEnd maxDelay)

/-- Zoom on the enabled taps: `TapEditScreen::Impl::autoZoomTimeRange`. -/
def TapEditScreen.autoZoomTimeRange (env : EditorEnv) (s : TapEditScreen) : TapEditScreen :=
  s.setTimeRange (Range.make 0 (s.autoZoomEnd env))

/-- End of a tap capture: `TapEditScreen::Impl::endTapCapture`; listener calls are
not represented. -/
def TapEditScreen.endTapCapture (env : EditorEnv) (s : TapEditScreen) : TapEditScreen :=
  let s := { s with tapCaptureTimerRunning := false, tapHasBegun_ := false }
  s.autoZoomTimeRange env

/-- Timer callback of the capture: `TapEditScreen::Impl::tickTapCapture` at the
clock reading `now`. -/
def TapEditScreen.tickTapCapture (env : EditorEnv) (s : TapEditScreen) (now : ℚ) :
    TapEditScreen :=
  if s.currentTapTime now > env.GdMaxDelay then s.endTapCapture env else s

/-- Tap capture finished by the user: `TapEditScreen::endTap` at the clock reading
`now`. -/
def TapEditScreen.endTap (env : EditorEnv) (s : TapEditScreen) (now : ℚ) : TapEditScreen :=
  if !s.tapHasBegun_ then s
  else (s.nextTapCapture env now).endTapCapture env

/-- Strip at the bottom: `Rectangle::removeFromBottom`, the rectangle returned. -/
def Rectangle.removeFromBottom (r : Rectangle) (amountToRemove : ℚ) : Rectangle :=
  let amountToRemove := min amountToRemove r.h
  { x := r.x, y := r.y + r.h - amountToRemove, w := r.w, h := amountToRemove }

/-- Row of the tap labels: `TapEditScreen::getIntervalsRow`. -/
def TapEditScreen.getIntervalsRow (labelHeight : Int) (s : TapEditScreen) : Rectangle :=
  let intervalsHeight : ℚ := (labelHeight : ℚ)
  s.getLocalBoundsNoMargin.removeFromBottom intervalsHeight

/-- Mouse press on the screen: `TapEditScreen::mouseDown`. `pencilAt` is the
effect of `Impl::pencilAt`, which depends on the layout of the items; the mouse
cursor and `pencilModifiers_` are not represented. -/
def TapEditScreen.mouseDown (env : EditorEnv)
    (pencilAt : TapEditScreen → MouseEvent → TapEditScreen) (s : TapEditScreen)
    (e : MouseEvent) : TapEditScreen :=
  let intervalsRow := s.getIntervalsRow env.labelHeight
  if s.status_ = ScreenStatus.kStatusNormal then
    if intervalsRow.contains e.x e.y then
      let delay := s.alignDelayToGrid env.GdMaxDelay env.GdAlignDelayToGrid
        (s.getDelayForX env.labelWidth e.x)
      let tapNumber := s.findUnusedTap env.GdMaxLines
      if tapNumber ≠ -1 then
        let s := s.createNewTap env tapNumber.toNat delay
        s.setOnlyTapSelected env.GdMaxLines tapNumber
      else s
    else if e.shiftDown then
      pencilAt { s with status_ := ScreenStatus.kStatusPencil } e
    else { s with status_ := ScreenStatus.kStatusClicked }
  else s

/-- The key of a `juce::KeyPress` as `keyPressed` tells keys apart. -/
inductive KeyPress where
  | deleteKey
  | escapeKey
  | otherKey (keyCode : Nat)
deriving DecidableEq

/-- Key handling: `TapEditScreen::keyPressed`, returning the result and the new
state. -/
def TapEditScreen.keyPressed (env : EditorEnv) (s : TapEditScreen) (e : KeyPress) :
    Bool × TapEditScreen :=
  if e = KeyPress.deleteKey then
    let selected : Nat → Bool := fun tapNumber => s.isTapSelected tapNumber
    let s := forLoop env.GdMaxLines
      (fun tapNumber s =>
        if selected tapNumber then
          let id := GdRecomposeParameter (GdParameter.tap TapParameter.ENABLE 0) tapNumber
          s.setTapValue env id (boolToFloat false)
        else s)
      s
    (true, s.setAllTapsSelected env.GdMaxLines false)
  else if e = KeyPress.escapeKey then
    (true, if s.tapHasBegun_ then s.endTapCapture env else s)
  else (false, s)

/-! ## Processor: tempo changes -/

/-- Assignment `*parameter = newValue` to an `AudioParameterFloat` of index `i`:
the host is notified of the normalised new value unless the parameter already
has the value. -/
def assignParameter (P : ParameterTable) (s : Processor) (i : Nat) (newValue : ℚ) : Processor :=
  if P.convertFrom0to1 i (s.parameters i) ≠ newValue then
    setValueNotifyingHost P s i (P.convertTo0to1 i newValue)
  else s

/-- Tempo change: `Processor::Impl::updateBPM`. `GDP_SYNC` is the index of the
sync parameter, `delayIndex tapNumber` the index of
`GdRecomposeParameter (GDP_TAP_A_DELAY, tapNumber)`; a bool parameter is on when
its value is at least one half. -/
def updateBPM (P : ParameterTable) (GdMaxLines : Nat) (GDP_SYNC : Nat)
    (delayIndex : Nat → Nat) (s : Processor) (newBpm : ℚ) : Processor :=
  let oldBpm := s.lastKnownBpm_
  if oldBpm = newBpm then s
  else
    let s := { s with lastKnownBpm_ := newBpm }
    let s := match s.gd_ with
      | some gd => { s with gd_ := some (GdSetTempo gd newBpm) }
      | none => s
    if oldBpm ≠ -1 then
      let scaleRatio := oldBpm / newBpm
      let sync := decide (s.parameters GDP_SYNC ≥ 1 / 2)
      if sync then
        forLoop GdMaxLines
          (fun tapNumber s =>
            let delayId := delayIndex tapNumber
            let delay := P.convertFrom0to1 delayId (s.parameters delayId)
            assignParameter P s delayId (scaleRatio * delay))
          s
      else s
    else s

/-- Last tempo for the editor: `Processor::getLastKnownBPM`. -/
def getLastKnownBPM (s : Processor) : ℚ :=
  let bpm := s.lastKnownBpm_
  if bpm ≠ -1 then bpm else 120

/-- An item follows the screen: it is visible exactly when its tap is enabled, and
its edit mode is the edit mode of the screen when the tap is enabled and
`kTapEditOff` when it is disabled. -/
def ItemFollowsScreen (screenEditMode : TapEditMode) (item : TapEditItem) : Prop :=
  (item.visible = true ↔ item.data_.enabled = true)
    ∧ item.editMode_ = (if item.data_.enabled then screenEditMode else TapEditMode.kTapEditOff)

/-- The part of a `juce::AudioPlayHead::PositionInfo` that `processBlock` reads:
`getBpm ()`, the tempo when the host gives one. -/
structure PositionInfo where
  getBpm : Option ℚ

/-- A `juce::AudioPlayHead` as `processBlock` uses it: `getPosition ()`, the
position when the host gives one. -/
structure AudioPlayHead where
  getPosition : Option PositionInfo

/-- A dereference of an absent value in `processBlock`: `playHead->getPosition ()`
on a null `playHead`, or `positionInfo->getBpm ()` on an empty `positionInfo`. -/
inductive Fault where
  | nullPlayHead
  | emptyPositionInfo
deriving DecidableEq

/-- What one run of `processBlock` does: the processor state it leaves, the
arguments of its calls of `updateBPM`, and the engine pointer and the sample
count that it hands to `GdProcess` (`none` is the null pointer). -/
structure ProcessBlockEffect where
  processor : Processor
  updateBPMCalls : List ℚ
  gdProcessArgument : Option Gd
  numSamples : Nat

/-- Audio callback: `Processor::processBlock` for float buffers. `getPlayHead` is
what `AudioProcessor::getPlayHead ()` returns (`none` is the null pointer) and
`numSamples` is `buffer.getNumSamples ()`. The result is an error when an absent
value is dereferenced. The audio that `GdProcess` computes is not
represented. -/
def processBlock (P : ParameterTable) (GdMaxLines : Nat) (GDP_SYNC : Nat)
    (delayIndex : Nat → Nat) (s : Processor) (getPlayHead : Option AudioPlayHead)
    (numSamples : Nat) : Except Fault ProcessBlockEffect :=
  match getPlayHead with
  | none => Except.error Fault.nullPlayHead
  | some playHead =>
      match playHead.getPosition with
      | none => Except.error Fault.emptyPositionInfo
      | some positionInfo =>
          let updated : Processor × List ℚ :=
            match positionInfo.getBpm with
            | some bpm => (updateBPM P GdMaxLines GDP_SYNC delayIndex s bpm, [bpm])
            | none => (s, [])
          let gd := updated.1.gd_
          Except.ok
            { processor := updated.1, updateBPMCalls := updated.2, gdProcessArgument := gd,
              numSamples := numSamples }

/-! ## TapEditScreen: the grid ticks of paint -/

/-- The three colours of a grid tick in `TapEditScreen::paint`. -/
inductive TickColour where
  | superMajorIntervalTickColour
  | majorIntervalTickColour
  | minorIntervalTickColour
deriving DecidableEq

/-- C++ `a % b` on `int`: the remainder of the truncating division, and no value
when the divisor is zero. -/
def intRemainder (a b : Int) : Option Int :=
  if b = 0 then none else some (Int.tmod a b)

/-- The local `majorDiv` of `TapEditScreen::paint`: `div / ((div & 3) ? 2 : 4)`. -/
def majorDivOf (div : Int) : Int :=
  Int.tdiv div (if Int.land div 3 ≠ 0 then 2 else 4)

/-- Evaluation of the colour expression of a tick: the divisors of the remainders
that were evaluated, in order, and the colour, which is absent when a remainder
had the divisor zero. -/
structure TickChoice where
  divisors : List Int
  colour : Option TickColour
deriving DecidableEq

/-- Colour of tick `i` in `TapEditScreen::paint` for the grid divisor `div`
(`impl.div_`): the expression `(i % superMajorDiv == 0) ? superMajor :
(i % majorDiv == 0) ? major : minor`, evaluated from left to right. -/
def paintTickColour (div i : Int) : TickChoice :=
  let majorDiv := majorDivOf div
  let superMajorDiv := div
  match intRemainder i superMajorDiv with
  | none => { divisors := [superMajorDiv], colour := none }
  | some r =>
      if r = 0 then
        { divisors := [superMajorDiv], colour := some TickColour.superMajorIntervalTickColour }
      else
        match intRemainder i majorDiv with
        | none => { divisors := [superMajorDiv, majorDiv], colour := none }
        | some r =>
            if r = 0 then
              { divisors := [superMajorDiv, majorDiv],
                colour := some TickColour.majorIntervalTickColour }
            else
              { divisors := [superMajorDiv, majorDiv],
                colour := some TickColour.minorIntervalTickColour }

/-! ## Floats that are not numbers -/

/-- A `float` as the comparisons of the clamp see it: a number, an infinity, or
NaN, the result of `0 / 0`. -/
inductive FloatValue where
  | number (value : ℚ)
  | posInf
  | negInf
  | nan
deriving DecidableEq

/-- C++ `a < b` on floats: false whenever an operand is NaN. -/
def FloatValue.lt : FloatValue → FloatValue → Bool
  | FloatValue.number a, FloatValue.number b => decide (a < b)
  | FloatValue.negInf, FloatValue.number _ => true
  | FloatValue.negInf, FloatValue.posInf => true
  | FloatValue.number _, FloatValue.posInf => true
  | _, _ => false

/-- Clamp of the GUI library on floats, `juce::jlimit (lowerLimit, upperLimit,
value)`: `value < lowerLimit ? lowerLimit : (upperLimit < value ? upperLimit :
value)`. -/
def jlimitFloat (lowerLimit upperLimit valueToConstrain : FloatValue) : FloatValue :=
  if valueToConstrain.lt lowerLimit then lowerLimit
  else if upperLimit.lt valueToConstrain then upperLimit
  else valueToConstrain

/-- Grid alignment of a delay that may be an infinity or NaN:
`TapEditScreen::alignDelayToGrid` on floats. The engine function
`GdAlignDelayToGrid` and the constant `GdMaxDelay` are arguments. -/
def TapEditScreen.alignDelayToGridFloat (GdMaxDelay : ℚ)
    (GdAlignDelayToGrid : FloatValue → Int → ℚ → ℚ → FloatValue) (s : TapEditScreen)
    (delay : FloatValue) : FloatValue :=
  if !s.sync_ then jlimitFloat (FloatValue.number 0) (FloatValue.number GdMaxDelay) delay
  else GdAlignDelayToGrid delay s.div_ s.swing_ s.bpm_

/-! ## TapMiniMap on binary32 floats -/

/-- The value a float operation returns when its exact result is `x`: the nearest
float, and an infinity when that float would be `2 ^ 128` or more in size. -/
def FloatValue.ofRat (x : ℚ) : FloatValue :=
  if (2 : ℚ) ^ 128 ≤ roundToFloat x then FloatValue.posInf
  else if roundToFloat x ≤ -(2 : ℚ) ^ 128 then FloatValue.negInf
  else FloatValue.number (roundToFloat x)

/-- C++ `-a` on floats. -/
def FloatValue.neg : FloatValue → FloatValue
  | FloatValue.number a => FloatValue.number (-a)
  | FloatValue.posInf => FloatValue.negInf
  | FloatValue.negInf => FloatValue.posInf
  | FloatValue.nan => FloatValue.nan

/-- C++ `a + b` on floats: the rounded sum, and NaN for the sum of the two
opposite infinities. -/
def FloatValue.add : FloatValue → FloatValue → FloatValue
  | FloatValue.number a, FloatValue.number b => FloatValue.ofRat (a + b)
  | FloatValue.nan, _ => FloatValue.nan
  | _, FloatValue.nan => FloatValue.nan
  | FloatValue.posInf, FloatValue.negInf => FloatValue.nan
  | FloatValue.negInf, FloatValue.posInf => FloatValue.nan
  | FloatValue.posInf, _ => FloatValue.posInf
  | FloatValue.negInf, _ => FloatValue.negInf
  | FloatValue.number _, FloatValue.posInf => FloatValue.posInf
  | FloatValue.number _, FloatValue.negInf => FloatValue.negInf

/-- C++ `a - b` on floats. -/
def FloatValue.sub (a b : FloatValue) : FloatValue := a.add b.neg

/-- Sign rule of a product or quotient with an infinity: the infinity of the sign
of `a`, NaN for zero. -/
def FloatValue.signedInf (a : ℚ) : FloatValue :=
  if 0 < a then FloatValue.posInf else if a < 0 then FloatValue.negInf else FloatValue.nan

/-- C++ `a * b` on floats: the rounded product; zero times an infinity is NaN. -/
def FloatValue.mul : FloatValue → FloatValue → FloatValue
  | FloatValue.number a, FloatValue.number b => FloatValue.ofRat (a * b)
  | FloatValue.nan, _ => FloatValue.nan
  | _, FloatValue.nan => FloatValue.nan
  | FloatValue.posInf, FloatValue.number b => FloatValue.signedInf b
  | FloatValue.negInf, FloatValue.number b => FloatValue.signedInf (-b)
  | FloatValue.number a, FloatValue.posInf => FloatValue.signedInf a
  | FloatValue.number a, FloatValue.negInf => FloatValue.signedInf (-a)
  | FloatValue.posInf, FloatValue.posInf => FloatValue.posInf
  | FloatValue.negInf, FloatValue.negInf => FloatValue.posInf
  | FloatValue.posInf, FloatValue.negInf => FloatValue.negInf
  | FloatValue.negInf, FloatValue.posInf => FloatValue.negInf

/-- C++ `a / b` on floats: the rounded quotient; a number divided by zero is the
infinity of its sign and `0 / 0` is NaN. Zero carries no sign here: a zero
divisor is `+0`, which is what the divisors of the mini-map are, each the
conversion of an `int` that is not negative. -/
def FloatValue.div : FloatValue → FloatValue → FloatValue
  | FloatValue.number a, FloatValue.number b =>
      if b = 0 then FloatValue.signedInf a else FloatValue.ofRat (a / b)
  | FloatValue.nan, _ => FloatValue.nan
  | _, FloatValue.nan => FloatValue.nan
  | FloatValue.number _, FloatValue.posInf => FloatValue.number 0
  | FloatValue.number _, FloatValue.negInf => FloatValue.number 0
  | FloatValue.posInf, FloatValue.number b =>
      if 0 ≤ b then FloatValue.posInf else FloatValue.negInf
  | FloatValue.negInf, FloatValue.number b =>
      if 0 ≤ b then FloatValue.negInf else FloatValue.posInf
  | FloatValue.posInf, FloatValue.posInf => FloatValue.nan
  | FloatValue.posInf, FloatValue.negInf => FloatValue.nan
  | FloatValue.negInf, FloatValue.posInf => FloatValue.nan
  | FloatValue.negInf, FloatValue.negInf => FloatValue.nan

/-- C++ `a != b` on floats: true whenever an operand is NaN. -/
def FloatValue.ne : FloatValue → FloatValue → Bool
  | FloatValue.nan, _ => true
  | _, FloatValue.nan => true
  | a, b => decide (a ≠ b)

/-- The larger of two floats as `std::max (a, b)` and `juce::jmax (a, b)` compute
it: `a < b ? b : a`. -/
def maxFloat (a b : FloatValue) : FloatValue := if a.lt b then b else a

/-- The smaller of two floats as `std::min (a, b)` and `juce::jmin (a, b)` compute
it: `b < a ? b : a`. -/
def minFloat (a b : FloatValue) : FloatValue := if b.lt a then b else a

/-- An interval `juce::Range<float>` holding floats. -/
structure FloatRange where
  start : FloatValue
  end_ : FloatValue
deriving DecidableEq

/-- Constructor `Range (startValue, endValue)`: the end is `jmax (startValue,
endValue)`. -/
def FloatRange.make (startValue endValue : FloatValue) : FloatRange :=
  { start := startValue, end_ := maxFloat startValue endValue }

/-- Accessor `Range::getLength`: `end - start`. -/
def FloatRange.getLength (r : FloatRange) : FloatValue := r.end_.sub r.start

/-- Mutator `Range::setStart`: `start = newStart; if (end < newStart) end =
newStart`. -/
def FloatRange.setStart (r : FloatRange) (newStart : FloatValue) : FloatRange :=
  { start := newStart, end_ := if r.end_.lt newStart then newStart else r.end_ }

/-- Mutator `Range::setEnd`: `end = newEnd; if (newEnd < start) start = newEnd`. -/
def FloatRange.setEnd (r : FloatRange) (newEnd : FloatValue) : FloatRange :=
  { start := if newEnd.lt r.start then newEnd else r.start, end_ := newEnd }

/-- Comparison `Range::operator!=`: `start != other.start || end != other.end`. -/
def FloatRange.ne (r other : FloatRange) : Bool :=
  r.start.ne other.start || r.end_.ne other.end_

/-- A rectangle `juce::Rectangle<float>`. -/
structure FloatRectangle where
  x : FloatValue
  y : FloatValue
  w : FloatValue
  h : FloatValue
deriving DecidableEq

/-- Conversion `Rectangle<int>::toFloat`: each field converted to float. -/
def Rectangle.toFloat (r : Rectangle) : FloatRectangle :=
  { x := FloatValue.ofRat r.x, y := FloatValue.ofRat r.y,
    w := FloatValue.ofRat r.w, h := FloatValue.ofRat r.h }

/-- Accessor `Rectangle::getRight`: `pos.x + w`. -/
def FloatRectangle.getRight (r : FloatRectangle) : FloatValue := r.x.add r.w

/-- Edge move `Rectangle::withLeft`: the width becomes `jmax (0, pos.x + w -
newLeft)`. -/
def FloatRectangle.withLeft (r : FloatRectangle) (newLeft : FloatValue) : FloatRectangle :=
  { r with x := newLeft, w := maxFloat (FloatValue.number 0) ((r.x.add r.w).sub newLeft) }

/-- Edge move `Rectangle::withRight`: the left edge becomes `jmin (pos.x,
newRight)` and the width `jmax (0, newRight - pos.x)`. -/
def FloatRectangle.withRight (r : FloatRectangle) (newRight : FloatValue) : FloatRectangle :=
  { r with x := minFloat r.x newRight, w := maxFloat (FloatValue.number 0) (newRight.sub r.x) }

/-- State of `TapMiniMap` with its `Impl`, the two time ranges holding floats:
component size (two `int`), the displayed time range, the range recorded when a
move started, the drag status, and the ranges announced through
`miniMapRangeChanged`, newest first. -/
structure FloatMiniMap where
  width : Int
  height : Int
  timeRange_ : FloatRange
  timeRangeBeforeMove_ : FloatRange
  status_ : MiniMapStatus
  announced : List FloatRange

/-- The drawable area `getLocalBounds().reduced(1, 1).toFloat()`. -/
def FloatMiniMap.getDrawBounds (m : FloatMiniMap) : FloatRectangle :=
  (({ x := 0, y := 0, w := m.width, h := m.height } : Rectangle).reduced 1 1).toFloat

/-- Time to pixel: `TapMiniMap::Impl::getXForDelay` on floats,
`rc.getX() + rc.getWidth() * (t / (float)GdMaxDelay)`. -/
def FloatMiniMap.getXForDelay (GdMaxDelay : ℚ) (m : FloatMiniMap) (t : FloatValue) :
    FloatValue :=
  let rc := m.getDrawBounds
  rc.x.add (rc.w.mul (t.div (FloatValue.ofRat GdMaxDelay)))

/-- Pixel to time: `TapMiniMap::Impl::getDelayForX` on floats,
`(float)GdMaxDelay * ((x - rc.getX()) / rc.getWidth())`. -/
def FloatMiniMap.getDelayForX (GdMaxDelay : ℚ) (m : FloatMiniMap) (x : FloatValue) :
    FloatValue :=
  let rc := m.getDrawBounds
  (FloatValue.ofRat GdMaxDelay).mul ((x.sub rc.x).div rc.w)

/-- The window rectangle: `TapMiniMap::Impl::getRangeBounds` on floats. -/
def FloatMiniMap.getRangeBounds (GdMaxDelay : ℚ) (m : FloatMiniMap) : FloatRectangle :=
  let tr := m.timeRange_
  (m.getDrawBounds.withLeft (m.getXForDelay GdMaxDelay tr.start)).withRight
    (m.getXForDelay GdMaxDelay tr.end_)

/-- Listener call `miniMapRangeChanged (this, timeRange_)`. -/
def FloatMiniMap.announce (m : FloatMiniMap) : FloatMiniMap :=
  { m with announced := m.timeRange_ :: m.announced }

/-- Drag step: `TapMiniMap::mouseDrag` on floats, every operation rounding its
result. The position of the event is a float and is taken as it is; the `int`
values `getMouseDownX()` and `getWidth()` and the constant `GdMaxDelay` are
converted to float where the source converts them, and `0.2f` is the float
nearest to 1/5. -/
def FloatMiniMap.mouseDrag (GdMaxDelay : ℚ) (m : FloatMiniMap) (event : MouseEvent) :
    FloatMiniMap :=
  let kMinTimeRange : FloatValue := FloatValue.ofRat (1 / 5)
  match m.status_ with
  | MiniMapStatus.kStatusDraggingLeft =>
      let rangeBounds := m.getRangeBounds GdMaxDelay
      let minT : FloatValue := FloatValue.number 0
      let maxT := maxFloat minT
        ((m.getDelayForX GdMaxDelay rangeBounds.getRight).sub kMinTimeRange)
      let newT := jlimitFloat minT maxT (m.getDelayForX GdMaxDelay (FloatValue.number event.x))
      if m.timeRange_.start.ne newT then
        FloatMiniMap.announce { m with timeRange_ := m.timeRange_.setStart newT }
      else m
  | MiniMapStatus.kStatusDraggingRight =>
      let rangeBounds := m.getRangeBounds GdMaxDelay
      let maxT : FloatValue := FloatValue.ofRat GdMaxDelay
      let minT := minFloat maxT
        ((m.getDelayForX GdMaxDelay rangeBounds.x).add kMinTimeRange)
      let newT := jlimitFloat minT maxT (m.getDelayForX GdMaxDelay (FloatValue.number event.x))
      if m.timeRange_.end_.ne newT then
        FloatMiniMap.announce { m with timeRange_ := m.timeRange_.setEnd newT }
      else m
  | MiniMapStatus.kStatusMoving =>
      let dt : FloatValue := (FloatValue.ofRat GdMaxDelay).mul
        (((FloatValue.number event.x).sub (FloatValue.ofRat (event.mouseDownX : ℚ))).div
          (FloatValue.ofRat (m.width : ℚ)))
      let tr := m.timeRangeBeforeMove_
      let dt :=
        if (FloatValue.number 0).lt dt then
          minFloat dt ((FloatValue.ofRat GdMaxDelay).sub tr.end_)
        else if dt.lt (FloatValue.number 0) then maxFloat dt tr.start.neg
        else dt
      let tr := FloatRange.make (tr.start.add dt) (tr.end_.add dt)
      if m.timeRange_.ne tr then
        FloatMiniMap.announce { m with timeRange_ := tr }
      else m
  | MiniMapStatus.kStatusNormal => m

/-! ## Concrete data for the examples -/

/-- A two-parameter table: parameter 0 ranges over 0 to 10, parameter 1 over 0 to 1. -/
def exampleTable : ParameterTable :=
  { GD_PARAMETER_COUNT := 2
    GdParameterDefault := fun i => if i = 0 then 5 else 1
    convertFrom0to1 := fun i v => if i = 0 then 10 * v else v
    convertTo0to1 := fun i v => if i = 0 then v / 10 else v }

/-- A codec whose blocks hold the preset itself; the empty block does not parse. -/
def exampleCodec : PresetCodec (Option PresetFile) :=
  { saveToData := fun pst => (true, some pst)
    loadFromData := fun data =>
      match data with
      | some pst => pst
      | none => { valid := false, name := "", values := fun _ => 0 }
    makeDefault := { valid := true, name := "Default", values := fun i => if i = 0 then 5 else 1 } }

/-- A processor between `prepareToPlay` and `releaseResources`. -/
def exampleProcessor : Processor :=
  prepareToPlay exampleTable (Processor.init exampleTable true) 48000 512

/-- A mini-map 200 pixels wide showing the window from 1 s to 3 s. -/
def exampleMiniMap (status : MiniMapStatus) : TapMiniMap :=
  { width := 200, height := 20, timeRange_ := Range.make 1 3,
    timeRangeBeforeMove_ := Range.make 1 3, status_ := status, announced := [] }

/-- Sliders on the unit range showing 0, for the examples. -/
def exampleSliders : TapEditMode → TapSlider := fun _ => TapSlider.init 0 0 id

/-- A screen 420 pixels wide in which only taps 0 and 1 are enabled. -/
def exampleScreen : TapEditScreen :=
  { TapEditScreen.init 420 200 4 (fun _ => exampleSliders) with
    items_ := fun n =>
      { TapEditItem.init exampleSliders n with
        data_ := { enabled := decide (n < 2), delay := n }, visible := decide (n < 2) } }

/-- The three conditions on a mini-map window: it starts at or after 0, ends at or
before `GdMaxDelay`, and is at least 0.2 long. -/
def WindowWellFormed (GdMaxDelay : ℚ) (r : Range) : Prop :=
  0 ≤ r.start ∧ r.end_ ≤ GdMaxDelay ∧ r.end_ - r.start ≥ 1 / 5

/-- A mini-map in the middle of a move, with `GdMaxDelay` = 10: a new mini-map is
given the window from 8 s to 12 s, the mouse goes down inside that window at
x = 170, and the window is then set to 0 s to 1 s from outside. -/
def movedMiniMap : TapMiniMap :=
  ((((TapMiniMap.init 10).setTimeRange (Range.make 8 12) false).mouseDown 10
    { x := 170, y := 10, mouseDownX := 170, shiftDown := false }).setTimeRange
      (Range.make 0 1) false)

/-- A drag event at the place of the mouse-down, x = 170. -/
def stillEvent : MouseEvent := { x := 170, y := 10, mouseDownX := 170, shiftDown := false }

/-- An attachment whose combo box shows id 3. -/
def exampleAttachment : ComboBoxParameterAttachmentByID :=
  { selectedId := 3, ignoreCallbacks_ := false, sentToParameter := [] }

/-- An item in mode pan whose pan slider shows -1/2 on the range from -1 to 1, with
delay 3/2. -/
def panItem : TapEditItem :=
  { TapEditItem.init
      (fun _ =>
        { value := -1 / 2, minValue := 0, maxValue := 0, minimum := -1,
          valueToProportionOfLength := fun v => (v + 1) / 2, visible := false }) 2 with
    data_ := { enabled := true, delay := 3 / 2 }, visible := true,
    editMode_ := TapEditMode.kTapEditPan }

/-- A three-parameter table for tempo changes: parameter 0 is the sync switch,
parameters 1 and 2 are the delays of two taps, on the range from 0 to 10. -/
def tempoTable : ParameterTable :=
  { GD_PARAMETER_COUNT := 3
    GdParameterDefault := fun _ => 0
    convertFrom0to1 := fun i v => if i = 0 then v else 10 * v
    convertTo0to1 := fun i v => if i = 0 then v else v / 10 }

/-- A processor that knows the tempo 120, with sync on and tap delays 1 s and 2 s. -/
def tempoProcessor : Processor :=
  { gd_ := none, lastKnownBpm_ := 120, presetNameBuf_ := "",
    parameters := fun i => if i = 0 then 1 else if i = 1 then 1 / 10 else 1 / 5,
    mainInputIsStereo := true, editorUpdateTriggered := false }

/-- An environment with four taps, `GdMaxDelay` = 10, the thirteen per-tap
parameters in the order of the constructors, all defaults 0 except the level
default 1/2, no grid alignment, and labels 20 by 20. -/
def exampleEnv : EditorEnv :=
  { GdMaxLines := 4, GdMaxDelay := 10, GdNumPametersPerTap := 13,
    tapParameterAt := fun i =>
      [TapParameter.ENABLE, TapParameter.DELAY, TapParameter.LPF_CUTOFF,
        TapParameter.HPF_CUTOFF, TapParameter.RESONANCE, TapParameter.TUNE, TapParameter.PAN,
        TapParameter.LEVEL, TapParameter.FILTER_ENABLE, TapParameter.FILTER,
        TapParameter.TUNE_ENABLE, TapParameter.FLIP, TapParameter.MUTE].getD i
        (TapParameter.other i),
    GdParameterDefault := fun id =>
      match id with
      | GdParameter.tap TapParameter.LEVEL _ => 1 / 2
      | _ => 0,
    GdAlignDelayToGrid := fun d _ _ _ => d,
    GdFindNearestDivisor := fun _ => 4,
    labelWidth := 20, labelHeight := 20 }

/-- The example screen with taps 1 and 3 selected. -/
def selectionScreen : TapEditScreen :=
  { exampleScreen with
    items_ := fun n =>
      { exampleScreen.items_ n with tapSelected_ := decide (n = 1 ∨ n = 3) } }

/-- A play head that gives no position. -/
def silentPlayHead : AudioPlayHead := { getPosition := none }

/-- A play head that gives a position with the tempo 120. -/
def tempoPlayHead : AudioPlayHead := { getPosition := some { getBpm := some 120 } }

/-- A processor without an engine, with the preset name "Echo" and the normalised
parameter values 3/10 and 1/4. -/
def savedProcessor : Processor :=
  { gd_ := none, lastKnownBpm_ := -1, presetNameBuf_ := "Echo",
    parameters := fun i => if i = 0 then 3 / 10 else 1 / 4,
    mainInputIsStereo := true, editorUpdateTriggered := false }

/-- A screen in which only tap 0 is enabled, with the delay 16777215/33554432, the
largest `float` below 0.5. -/
def nearHalfScreen : TapEditScreen :=
  { TapEditScreen.init 420 200 4 (fun _ => exampleSliders) with
    items_ := fun n =>
      { TapEditItem.init exampleSliders n with
        data_ := { enabled := decide (n = 0), delay := 16777215 / 33554432 },
        visible := decide (n = 0) } }

/-- A mini-map on floats, 200 pixels wide, showing the window from 1 s to 3 s. -/
def exampleFloatMiniMap (status : MiniMapStatus) : FloatMiniMap :=
  { width := 200, height := 20,
    timeRange_ := { start := FloatValue.number 1, end_ := FloatValue.number 3 },
    timeRangeBeforeMove_ := { start := FloatValue.number 1, end_ := FloatValue.number 3 },
    status_ := status, announced := [] }

/-- A mini-map on floats, 256 pixels wide, in the middle of a move: the range
recorded at mouse-down runs from 0.1f = 13421773/134217728 to
0.4f = 13421773/33554432. -/
def tenthsMiniMap : FloatMiniMap :=
  { width := 256, height := 20,
    timeRange_ := { start := FloatValue.number (13421773 / 134217728),
                    end_ := FloatValue.number (13421773 / 33554432) },
    timeRangeBeforeMove_ := { start := FloatValue.number (13421773 / 134217728),
                              end_ := FloatValue.number (13421773 / 33554432) },
    status_ := MiniMapStatus.kStatusMoving, announced := [] }

/-- A mini-map on floats, 3 pixels wide, whose left edge is being dragged, showing
the window from 0 s to 64.0009765625 s = 65537/1024 s. -/
def longDelayMiniMap : FloatMiniMap :=
  { width := 3, height := 20,
    timeRange_ := { start := FloatValue.number 0, end_ := FloatValue.number (65537 / 1024) },
    timeRangeBeforeMove_ := { start := FloatValue.number 0, end_ := FloatValue.number 0 },
    status_ := MiniMapStatus.kStatusDraggingLeft, announced := [] }

/-! # Theorems -/

/-! ## Loop lemmas -/

theorem forLoop_zero {σ : Type} (body : Nat → σ → σ) (s : σ) : forLoop 0 body s = s := by
  simp [forLoop]

theorem forLoop_succ {σ : Type} (n : Nat) (body : Nat → σ → σ) (s : σ) :
    forLoop (n + 1) body s = body n (forLoop n body s) := by
  simp [forLoop, List.range_succ, List.foldl_append]

theorem setAt_other {α : Type} (a : Nat → α) (i j : Nat) (v : α) (h : j ≠ i) :
    setAt a i v j = a j := by
  simp [setAt, h]

/-! ## Processor: forwarding, mirroring and presets -/

theorem prepareLoop_parameters (f : Nat → ℚ) (gd : Gd) (n j : Nat) :
    (forLoop n (fun i gd => GdSetParameter gd i (f i)) gd).parameters j
      = if j < n then f j else gd.parameters j := by
  induction n with
  | zero => simp [forLoop_zero]
  | succ n ih =>
      rw [forLoop_succ]
      show setAt (forLoop n (fun i gd => GdSetParameter gd i (f i)) gd).parameters n (f n) j = _
      by_cases hj : j = n
      · subst hj; simp [setAt]
      · rw [setAt_other _ _ _ _ hj, ih]
        by_cases hlt : j < n
        · simp [hlt, Nat.lt_succ_of_lt hlt]
        · have : ¬ j < n + 1 := by omega
          simp [hlt, this]

theorem saveLoop_spec (f : Nat → ℚ) (pst : PresetFile) (n : Nat) :
    (forLoop n (fun i pst => { pst with values := setAt pst.values i (f i) }) pst).valid
        = pst.valid
      ∧ (forLoop n (fun i pst => { pst with values := setAt pst.values i (f i) }) pst).name
        = pst.name
      ∧ ∀ j, (forLoop n (fun i pst => { pst with values := setAt pst.values i (f i) })
          pst).values j = if j < n then f j else pst.values j := by
  induction n with
  | zero => simp [forLoop_zero]
  | succ n ih =>
      rw [forLoop_succ]
      obtain ⟨hv, hn, hvals⟩ := ih
      refine ⟨hv, hn, ?_⟩
      intro j
      simp only [setAt]
      by_cases hj : j = n
      · subst hj; simp
      · rw [if_neg hj, hvals]
        by_cases hlt : j < n
        · simp [hlt, Nat.lt_succ_of_lt hlt]
        · have : ¬ j < n + 1 := by omega
          simp [hlt, this]

theorem setValueNotifyingHost_parameters (P : ParameterTable) (s : Processor) (i : Nat)
    (v : ℚ) : (setValueNotifyingHost P s i v).parameters = setAt s.parameters i v := by
  unfold setValueNotifyingHost audioProcessorParameterChanged
  cases h : s.gd_ <;> simp [h]

theorem setValueNotifyingHost_name (P : ParameterTable) (s : Processor) (i : Nat)
    (v : ℚ) : (setValueNotifyingHost P s i v).presetNameBuf_ = s.presetNameBuf_ := by
  unfold setValueNotifyingHost audioProcessorParameterChanged
  cases h : s.gd_ <;> simp [h]

theorem setValueNotifyingHost_gd (P : ParameterTable) (s : Processor) (i : Nat) (v : ℚ) :
    (setValueNotifyingHost P s i v).gd_
      = s.gd_.map (fun gd => GdSetParameter gd i (P.convertFrom0to1 i v)) := by
  unfold setValueNotifyingHost audioProcessorParameterChanged
  cases h : s.gd_ <;> simp [h]

theorem loadLoop_spec (P : ParameterTable) (g : Nat → ℚ) (s : Processor) (n : Nat) :
    (forLoop n (fun i s => setValueNotifyingHost P s i (g i)) s).presetNameBuf_
        = s.presetNameBuf_
      ∧ ∀ j, (forLoop n (fun i s => setValueNotifyingHost P s i (g i)) s).parameters j
          = if j < n then g j else s.parameters j := by
  induction n with
  | zero => simp [forLoop_zero]
  | succ n ih =>
      rw [forLoop_succ]
      obtain ⟨hn, hvals⟩ := ih
      refine ⟨by rw [setValueNotifyingHost_name, hn], ?_⟩
      intro j
      rw [setValueNotifyingHost_parameters]
      simp only [setAt]
      by_cases hj : j = n
      · subst hj; simp
      · rw [if_neg hj, hvals]
        by_cases hlt : j < n
        · simp [hlt, Nat.lt_succ_of_lt hlt]
        · have : ¬ j < n + 1 := by omega
          simp [hlt, this]

theorem prepareToPlay_mirrors (P : ParameterTable) (s : Processor) (sampleRate : ℚ)
    (samplesPerBlock : Nat) : EngineMirrorsHost P (prepareToPlay P s sampleRate samplesPerBlock) := by
  refine ⟨_, rfl, ?_⟩
  intro i hi
  have hpar : (prepareToPlay P s sampleRate samplesPerBlock).parameters = s.parameters := rfl
  rw [hpar]
  simp only [GdClear]
  rw [prepareLoop_parameters]
  simp [hi]

theorem setValueNotifyingHost_mirrors (P : ParameterTable) (s : Processor) (i : Nat) (v : ℚ)
    (h : EngineMirrorsHost P s) : EngineMirrorsHost P (setValueNotifyingHost P s i v) := by
  obtain ⟨gd, hgd, hpar⟩ := h
  refine ⟨GdSetParameter gd i (P.convertFrom0to1 i v), ?_, ?_⟩
  · rw [setValueNotifyingHost_gd, hgd]; rfl
  · intro j hj
    rw [setValueNotifyingHost_parameters]
    simp only [GdSetParameter, setAt]
    by_cases hji : j = i
    · subst hji; simp
    · simp [hji, hpar j hj]

theorem changes_mirror (P : ParameterTable) (changes : List (Nat × ℚ)) (s : Processor)
    (h : EngineMirrorsHost P s) :
    EngineMirrorsHost P
      (changes.foldl (fun s c => setValueNotifyingHost P s c.1 c.2) s) := by
  induction changes generalizing s with
  | nil => simpa using h
  | cons c rest ih =>
      simp only [List.foldl_cons]
      exact ih _ (setValueNotifyingHost_mirrors P s c.1 c.2 h)

theorem loadLoop_mirrors (P : ParameterTable) (g : Nat → ℚ) (n : Nat) (s : Processor)
    (h : EngineMirrorsHost P s) :
    EngineMirrorsHost P (forLoop n (fun i s => setValueNotifyingHost P s i (g i)) s) := by
  induction n with
  | zero => simpa [forLoop_zero] using h
  | succ n ih =>
      rw [forLoop_succ]
      exact setValueNotifyingHost_mirrors P _ n (g n) ih

/-- C1: `audioProcessorParameterChanged` forwards a parameter change to the engine.
With an engine present, the engine afterwards holds `convertFrom0to1 i v` as its
parameter `i`, every other engine parameter and every other engine setting is as
before, and the host-side state is untouched; without an engine the call changes
nothing. No engine exists after construction and after `releaseResources`. -/
theorem audioProcessorParameterChanged_forwards (P : ParameterTable) (s : Processor)
    (i : Nat) (v : ℚ) :
    (∀ gd, s.gd_ = some gd →
      ∃ gd', (audioProcessorParameterChanged P s i v).gd_ = some gd'
        ∧ gd'.parameters i = P.convertFrom0to1 i v
        ∧ (∀ j, j ≠ i → gd'.parameters j = gd.parameters j)
        ∧ gd'.tempo = gd.tempo ∧ gd'.sampleRate = gd.sampleRate
        ∧ gd'.bufferSize = gd.bufferSize
        ∧ (audioProcessorParameterChanged P s i v).parameters = s.parameters
        ∧ (audioProcessorParameterChanged P s i v).presetNameBuf_ = s.presetNameBuf_
        ∧ (audioProcessorParameterChanged P s i v).lastKnownBpm_ = s.lastKnownBpm_)
    ∧ (s.gd_ = none → audioProcessorParameterChanged P s i v = s)
    ∧ (∀ stereo, (Processor.init P stereo).gd_ = none)
    ∧ (releaseResources s).gd_ = none := by
  refine ⟨?_, ?_, fun _ => rfl, rfl⟩
  · intro gd hgd
    refine ⟨GdSetParameter gd i (P.convertFrom0to1 i v), ?_, ?_, ?_, rfl, rfl, rfl, ?_, ?_, ?_⟩
    · simp [audioProcessorParameterChanged, hgd]
    · simp [GdSetParameter, setAt]
    · intro j hj
      simp [GdSetParameter, setAt, hj]
    · simp [audioProcessorParameterChanged, hgd]
    · simp [audioProcessorParameterChanged, hgd]
    · simp [audioProcessorParameterChanged, hgd]
  · intro hnone
    simp [audioProcessorParameterChanged, hnone]

/-- C1 at a concrete processor: reporting the normalised value 1/2 for parameter 0
of the two-parameter example gives the engine the value 5 there and leaves
parameter 1 at 1. -/
theorem audioProcessorParameterChanged_forwards_witness :
    ∃ gd', (audioProcessorParameterChanged exampleTable exampleProcessor 0 (1 / 2)).gd_
        = some gd' ∧ gd'.parameters 0 = 5 ∧ gd'.parameters 1 = 1 := by
  have hgd : ∃ gd, exampleProcessor.gd_ = some gd ∧ gd.parameters 1 = 1 := by
    refine ⟨_, rfl, ?_⟩
    simp only [GdClear]
    rw [prepareLoop_parameters]
    simp [exampleTable, Processor.init]
  obtain ⟨gd, hgd, h1⟩ := hgd
  obtain ⟨gd', h, hi, hother, _⟩ :=
    (audioProcessorParameterChanged_forwards exampleTable exampleProcessor 0 (1 / 2)).1 gd hgd
  refine ⟨gd', h, ?_, ?_⟩
  · rw [hi]; norm_num [exampleTable]
  · rw [hother 1 (by decide), h1]

/-- C2: presets persist. Saving the state of a processor and loading the saved
block, into the same processor or into any other, gives the preset name and
every one of the `GD_PARAMETER_COUNT` parameter values of the saved state,
provided the codec loads back what it saved and `convertTo0to1` undoes
`convertFrom0to1` at the values that the saved state holds. In particular
saving and loading in place changes neither the name nor a parameter. -/
theorem setStateInformation_getStateInformation {Blob : Type} (P : ParameterTable)
    (C : PresetCodec Blob) (s t : Processor)
    (hcodec : ∀ pst : PresetFile, pst.valid = true →
      (C.loadFromData (C.saveToData pst).2).valid = true
        ∧ (C.loadFromData (C.saveToData pst).2).name = pst.name
        ∧ ∀ i, i < P.GD_PARAMETER_COUNT →
            (C.loadFromData (C.saveToData pst).2).values i = pst.values i)
    (hconv : ∀ i, i < P.GD_PARAMETER_COUNT →
      P.convertTo0to1 i (P.convertFrom0to1 i (s.parameters i)) = s.parameters i) :
    ((setStateInformation P C t (getStateInformation P C s)).presetNameBuf_ = s.presetNameBuf_
        ∧ ∀ i, i < P.GD_PARAMETER_COUNT →
            (setStateInformation P C t (getStateInformation P C s)).parameters i
              = s.parameters i)
      ∧ ((setStateInformation P C s (getStateInformation P C s)).presetNameBuf_
          = s.presetNameBuf_
        ∧ ∀ i, i < P.GD_PARAMETER_COUNT →
            (setStateInformation P C s (getStateInformation P C s)).parameters i
              = s.parameters i) := by
  obtain ⟨hv, hn, hvals⟩ := saveLoop_spec (fun i => P.convertFrom0to1 i (s.parameters i))
    { valid := true, name := s.presetNameBuf_, values := fun _ => 0 } P.GD_PARAMETER_COUNT
  obtain ⟨lv, ln, lvals⟩ := hcodec _ hv
  have key : ∀ u : Processor,
      (setStateInformation P C u (getStateInformation P C s)).presetNameBuf_ = s.presetNameBuf_
        ∧ ∀ i, i < P.GD_PARAMETER_COUNT →
            (setStateInformation P C u (getStateInformation P C s)).parameters i
              = s.parameters i := by
    intro u
    unfold setStateInformation getStateInformation
    simp only [lv, Bool.not_true, Bool.false_eq_true, if_false]
    constructor
    · rw [(loadLoop_spec P _ _ _).1]
      simp only [ln, hn]
    · intro i hi
      rw [(loadLoop_spec P _ _ _).2 i]
      simp only [hi, if_true]
      rw [lvals i hi, hvals i]
      simp only [hi, if_true]
      exact hconv i hi
  exact ⟨key t, key s⟩

/-- C2 at concrete processors: the state named "Echo" with the normalised values
3/10 and 1/4 is saved and the block is loaded into a newly constructed
processor, which then has the name "Echo" and the values 3/10 and 1/4 instead of
its defaults. -/
theorem setStateInformation_getStateInformation_witness :
    (Processor.init exampleTable false).parameters 0 = 1 / 2
      ∧ (setStateInformation exampleTable exampleCodec (Processor.init exampleTable false)
          (getStateInformation exampleTable exampleCodec savedProcessor)).presetNameBuf_
        = "Echo"
      ∧ (setStateInformation exampleTable exampleCodec (Processor.init exampleTable false)
          (getStateInformation exampleTable exampleCodec savedProcessor)).parameters 0 = 3 / 10
      ∧ (setStateInformation exampleTable exampleCodec (Processor.init exampleTable false)
          (getStateInformation exampleTable exampleCodec savedProcessor)).parameters 1
        = 1 / 4 := by
  obtain ⟨⟨hname, hpar⟩, _⟩ :=
    setStateInformation_getStateInformation exampleTable exampleCodec savedProcessor
      (Processor.init exampleTable false)
      (by intro pst hv; exact ⟨hv, rfl, fun _ _ => rfl⟩)
      (by
        intro i _
        by_cases h : i = 0
        · simp only [exampleTable, h, if_true]; ring
        · simp only [exampleTable, h, if_false])
  refine ⟨by norm_num [Processor.init, exampleTable], ?_, ?_, ?_⟩
  · rw [hname]; rfl
  · rw [hpar 0 (by decide)]; rfl
  · rw [hpar 1 (by decide)]; rfl

/-- C3: `setStateInformation` on data that does not load as a valid preset applies
the default preset in full. Afterwards the name is the default preset's name and
every parameter below `GD_PARAMETER_COUNT` has been set to the default preset's
value: it holds `convertTo0to1` of that value, which reads back as the value
itself whenever the value survives normalisation. The outcome is the same for
every earlier state and for every block that fails to load. -/
theorem setStateInformation_invalid_applies_default {Blob : Type} (P : ParameterTable)
    (C : PresetCodec Blob) (s : Processor) (data : Blob)
    (hinvalid : (C.loadFromData data).valid = false) :
    (setStateInformation P C s data).presetNameBuf_ = C.makeDefault.name
      ∧ (∀ i, i < P.GD_PARAMETER_COUNT →
          (setStateInformation P C s data).parameters i
            = P.convertTo0to1 i (C.makeDefault.values i))
      ∧ ((∀ i, i < P.GD_PARAMETER_COUNT →
            P.convertFrom0to1 i (P.convertTo0to1 i (C.makeDefault.values i))
              = C.makeDefault.values i) →
          ∀ i, i < P.GD_PARAMETER_COUNT →
            P.convertFrom0to1 i ((setStateInformation P C s data).parameters i)
              = C.makeDefault.values i)
      ∧ (∀ (s' : Processor) (data' : Blob), (C.loadFromData data').valid = false →
          (setStateInformation P C s' data').presetNameBuf_
              = (setStateInformation P C s data).presetNameBuf_
            ∧ ∀ i, i < P.GD_PARAMETER_COUNT →
                (setStateInformation P C s' data').parameters i
                  = (setStateInformation P C s data).parameters i) := by
  have key : ∀ (t : Processor) (d : Blob), (C.loadFromData d).valid = false →
      (setStateInformation P C t d).presetNameBuf_ = C.makeDefault.name
        ∧ ∀ i, i < P.GD_PARAMETER_COUNT →
            (setStateInformation P C t d).parameters i
              = P.convertTo0to1 i (C.makeDefault.values i) := by
    intro t d hd
    unfold setStateInformation
    simp only [hd, Bool.not_false, if_true]
    constructor
    · rw [(loadLoop_spec P _ _ _).1]
    · intro i hi
      rw [(loadLoop_spec P _ _ _).2 i]
      simp only [hi, if_true]
  obtain ⟨hname, hpar⟩ := key s data hinvalid
  refine ⟨hname, hpar, ?_, ?_⟩
  · intro hlegal i hi
    rw [hpar i hi, hlegal i hi]
  · intro s' data' hd'
    obtain ⟨hname', hpar'⟩ := key s' data' hd'
    refine ⟨by rw [hname', hname], ?_⟩
    intro i hi
    rw [hpar' i hi, hpar i hi]

/-- C3 at a concrete processor: the empty block does not parse with the example
codec, so loading it names the preset "Default" and sets the two parameters to
the normalised defaults 1/2 and 1. -/
theorem setStateInformation_invalid_applies_default_witness :
    (setStateInformation exampleTable exampleCodec exampleProcessor none).presetNameBuf_
        = "Default"
      ∧ (setStateInformation exampleTable exampleCodec exampleProcessor none).parameters 0
        = 1 / 2
      ∧ (setStateInformation exampleTable exampleCodec exampleProcessor none).parameters 1
        = 1 := by
  obtain ⟨hname, hpar, _⟩ :=
    setStateInformation_invalid_applies_default exampleTable exampleCodec exampleProcessor
      none rfl
  refine ⟨hname, ?_, ?_⟩
  · rw [hpar 0 (by decide)]; norm_num [exampleTable, exampleCodec]
  · rw [hpar 1 (by decide)]; norm_num [exampleTable, exampleCodec]

/-- C4: after `prepareToPlay` an engine exists and mirrors the host parameters, and
the mirror survives every later sequence of notified parameter changes and every
preset load, which sets parameters through the same notification. -/
theorem prepareToPlay_engine_mirrors_host {Blob : Type} (P : ParameterTable)
    (C : PresetCodec Blob) (s : Processor) (sampleRate : ℚ) (samplesPerBlock : Nat) :
    (∃ gd, (prepareToPlay P s sampleRate samplesPerBlock).gd_ = some gd ∧
        ∀ i, i < P.GD_PARAMETER_COUNT →
          gd.parameters i = P.convertFrom0to1 i
            ((prepareToPlay P s sampleRate samplesPerBlock).parameters i))
      ∧ (∀ changes : List (Nat × ℚ),
          EngineMirrorsHost P
            (changes.foldl (fun s c => setValueNotifyingHost P s c.1 c.2)
              (prepareToPlay P s sampleRate samplesPerBlock)))
      ∧ (∀ (t : Processor) (i : Nat) (v : ℚ), EngineMirrorsHost P t →
          EngineMirrorsHost P (setValueNotifyingHost P t i v))
      ∧ (∀ (t : Processor) (data : Blob), EngineMirrorsHost P t →
          EngineMirrorsHost P (setStateInformation P C t data)) := by
  refine ⟨prepareToPlay_mirrors P s sampleRate samplesPerBlock, ?_, ?_, ?_⟩
  · intro changes
    exact changes_mirror P changes _ (prepareToPlay_mirrors P s sampleRate samplesPerBlock)
  · intro t i v ht
    exact setValueNotifyingHost_mirrors P t i v ht
  · intro t data ht
    unfold setStateInformation
    have hname : EngineMirrorsHost P
        { t with presetNameBuf_ :=
            (if !(C.loadFromData data).valid then C.makeDefault else C.loadFromData data).name } := by
      obtain ⟨gd, hgd, hpar⟩ := ht
      exact ⟨gd, hgd, hpar⟩
    obtain ⟨gd, hgd, hpar⟩ := loadLoop_mirrors P
      (fun i => P.convertTo0to1 i
        ((if !(C.loadFromData data).valid then C.makeDefault else C.loadFromData data).values i))
      P.GD_PARAMETER_COUNT _ hname
    exact ⟨gd, hgd, hpar⟩

/-- C4 at a concrete processor: after `prepareToPlay` and the changes of parameter
0 to 1/5 and then to 3/10, the engine of the example holds 3 for parameter 0. -/
theorem prepareToPlay_engine_mirrors_host_witness :
    ∃ gd, (setValueNotifyingHost exampleTable
        (setValueNotifyingHost exampleTable exampleProcessor 0 (1 / 5)) 0 (3 / 10)).gd_ = some gd
      ∧ gd.parameters 0 = 3 := by
  obtain ⟨gd, hgd, hpar⟩ :=
    (prepareToPlay_engine_mirrors_host exampleTable exampleCodec
      (Processor.init exampleTable true) 48000 512).2.1 [(0, 1 / 5), (0, 3 / 10)]
  refine ⟨gd, hgd, ?_⟩
  have h0 := hpar 0 (by decide)
  rw [h0]
  simp only [List.foldl_cons, List.foldl_nil, setValueNotifyingHost_parameters]
  norm_num [exampleTable, setAt]

/-! ## Binary32 rounding -/

theorem roundHalfEven_ge (q : ℚ) (n : Int) (h : (n : ℚ) ≤ q) : n ≤ roundHalfEven q := by
  have hf : n ≤ ⌊q⌋ := Int.le_floor.mpr h
  unfold roundHalfEven
  simp only
  split_ifs <;> omega

theorem roundHalfEven_le (q : ℚ) (n : Int) (h : q ≤ (n : ℚ)) : roundHalfEven q ≤ n := by
  unfold roundHalfEven
  simp only
  rcases eq_or_lt_of_le h with heq | hlt
  · subst heq
    simp
  · have hf : ⌊q⌋ < n := Int.floor_lt.mpr hlt
    split_ifs <;> omega

theorem log_two_lt (x : ℚ) (hx : x ≠ 0) (e : Int) (h : |x| < (2 : ℚ) ^ e) :
    Int.log 2 |x| < e := by
  have hpos : 0 < |x| := abs_pos.mpr hx
  exact (Int.lt_zpow_iff_log_lt (by norm_num) hpos).mp (by exact_mod_cast h)

theorem ulpExponent_ge (x : ℚ) : -149 ≤ ulpExponent x := by
  unfold ulpExponent
  have := le_max_right (Int.log 2 |x|) (-126)
  omega

theorem ulpExponent_le (x : ℚ) (g : Int) (hx : x ≠ 0) (hg : -149 ≤ g)
    (h : |x| < (2 : ℚ) ^ (g + 24)) : ulpExponent x ≤ g := by
  have hlog := log_two_lt x hx (g + 24) h
  unfold ulpExponent
  have hmax : max (Int.log 2 |x|) (-126) ≤ g + 23 := max_le (by omega) (by omega)
  omega

theorem roundToFloat_zero : roundToFloat 0 = 0 := by
  simp [roundToFloat, roundHalfEven]

theorem grid_point (k g u : Int) (hu : u ≤ g) :
    ∃ K : Int, (K : ℚ) = (k : ℚ) * (2 : ℚ) ^ g / (2 : ℚ) ^ u := by
  refine ⟨k * 2 ^ (g - u).toNat, ?_⟩
  have hsplit : (2 : ℚ) ^ g = (2 : ℚ) ^ u * (2 : ℚ) ^ (g - u).toNat := by
    rw [← zpow_natCast, Int.toNat_of_nonneg (by omega), ← zpow_add₀ (by norm_num)]
    congr 1
    ring
  have hpos : (2 : ℚ) ^ u ≠ 0 := zpow_ne_zero _ (by norm_num)
  rw [hsplit]
  push_cast
  field_simp
  ring

theorem roundToFloat_grid (x : ℚ) (k g : Int) (hg : -149 ≤ g)
    (h : |x| < (2 : ℚ) ^ (g + 24)) :
    ((k : ℚ) * (2 : ℚ) ^ g ≤ x → (k : ℚ) * (2 : ℚ) ^ g ≤ roundToFloat x)
      ∧ (x ≤ (k : ℚ) * (2 : ℚ) ^ g → roundToFloat x ≤ (k : ℚ) * (2 : ℚ) ^ g) := by
  by_cases hx : x = 0
  · subst hx
    rw [roundToFloat_zero]
    exact ⟨fun h => h, fun h => h⟩
  · have hu := ulpExponent_le x g hx hg h
    obtain ⟨K, hK⟩ := grid_point k g (ulpExponent x) hu
    have hpos : (0 : ℚ) < (2 : ℚ) ^ ulpExponent x := zpow_pos (by norm_num) _
    have hback : (k : ℚ) * (2 : ℚ) ^ g = (K : ℚ) * (2 : ℚ) ^ ulpExponent x := by
      rw [hK]
      field_simp
    constructor
    · intro hle
      have h1 : (K : ℚ) ≤ x / (2 : ℚ) ^ ulpExponent x := by
        rw [hK]
        exact div_le_div_of_nonneg_right hle (le_of_lt hpos)
      have h2 := roundHalfEven_ge _ K h1
      rw [hback]
      unfold roundToFloat
      exact mul_le_mul_of_nonneg_right (by exact_mod_cast h2) (le_of_lt hpos)
    · intro hle
      have h1 : x / (2 : ℚ) ^ ulpExponent x ≤ (K : ℚ) := by
        rw [hK]
        exact div_le_div_of_nonneg_right hle (le_of_lt hpos)
      have h2 := roundHalfEven_le _ K h1
      rw [hback]
      unfold roundToFloat
      exact mul_le_mul_of_nonneg_right (by exact_mod_cast h2) (le_of_lt hpos)

theorem roundToFloat_exact (k g : Int) (hk : |k| ≤ 2 ^ 24) (hg : -149 ≤ g) :
    roundToFloat ((k : ℚ) * (2 : ℚ) ^ g) = (k : ℚ) * (2 : ℚ) ^ g := by
  have hpos : (0 : ℚ) < (2 : ℚ) ^ g := zpow_pos (by norm_num) _
  rcases lt_or_eq_of_le hk with hlt | heq
  · have habs : |(k : ℚ) * (2 : ℚ) ^ g| < (2 : ℚ) ^ (g + 24) := by
      rw [abs_mul, abs_of_pos hpos, zpow_add₀ (by norm_num), mul_comm]
      apply mul_lt_mul_of_pos_left _ hpos
      have h1 : ((|k| : Int) : ℚ) < ((2 ^ 24 : Int) : ℚ) := by exact_mod_cast hlt
      rw [Int.cast_abs] at h1
      exact lt_of_lt_of_eq h1 (by norm_num)
    obtain ⟨h1, h2⟩ := roundToFloat_grid ((k : ℚ) * (2 : ℚ) ^ g) k g hg habs
    exact le_antisymm (h2 (le_refl _)) (h1 (le_refl _))
  · have hk2 : ∃ j : Int, k = 2 * j ∧ |j| = 2 ^ 23 := by
      rcases abs_eq (by norm_num : (0 : Int) ≤ 2 ^ 24) |>.mp heq with h | h
      · exact ⟨2 ^ 23, by rw [h]; norm_num, by norm_num⟩
      · exact ⟨-2 ^ 23, by rw [h]; norm_num, by norm_num⟩
    obtain ⟨j, hj, hjabs⟩ := hk2
    have hre : (k : ℚ) * (2 : ℚ) ^ g = (j : ℚ) * (2 : ℚ) ^ (g + 1) := by
      rw [hj, zpow_add₀ (by norm_num)]
      push_cast
      ring
    have hpos1 : (0 : ℚ) < (2 : ℚ) ^ (g + 1) := zpow_pos (by norm_num) _
    have habs : |(j : ℚ) * (2 : ℚ) ^ (g + 1)| < (2 : ℚ) ^ (g + 1 + 24) := by
      rw [abs_mul, abs_of_pos hpos1, zpow_add₀ (by norm_num) (g + 1), mul_comm]
      apply mul_lt_mul_of_pos_left _ hpos1
      have h1 : ((|j| : Int) : ℚ) < ((2 ^ 24 : Int) : ℚ) := by
        rw [hjabs]; norm_num
      rw [Int.cast_abs] at h1
      exact lt_of_lt_of_eq h1 (by norm_num)
    rw [hre]
    obtain ⟨h1, h2⟩ := roundToFloat_grid ((j : ℚ) * (2 : ℚ) ^ (g + 1)) j (g + 1) (by omega) habs
    exact le_antisymm (h2 (le_refl _)) (h1 (le_refl _))

theorem roundToFloat_repr (x : ℚ) :
    ∃ (N u : Int), roundToFloat x = (N : ℚ) * (2 : ℚ) ^ u ∧ |N| ≤ 2 ^ 24 ∧ -149 ≤ u := by
  refine ⟨roundHalfEven (x / (2 : ℚ) ^ ulpExponent x), ulpExponent x, rfl, ?_,
    ulpExponent_ge x⟩
  have hpos : (0 : ℚ) < (2 : ℚ) ^ ulpExponent x := zpow_pos (by norm_num) _
  have hbound : |x| / (2 : ℚ) ^ ulpExponent x ≤ (2 : ℚ) ^ (24 : Int) := by
    by_cases hx : x = 0
    · subst hx
      simp
      positivity
    · have hposx : 0 < |x| := abs_pos.mpr hx
      have hlt : |x| < (2 : ℚ) ^ (Int.log 2 |x| + 1) := by
        have := Int.lt_zpow_succ_log_self (b := 2) (by norm_num) |x|
        exact_mod_cast this
      have hu : Int.log 2 |x| + 1 ≤ ulpExponent x + 24 := by
        unfold ulpExponent
        have := le_max_left (Int.log 2 |x|) (-126)
        omega
      have hle : (2 : ℚ) ^ (Int.log 2 |x| + 1) ≤ (2 : ℚ) ^ (ulpExponent x + 24) :=
        zpow_le_zpow_right₀ (by norm_num) hu
      rw [div_le_iff₀ hpos, ← zpow_add₀ (by norm_num), add_comm]
      exact le_of_lt (lt_of_lt_of_le hlt hle)
  have habs : |x / (2 : ℚ) ^ ulpExponent x| ≤ (2 : ℚ) ^ (24 : Int) := by
    rw [abs_div, abs_of_pos hpos]
    exact hbound
  obtain ⟨hlo, hhi⟩ := abs_le.mp habs
  have h1 := roundHalfEven_le (x / (2 : ℚ) ^ ulpExponent x) (2 ^ 24) (by
    have : ((2 ^ 24 : Int) : ℚ) = (2 : ℚ) ^ (24 : Int) := by norm_num
    rw [this]; exact hhi)
  have h2 := roundHalfEven_ge (x / (2 : ℚ) ^ ulpExponent x) (-2 ^ 24) (by
    have : ((-2 ^ 24 : Int) : ℚ) = -(2 : ℚ) ^ (24 : Int) := by norm_num
    rw [this]; exact hlo)
  exact abs_le.mpr ⟨h2, h1⟩

theorem roundToFloat_idem (x : ℚ) : roundToFloat (roundToFloat x) = roundToFloat x := by
  obtain ⟨N, u, h, hN, hu⟩ := roundToFloat_repr x
  rw [h]
  exact roundToFloat_exact N u hN hu

theorem roundToFloat_double (x : ℚ) :
    roundToFloat (2 * roundToFloat x) = 2 * roundToFloat x := by
  obtain ⟨N, u, h, hN, hu⟩ := roundToFloat_repr x
  have hre : 2 * roundToFloat x = (N : ℚ) * (2 : ℚ) ^ (u + 1) := by
    rw [h, zpow_add₀ (by norm_num)]
    ring
  rw [hre]
  exact roundToFloat_exact N (u + 1) hN (by omega)

theorem roundHalfEven_mono (a b : ℚ) (h : a ≤ b) : roundHalfEven a ≤ roundHalfEven b := by
  have hf : ⌊a⌋ ≤ ⌊b⌋ := Int.floor_mono h
  rcases eq_or_lt_of_le hf with heq | hlt
  · unfold roundHalfEven
    simp only [heq]
    have hab : a - (⌊b⌋ : ℚ) ≤ b - (⌊b⌋ : ℚ) := by linarith
    split_ifs <;> first | omega | (exfalso; linarith)
  · have h1 : roundHalfEven a ≤ ⌊a⌋ + 1 := by
      unfold roundHalfEven
      simp only
      split_ifs <;> omega
    have h2 : ⌊b⌋ ≤ roundHalfEven b := roundHalfEven_ge b ⌊b⌋ (Int.floor_le b)
    omega

theorem roundHalfEven_intCast (n : Int) : roundHalfEven (n : ℚ) = n := by
  exact le_antisymm (roundHalfEven_le _ n (le_refl _)) (roundHalfEven_ge _ n (le_refl _))

theorem roundHalfEven_neg (q : ℚ) : roundHalfEven (-q) = -roundHalfEven q := by
  by_cases hint : (⌊q⌋ : ℚ) = q
  · rw [← hint, ← Int.cast_neg, roundHalfEven_intCast, roundHalfEven_intCast]
  · have hlt : (⌊q⌋ : ℚ) < q := lt_of_le_of_ne (Int.floor_le q) hint
    have hfl : ⌊-q⌋ = -⌊q⌋ - 1 := by
      rw [Int.floor_eq_iff]
      have := Int.lt_floor_add_one q
      push_cast
      constructor <;> linarith
    unfold roundHalfEven
    simp only [hfl]
    push_cast
    have hup := Int.lt_floor_add_one q
    split_ifs <;> first | omega | (exfalso; linarith)

theorem roundToFloat_neg (x : ℚ) : roundToFloat (-x) = -roundToFloat x := by
  unfold roundToFloat ulpExponent
  rw [abs_neg, neg_div, roundHalfEven_neg]
  push_cast
  ring

theorem ulpExponent_mono (x y : ℚ) (hx : 0 < x) (h : x ≤ y) : ulpExponent x ≤ ulpExponent y := by
  unfold ulpExponent
  have hlog : Int.log 2 |x| ≤ Int.log 2 |y| := by
    rw [abs_of_pos hx, abs_of_pos (lt_of_lt_of_le hx h)]
    exact Int.log_mono_right hx h
  have := max_le_max hlog (le_refl (-126 : Int))
  omega

theorem roundToFloat_mono_pos (x y : ℚ) (hx : 0 < x) (h : x ≤ y) :
    roundToFloat x ≤ roundToFloat y := by
  have hy : 0 < y := lt_of_lt_of_le hx h
  have hu := ulpExponent_mono x y hx h
  rcases eq_or_lt_of_le hu with heq | hlt
  · unfold roundToFloat
    rw [heq]
    have hpos : (0 : ℚ) < (2 : ℚ) ^ ulpExponent y := zpow_pos (by norm_num) _
    have := roundHalfEven_mono (x / (2 : ℚ) ^ ulpExponent y) (y / (2 : ℚ) ^ ulpExponent y)
      (div_le_div_of_nonneg_right h (le_of_lt hpos))
    exact mul_le_mul_of_nonneg_right (by exact_mod_cast this) (le_of_lt hpos)
  · have hlogy : Int.log 2 |y| = ulpExponent y + 23 := by
      unfold ulpExponent at hlt ⊢
      have h1 := le_max_right (Int.log 2 |x|) (-126)
      rcases max_choice (Int.log 2 |y|) (-126) with hm | hm
      · rw [hm]; ring
      · rw [hm] at hlt; omega
    have hlogx : Int.log 2 |x| < ulpExponent y + 23 := by
      unfold ulpExponent at hlt
      have h1 := le_max_left (Int.log 2 |x|) (-126)
      omega
    have hc1 : (2 : ℚ) ^ (ulpExponent y + 23) ≤ y := by
      have := Int.zpow_log_le_self (b := 2) (r := |y|) (by norm_num)
        (abs_pos.mpr (ne_of_gt hy))
      rw [hlogy, abs_of_pos hy] at this
      exact_mod_cast this
    have hc2 : x < (2 : ℚ) ^ (ulpExponent y + 23) := by
      have := Int.lt_zpow_succ_log_self (b := 2) (by norm_num) |x|
      rw [abs_of_pos hx] at this
      have hle : (2 : ℚ) ^ (Int.log 2 |x| + 1) ≤ (2 : ℚ) ^ (ulpExponent y + 23) :=
        zpow_le_zpow_right₀ (by norm_num) (by omega)
      rw [abs_of_pos hx] at hle
      exact lt_of_lt_of_le (by exact_mod_cast this) hle
    have hyabs : |y| < (2 : ℚ) ^ (ulpExponent y + 24) := by
      have := Int.lt_zpow_succ_log_self (b := 2) (by norm_num) |y|
      rw [hlogy] at this
      have he : ulpExponent y + 23 + 1 = ulpExponent y + 24 := by ring
      rw [he] at this
      exact_mod_cast this
    have hxabs : |x| < (2 : ℚ) ^ (ulpExponent y + 23 + 24) := by
      rw [abs_of_pos hx]
      exact lt_of_lt_of_le hc2 (zpow_le_zpow_right₀ (by norm_num) (by omega))
    have hgy := (roundToFloat_grid y (2 ^ 23) (ulpExponent y) (ulpExponent_ge y) hyabs).1
    have hgx := (roundToFloat_grid x 1 (ulpExponent y + 23)
      (by have := ulpExponent_ge y; omega) hxabs).2
    have hsame : ((2 ^ 23 : Int) : ℚ) * (2 : ℚ) ^ ulpExponent y
        = ((1 : Int) : ℚ) * (2 : ℚ) ^ (ulpExponent y + 23) := by
      rw [zpow_add₀ (by norm_num)]
      norm_num
      ring
    have h1 := hgy (by rw [hsame]; simpa using hc1)
    have h2 := hgx (by simpa using le_of_lt hc2)
    rw [hsame] at h1
    exact le_trans h2 h1

theorem roundToFloat_mono (x y : ℚ) (h : x ≤ y) : roundToFloat x ≤ roundToFloat y := by
  have hzero : ∀ z : ℚ, 0 ≤ z → 0 ≤ roundToFloat z := by
    intro z hz
    rcases eq_or_lt_of_le hz with h0 | hpos
    · rw [← h0, roundToFloat_zero]
    · have := roundToFloat_mono_pos z z hpos (le_refl z)
      have hg := (roundToFloat_grid z 0 (ulpExponent z) (ulpExponent_ge z) (by
        have := Int.lt_zpow_succ_log_self (b := 2) (by norm_num) |z|
        have hle : (2 : ℚ) ^ (Int.log 2 |z| + 1) ≤ (2 : ℚ) ^ (ulpExponent z + 24) :=
          zpow_le_zpow_right₀ (by norm_num) (by
            unfold ulpExponent
            have := le_max_left (Int.log 2 |z|) (-126)
            omega)
        exact lt_of_lt_of_le (by exact_mod_cast this) hle)).1
      simpa using hg (by simpa using hz)
  rcases lt_trichotomy 0 x with hx | hx | hx
  · exact roundToFloat_mono_pos x y hx h
  · rw [← hx, roundToFloat_zero]
    exact hzero y (by rw [hx]; exact h)
  · rcases le_or_lt 0 y with hy | hy
    · have h1 := hzero (-x) (by linarith)
      rw [roundToFloat_neg] at h1
      have h2 := hzero y hy
      linarith
    · have := roundToFloat_mono_pos (-y) (-x) (by linarith) (by linarith)
      rw [roundToFloat_neg, roundToFloat_neg] at this
      linarith

theorem log_two_eq (x : ℚ) (e : Int) (h1 : (2 : ℚ) ^ e ≤ |x|) (h2 : |x| < (2 : ℚ) ^ (e + 1)) :
    Int.log 2 |x| = e := by
  have hpos : 0 < |x| := lt_of_lt_of_le (zpow_pos (by norm_num) e) h1
  have hx : x ≠ 0 := abs_pos.mp hpos
  have hlt := log_two_lt x hx (e + 1) h2
  have hle : e ≤ Int.log 2 |x| :=
    (Int.zpow_le_iff_le_log (by norm_num) hpos).mp (by exact_mod_cast h1)
  omega

theorem roundToFloat_binade (x : ℚ) (e : Int) (he : -126 ≤ e) (h1 : (2 : ℚ) ^ e ≤ x)
    (h2 : x < (2 : ℚ) ^ (e + 1)) :
    roundToFloat x = (roundHalfEven (x / (2 : ℚ) ^ (e - 23)) : ℚ) * (2 : ℚ) ^ (e - 23) := by
  have hx : 0 < x := lt_of_lt_of_le (zpow_pos (by norm_num) e) h1
  have hu : ulpExponent x = e - 23 := by
    unfold ulpExponent
    rw [log_two_eq x e (by rw [abs_of_pos hx]; exact h1) (by rw [abs_of_pos hx]; exact h2),
      max_eq_left he]
  unfold roundToFloat
  rw [hu]

theorem roundHalfEven_near (q : ℚ) (n : Int) (h1 : (n : ℚ) - 1 / 2 < q)
    (h2 : q < (n : ℚ) + 1 / 2) : roundHalfEven q = n := by
  have hlo : n - 1 ≤ ⌊q⌋ := Int.le_floor.mpr (by push_cast; linarith)
  have hhi : ⌊q⌋ < n + 1 := Int.floor_lt.mpr (by push_cast; linarith)
  have hfl := Int.floor_le q
  have hfu := Int.lt_floor_add_one q
  unfold roundHalfEven
  simp only
  rcases (by omega : ⌊q⌋ = n - 1 ∨ ⌊q⌋ = n) with hf | hf
  · rw [hf] at hfl hfu ⊢
    push_cast at hfl hfu ⊢
    split_ifs <;> first | omega | (exfalso; linarith)
  · rw [hf] at hfl hfu ⊢
    split_ifs <;> first | omega | (exfalso; linarith)

theorem roundHalfEven_tie (n : Int) :
    roundHalfEven ((n : ℚ) + 1 / 2) = if n % 2 = 0 then n else n + 1 := by
  have hf : ⌊(n : ℚ) + 1 / 2⌋ = n := by
    rw [Int.floor_eq_iff]
    constructor <;> linarith
  unfold roundHalfEven
  simp only [hf]
  norm_num

/-! ## Combo-box attachment -/

theorem truncToInt_intCast (n : Int) : truncToInt (n : ℚ) = n := by
  unfold truncToInt
  split <;> simp

theorem roundToFloat_intCast (n : Int) (h : |n| ≤ 2 ^ 24) :
    roundToFloat (n : ℚ) = (n : ℚ) := by
  have := roundToFloat_exact n 0 h (by norm_num)
  simpa using this

theorem jlimit_mem (lo hi v : ℚ) (h : lo ≤ hi) : lo ≤ jlimit lo hi v ∧ jlimit lo hi v ≤ hi := by
  unfold jlimit
  split_ifs with h1 h2
  · exact ⟨le_refl _, h⟩
  · exact ⟨h, le_refl _⟩
  · exact ⟨not_lt.mp h1, not_lt.mp h2⟩

theorem miniMap_rc_x (m : TapMiniMap) : (m.getLocalBounds.reduced 1 1).x = 1 := by
  simp [TapMiniMap.getLocalBounds, Rectangle.reduced, Rectangle.expanded]

theorem miniMap_rc_w (m : TapMiniMap) (hw : 2 < m.width) :
    (m.getLocalBounds.reduced 1 1).w = (m.width : ℚ) - 2 := by
  have h : (2 : ℚ) < (m.width : ℚ) := by exact_mod_cast hw
  simp only [TapMiniMap.getLocalBounds, Rectangle.reduced, Rectangle.expanded]
  rw [max_eq_right (by linarith)]
  ring

theorem miniMap_getDelayForX_getXForDelay (GdMaxDelay : ℚ) (m : TapMiniMap)
    (hw : 2 < m.width) (hM : GdMaxDelay ≠ 0) (t : ℚ) :
    m.getDelayForX GdMaxDelay (m.getXForDelay GdMaxDelay t) = t := by
  have h : (2 : ℚ) < (m.width : ℚ) := by exact_mod_cast hw
  have hne : (m.width : ℚ) - 2 ≠ 0 := by linarith
  simp only [TapMiniMap.getDelayForX, TapMiniMap.getXForDelay, miniMap_rc_x,
    miniMap_rc_w m hw]
  field_simp
  ring

theorem miniMap_getXForDelay_mono (GdMaxDelay : ℚ) (m : TapMiniMap)
    (hw : 2 < m.width) (hM : 0 < GdMaxDelay) (a b : ℚ) (hab : a ≤ b) :
    m.getXForDelay GdMaxDelay a ≤ m.getXForDelay GdMaxDelay b := by
  have h : (2 : ℚ) < (m.width : ℚ) := by exact_mod_cast hw
  simp only [TapMiniMap.getXForDelay, miniMap_rc_x, miniMap_rc_w m hw]
  have h1 : a / GdMaxDelay ≤ b / GdMaxDelay := div_le_div_of_nonneg_right hab (le_of_lt hM)
  have h2 : (0 : ℚ) ≤ (m.width : ℚ) - 2 := by linarith
  nlinarith [mul_le_mul_of_nonneg_left h1 h2]

theorem miniMap_rangeBounds_x (GdMaxDelay : ℚ) (m : TapMiniMap)
    (hw : 2 < m.width) (hM : 0 < GdMaxDelay) (hse : m.timeRange_.start ≤ m.timeRange_.end_) :
    (m.getRangeBounds GdMaxDelay).x = m.getXForDelay GdMaxDelay m.timeRange_.start := by
  have hmono := miniMap_getXForDelay_mono GdMaxDelay m hw hM _ _ hse
  simp only [TapMiniMap.getRangeBounds, Rectangle.withLeft, Rectangle.withRight]
  exact min_eq_left hmono

theorem miniMap_rangeBounds_right (GdMaxDelay : ℚ) (m : TapMiniMap)
    (hw : 2 < m.width) (hM : 0 < GdMaxDelay) (hse : m.timeRange_.start ≤ m.timeRange_.end_) :
    (m.getRangeBounds GdMaxDelay).getRight = m.getXForDelay GdMaxDelay m.timeRange_.end_ := by
  have hmono := miniMap_getXForDelay_mono GdMaxDelay m hw hM _ _ hse
  simp only [TapMiniMap.getRangeBounds, Rectangle.withLeft, Rectangle.withRight,
    Rectangle.getRight]
  rw [min_eq_left hmono, max_eq_right (by linarith)]
  ring

theorem dragLeft_wellFormed (GdMaxDelay : ℚ) (m : TapMiniMap) (event : MouseEvent)
    (hw : 2 < m.width) (hM : 1 / 5 ≤ GdMaxDelay)
    (hwf : WindowWellFormed GdMaxDelay m.timeRange_)
    (hst : m.status_ = MiniMapStatus.kStatusDraggingLeft) :
    WindowWellFormed GdMaxDelay (m.mouseDrag GdMaxDelay event).timeRange_
      ∧ (m.mouseDrag GdMaxDelay event).timeRange_.end_ = m.timeRange_.end_ := by
  obtain ⟨h0, hE, hL⟩ := hwf
  have hMpos : 0 < GdMaxDelay := by linarith
  have hse : m.timeRange_.start ≤ m.timeRange_.end_ := by linarith
  have hmax : max (0 : ℚ) (m.timeRange_.end_ - kMinTimeRange) = m.timeRange_.end_ - 1 / 5 := by
    unfold kMinTimeRange
    exact max_eq_right (by linarith)
  unfold TapMiniMap.mouseDrag
  simp only [hst]
  rw [miniMap_rangeBounds_right GdMaxDelay m hw hMpos hse,
    miniMap_getDelayForX_getXForDelay GdMaxDelay m hw (ne_of_gt hMpos), hmax]
  obtain ⟨hlo, hhi⟩ := jlimit_mem 0 (m.timeRange_.end_ - 1 / 5)
    (m.getDelayForX GdMaxDelay event.x) (by linarith)
  split_ifs with hne
  · have hkeep : ¬ m.timeRange_.end_ < jlimit 0 (m.timeRange_.end_ - 1 / 5)
        (m.getDelayForX GdMaxDelay event.x) := by
      intro hlt; linarith
    simp only [TapMiniMap.announce, Range.setStart, if_neg hkeep]
    exact ⟨⟨hlo, hE, by linarith⟩, trivial⟩
  · exact ⟨⟨h0, hE, hL⟩, rfl⟩

theorem dragRight_wellFormed (GdMaxDelay : ℚ) (m : TapMiniMap) (event : MouseEvent)
    (hw : 2 < m.width) (hM : 1 / 5 ≤ GdMaxDelay)
    (hwf : WindowWellFormed GdMaxDelay m.timeRange_)
    (hst : m.status_ = MiniMapStatus.kStatusDraggingRight) :
    WindowWellFormed GdMaxDelay (m.mouseDrag GdMaxDelay event).timeRange_
      ∧ (m.mouseDrag GdMaxDelay event).timeRange_.start = m.timeRange_.start := by
  obtain ⟨h0, hE, hL⟩ := hwf
  have hMpos : 0 < GdMaxDelay := by linarith
  have hse : m.timeRange_.start ≤ m.timeRange_.end_ := by linarith
  have hmin : min GdMaxDelay (m.timeRange_.start + kMinTimeRange) = m.timeRange_.start + 1 / 5 := by
    unfold kMinTimeRange
    exact min_eq_right (by linarith)
  unfold TapMiniMap.mouseDrag
  simp only [hst]
  rw [miniMap_rangeBounds_x GdMaxDelay m hw hMpos hse,
    miniMap_getDelayForX_getXForDelay GdMaxDelay m hw (ne_of_gt hMpos), hmin]
  obtain ⟨hlo, hhi⟩ := jlimit_mem (m.timeRange_.start + 1 / 5) GdMaxDelay
    (m.getDelayForX GdMaxDelay event.x) (by linarith)
  split_ifs with hne
  · have hkeep : ¬ jlimit (m.timeRange_.start + 1 / 5) GdMaxDelay
        (m.getDelayForX GdMaxDelay event.x) < m.timeRange_.start := by
      intro hlt; linarith
    simp only [TapMiniMap.announce, Range.setEnd, if_neg hkeep]
    exact ⟨⟨h0, hhi, by linarith⟩, trivial⟩
  · exact ⟨⟨h0, hE, hL⟩, rfl⟩

theorem moving_wellFormed (GdMaxDelay : ℚ) (m : TapMiniMap) (event : MouseEvent)
    (hwf : WindowWellFormed GdMaxDelay m.timeRange_)
    (hrec : WindowWellFormed GdMaxDelay m.timeRangeBeforeMove_)
    (hst : m.status_ = MiniMapStatus.kStatusMoving) :
    WindowWellFormed GdMaxDelay (m.mouseDrag GdMaxDelay event).timeRange_ := by
  obtain ⟨r0, rE, rL⟩ := hrec
  unfold TapMiniMap.mouseDrag
  simp only [hst]
  have shift : ∀ dt : ℚ, -m.timeRangeBeforeMove_.start ≤ dt →
      dt ≤ GdMaxDelay - m.timeRangeBeforeMove_.end_ →
      WindowWellFormed GdMaxDelay
        (Range.make (m.timeRangeBeforeMove_.start + dt) (m.timeRangeBeforeMove_.end_ + dt)) := by
    intro dt h1 h2
    simp only [Range.make, WindowWellFormed]
    rw [max_eq_right (by linarith)]
    exact ⟨by linarith, by linarith, by linarith⟩
  have clamp : ∀ d : ℚ,
      -m.timeRangeBeforeMove_.start
          ≤ (if d > 0 then min d (GdMaxDelay - m.timeRangeBeforeMove_.end_)
              else if d < 0 then max d (-m.timeRangeBeforeMove_.start) else d)
        ∧ (if d > 0 then min d (GdMaxDelay - m.timeRangeBeforeMove_.end_)
              else if d < 0 then max d (-m.timeRangeBeforeMove_.start) else d)
          ≤ GdMaxDelay - m.timeRangeBeforeMove_.end_ := by
    intro d
    split_ifs with hp hn
    · refine ⟨?_, min_le_right _ _⟩
      have : (0 : ℚ) ≤ min d (GdMaxDelay - m.timeRangeBeforeMove_.end_) :=
        le_min (le_of_lt hp) (by linarith)
      linarith
    · refine ⟨le_max_right _ _, ?_⟩
      have : max d (-m.timeRangeBeforeMove_.start) ≤ 0 := max_le (le_of_lt hn) (by linarith)
      linarith
    · have hd : d = 0 := le_antisymm (not_lt.mp hp) (not_lt.mp hn)
      subst hd
      exact ⟨by linarith, by linarith⟩
  obtain ⟨c1, c2⟩ := clamp (GdMaxDelay * ((event.x - (event.mouseDownX : ℚ)) / (m.width : ℚ)))
  generalize (if GdMaxDelay * ((event.x - (event.mouseDownX : ℚ)) / (m.width : ℚ)) > 0 then
      min (GdMaxDelay * ((event.x - (event.mouseDownX : ℚ)) / (m.width : ℚ)))
        (GdMaxDelay - m.timeRangeBeforeMove_.end_)
    else if GdMaxDelay * ((event.x - (event.mouseDownX : ℚ)) / (m.width : ℚ)) < 0 then
      max (GdMaxDelay * ((event.x - (event.mouseDownX : ℚ)) / (m.width : ℚ)))
        (-m.timeRangeBeforeMove_.start)
    else GdMaxDelay * ((event.x - (event.mouseDownX : ℚ)) / (m.width : ℚ))) = dt at c1 c2 ⊢
  by_cases hne : m.timeRange_ ≠
      Range.make (m.timeRangeBeforeMove_.start + dt) (m.timeRangeBeforeMove_.end_ + dt)
  · simp only [if_pos hne, TapMiniMap.announce]
    exact shift _ c1 c2
  · simp only [if_neg hne]
    exact hwf

theorem mouseDrag_frame (GdMaxDelay : ℚ) (m : TapMiniMap) (event : MouseEvent) :
    (m.mouseDrag GdMaxDelay event).status_ = m.status_
      ∧ (m.mouseDrag GdMaxDelay event).timeRangeBeforeMove_ = m.timeRangeBeforeMove_ := by
  unfold TapMiniMap.mouseDrag
  cases hst : m.status_ <;> simp only [] <;> (try split_ifs) <;>
    simp [TapMiniMap.announce, hst]

theorem movedMiniMap_eq :
    movedMiniMap =
      { width := 200, height := 20, timeRange_ := { start := 0, end_ := 1 },
        timeRangeBeforeMove_ := { start := 8, end_ := 12 },
        status_ := MiniMapStatus.kStatusMoving, announced := [] } := by
  norm_num [movedMiniMap, TapMiniMap.init, TapMiniMap.setTimeRange, TapMiniMap.mouseDown,
    TapMiniMap.getLeftResizeBounds, TapMiniMap.getRightResizeBounds,
    TapMiniMap.getRangeBounds, TapMiniMap.getXForDelay, TapMiniMap.getLocalBounds,
    Rectangle.reduced, Rectangle.expanded, Rectangle.withLeft, Rectangle.withRight,
    Rectangle.getRight, Rectangle.contains, Range.make, kResizeGrabMargin]

/-- C6 as stated fails: with `GdMaxDelay` = 10 and a mini-map 200 wide, a move that
started on the window from 8 s to 12 s is still in progress when the window is
set to 0 s to 1 s, which satisfies the three conditions; the next drag event, at
the place of the mouse-down, puts the window back to 8 s to 12 s, which ends
after `GdMaxDelay`. -/
theorem mouseDrag_moving_counterexample :
    2 < movedMiniMap.width ∧ (1 / 5 : ℚ) ≤ 10
      ∧ movedMiniMap.status_ = MiniMapStatus.kStatusMoving
      ∧ WindowWellFormed 10 movedMiniMap.timeRange_
      ∧ (movedMiniMap.mouseDrag 10 stillEvent).timeRange_ = { start := 8, end_ := 12 }
      ∧ ¬ WindowWellFormed 10 (movedMiniMap.mouseDrag 10 stillEvent).timeRange_ := by
  have hdrag : (movedMiniMap.mouseDrag 10 stillEvent).timeRange_
      = { start := 8, end_ := 12 } := by
    rw [movedMiniMap_eq]
    norm_num [TapMiniMap.mouseDrag, stillEvent, Range.make, TapMiniMap.announce]
  refine ⟨?_, by norm_num, ?_, ?_, hdrag, ?_⟩
  · rw [movedMiniMap_eq]; decide
  · rw [movedMiniMap_eq]
  · rw [movedMiniMap_eq]; norm_num [WindowWellFormed]
  · rw [hdrag]; norm_num [WindowWellFormed]

theorem mouseDrag_preserves (GdMaxDelay : ℚ) (m : TapMiniMap)
    (event : MouseEvent) (hw : 2 < m.width) (hM : 1 / 5 ≤ GdMaxDelay)
    (hwf : WindowWellFormed GdMaxDelay m.timeRange_)
    (hrec : m.status_ = MiniMapStatus.kStatusMoving →
      WindowWellFormed GdMaxDelay m.timeRangeBeforeMove_) :
    WindowWellFormed GdMaxDelay (m.mouseDrag GdMaxDelay event).timeRange_ := by
  cases hst : m.status_ with
  | kStatusNormal => simpa [TapMiniMap.mouseDrag, hst] using hwf
  | kStatusMoving => exact moving_wellFormed GdMaxDelay m event hwf (hrec hst) hst
  | kStatusDraggingLeft => exact (dragLeft_wellFormed GdMaxDelay m event hw hM hwf hst).1
  | kStatusDraggingRight => exact (dragRight_wellFormed GdMaxDelay m event hw hM hwf hst).1

theorem mouseDrag_width (GdMaxDelay : ℚ) (m : TapMiniMap) (event : MouseEvent) :
    (m.mouseDrag GdMaxDelay event).width = m.width := by
  unfold TapMiniMap.mouseDrag
  cases hst : m.status_ <;> simp only [] <;> (try split_ifs) <;>
    simp [TapMiniMap.announce]

theorem mouseDown_frame (GdMaxDelay : ℚ) (m : TapMiniMap) (event : MouseEvent) :
    (m.mouseDown GdMaxDelay event).timeRange_ = m.timeRange_
      ∧ (m.mouseDown GdMaxDelay event).width = m.width
      ∧ (m.status_ = MiniMapStatus.kStatusNormal →
          (m.mouseDown GdMaxDelay event).status_ = MiniMapStatus.kStatusMoving →
          (m.mouseDown GdMaxDelay event).timeRangeBeforeMove_ = m.timeRange_) := by
  unfold TapMiniMap.mouseDown
  refine ⟨?_, ?_, ?_⟩
  · split_ifs <;> rfl
  · split_ifs <;> rfl
  · intro hst
    simp only [hst, if_true]
    split_ifs <;> simp [hst]

theorem drags_preserve (GdMaxDelay : ℚ) (hM : 1 / 5 ≤ GdMaxDelay) (drags : List MouseEvent) :
    ∀ m : TapMiniMap, 2 < m.width → WindowWellFormed GdMaxDelay m.timeRange_ →
      (m.status_ = MiniMapStatus.kStatusMoving →
        WindowWellFormed GdMaxDelay m.timeRangeBeforeMove_) →
      WindowWellFormed GdMaxDelay
        (drags.foldl (fun m e => m.mouseDrag GdMaxDelay e) m).timeRange_ := by
  induction drags with
  | nil => intro m _ hwf _; simpa using hwf
  | cons e rest ih =>
      intro m hw hwf hrec
      simp only [List.foldl_cons]
      apply ih
      · rw [mouseDrag_width]; exact hw
      · exact mouseDrag_preserves GdMaxDelay m e hw hM hwf hrec
      · rw [(mouseDrag_frame GdMaxDelay m e).1, (mouseDrag_frame GdMaxDelay m e).2]
        exact hrec

/-- A drag gesture keeps the mini-map window well formed: starting in status normal
with a window that satisfies `0 ≤ start`, `end ≤ GdMaxDelay` and
`end - start ≥ 0.2`, after `mouseDown` anywhere and any sequence of `mouseDrag`
events the window satisfies the three conditions. -/
theorem miniMap_drag_gesture_well_formed (GdMaxDelay : ℚ) (m : TapMiniMap)
    (down : MouseEvent) (drags : List MouseEvent) (hw : 2 < m.width)
    (hM : 1 / 5 ≤ GdMaxDelay) (hst : m.status_ = MiniMapStatus.kStatusNormal)
    (hwf : WindowWellFormed GdMaxDelay m.timeRange_) :
    WindowWellFormed GdMaxDelay
      (drags.foldl (fun m e => m.mouseDrag GdMaxDelay e)
        (m.mouseDown GdMaxDelay down)).timeRange_ := by
  obtain ⟨hr, hwd, hb⟩ := mouseDown_frame GdMaxDelay m down
  apply drags_preserve GdMaxDelay hM drags
  · rw [hwd]; exact hw
  · rw [hr]; exact hwf
  · intro hmov
    rw [hb hst hmov]; exact hwf

/-- The drag gesture at a concrete mini-map: the window from 1 s to 3 s, grabbed in
its middle and dragged far to the left and then far to the right, stays well
formed. -/
theorem miniMap_drag_gesture_well_formed_witness :
    WindowWellFormed 10
      ([{ x := -900, y := 10, mouseDownX := 40, shiftDown := false },
        { x := 900, y := 10, mouseDownX := 40, shiftDown := false }].foldl
        (fun m e => m.mouseDrag 10 e)
        ((exampleMiniMap MiniMapStatus.kStatusNormal).mouseDown 10
          { x := 40, y := 10, mouseDownX := 40, shiftDown := false })).timeRange_ :=
  miniMap_drag_gesture_well_formed 10 (exampleMiniMap MiniMapStatus.kStatusNormal) _ _
    (by decide) (by norm_num) rfl
    (by norm_num [WindowWellFormed, exampleMiniMap, Range.make])

/-- C6 (amended): a drag event keeps the mini-map window well formed. If the
mini-map is wider than 2, `GdMaxDelay` is at least 0.2, the window satisfies
`0 ≤ start`, `end ≤ GdMaxDelay` and `end - start ≥ 0.2`, and, in status moving, the
range recorded at mouse-down satisfies them too, then after `mouseDrag` in any
status and for any mouse position the window satisfies the three conditions.
The status and the recorded range are unchanged, so the same holds for every
further drag event. -/
theorem mouseDrag_keeps_window_well_formed (GdMaxDelay : ℚ) (m : TapMiniMap)
    (event : MouseEvent) (hw : 2 < m.width) (hM : 1 / 5 ≤ GdMaxDelay)
    (hwf : WindowWellFormed GdMaxDelay m.timeRange_)
    (hrec : m.status_ = MiniMapStatus.kStatusMoving →
      WindowWellFormed GdMaxDelay m.timeRangeBeforeMove_) :
    WindowWellFormed GdMaxDelay (m.mouseDrag GdMaxDelay event).timeRange_
      ∧ (m.mouseDrag GdMaxDelay event).status_ = m.status_
      ∧ (m.mouseDrag GdMaxDelay event).timeRangeBeforeMove_ = m.timeRangeBeforeMove_ := by
  refine ⟨mouseDrag_preserves GdMaxDelay m event hw hM hwf hrec, ?_, ?_⟩
  · exact (mouseDrag_frame GdMaxDelay m event).1
  · exact (mouseDrag_frame GdMaxDelay m event).2

/-- C6 at a concrete mini-map: a move of the window from 1 s to 3 s, 200 pixels
wide with `GdMaxDelay` = 10, dragged 400 pixels to the right, stays well formed. -/
theorem mouseDrag_keeps_window_well_formed_witness :
    WindowWellFormed 10
      ((exampleMiniMap MiniMapStatus.kStatusMoving).mouseDrag 10
        { x := 450, y := 10, mouseDownX := 50, shiftDown := false }).timeRange_ :=
  (mouseDrag_keeps_window_well_formed 10 (exampleMiniMap MiniMapStatus.kStatusMoving)
    { x := 450, y := 10, mouseDownX := 50, shiftDown := false }
    (by decide) (by norm_num)
    (by norm_num [WindowWellFormed, exampleMiniMap, Range.make])
    (by intro _; norm_num [WindowWellFormed, exampleMiniMap, Range.make])).1

/-! ## Tap editor: coordinates, grid, hit test, free tap -/

/-- C7: `getXForDelay` and `getDelayForX` are mutually inverse whenever the time
range has non-zero length and the drawable area has non-zero width, and
`getXForDelay` is affine in the delay, sending the start of the range to the left
edge of the drawable area and its end to the right edge. -/
theorem getXForDelay_getDelayForX_inverse (labelWidth : Int) (s : TapEditScreen)
    (hlen : s.timeRange_.getLength ≠ 0) (hw : (s.drawableArea labelWidth).w ≠ 0) :
    (∀ t, s.getDelayForX labelWidth (s.getXForDelay labelWidth t) = t)
      ∧ (∀ x, s.getXForDelay labelWidth (s.getDelayForX labelWidth x) = x)
      ∧ (∃ a b : ℚ, ∀ t, s.getXForDelay labelWidth t = a * t + b)
      ∧ s.getXForDelay labelWidth s.timeRange_.start = (s.drawableArea labelWidth).x
      ∧ s.getXForDelay labelWidth s.timeRange_.end_
          = (s.drawableArea labelWidth).getRight := by
  refine ⟨?_, ?_, ?_, ?_, ?_⟩
  · intro t
    simp only [TapEditScreen.getDelayForX, TapEditScreen.getXForDelay,
      TapEditScreen.xToDelay, TapEditScreen.delayToX]
    field_simp
    ring
  · intro x
    simp only [TapEditScreen.getDelayForX, TapEditScreen.getXForDelay,
      TapEditScreen.xToDelay, TapEditScreen.delayToX]
    field_simp
    ring
  · refine ⟨(s.drawableArea labelWidth).w / s.timeRange_.getLength,
      (s.drawableArea labelWidth).x
        - (s.drawableArea labelWidth).w * s.timeRange_.start / s.timeRange_.getLength, ?_⟩
    intro t
    simp only [TapEditScreen.getXForDelay, TapEditScreen.delayToX]
    field_simp
    ring
  · simp [TapEditScreen.getXForDelay, TapEditScreen.delayToX]
  · have hl : s.timeRange_.end_ - s.timeRange_.start ≠ 0 := hlen
    simp only [TapEditScreen.getXForDelay, TapEditScreen.delayToX, Rectangle.getRight,
      Range.getLength]
    rw [div_self hl, mul_one]

/-- C7 at a concrete screen: 420 pixels wide with labels 20 wide and the range from
0 s to 5 s, the delay 5/2 maps to x = 210 and x = 210 maps back to 5/2. -/
theorem getXForDelay_getDelayForX_inverse_witness :
    exampleScreen.getXForDelay 20 (5 / 2) = 210
      ∧ exampleScreen.getDelayForX 20 (exampleScreen.getXForDelay 20 (5 / 2)) = 5 / 2 := by
  have h := getXForDelay_getDelayForX_inverse 20 exampleScreen
    (by norm_num [exampleScreen, TapEditScreen.init, Range.make, Range.getLength])
    (by norm_num [exampleScreen, TapEditScreen.init, TapEditScreen.drawableArea,
      TapEditScreen.getLocalBoundsNoMargin, TapEditScreen.getLocalBounds, Rectangle.reduced,
      Rectangle.expanded, xMargin, yMargin])
  refine ⟨?_, h.1 (5 / 2)⟩
  norm_num [exampleScreen, TapEditScreen.init, TapEditScreen.getXForDelay,
    TapEditScreen.delayToX, TapEditScreen.drawableArea, TapEditScreen.getLocalBoundsNoMargin,
    TapEditScreen.getLocalBounds, Rectangle.reduced, Rectangle.expanded, xMargin, yMargin,
    Range.make, Range.getLength]

theorem jlimit_eq_clampTo (lo hi d : ℚ) (h : lo ≤ hi) : jlimit lo hi d = clampTo lo hi d := by
  unfold jlimit clampTo
  split_ifs with h1 h2
  · rw [max_eq_left]
    exact le_trans (min_le_right _ _) (le_of_lt h1)
  · rw [min_eq_left (le_of_lt h2), max_eq_right h]
  · rw [min_eq_right (not_lt.mp h2), max_eq_right (not_lt.mp h1)]

theorem jlimit_idem (lo hi d : ℚ) (h : lo ≤ hi) :
    jlimit lo hi (jlimit lo hi d) = jlimit lo hi d := by
  obtain ⟨h1, h2⟩ := jlimit_mem lo hi d h
  generalize jlimit lo hi d = v at h1 h2
  unfold jlimit
  rw [if_neg (not_lt.mpr h1), if_neg (not_lt.mpr h2)]

theorem jlimitFloat_number (lo hi d : ℚ) :
    jlimitFloat (FloatValue.number lo) (FloatValue.number hi) (FloatValue.number d)
      = FloatValue.number (jlimit lo hi d) := by
  unfold jlimitFloat jlimit
  simp only [FloatValue.lt, decide_eq_true_eq]
  split_ifs <;> rfl

/-- C8 as stated fails: with sync off and `GdMaxDelay` = 10, `alignDelayToGrid` of
NaN is NaN, because both comparisons of the clamp are false, and NaN is not a
number between 0 and 10. -/
theorem alignDelayToGrid_nan_counterexample :
    { exampleScreen with sync_ := false }.alignDelayToGridFloat 10 (fun d _ _ _ => d)
        FloatValue.nan = FloatValue.nan
      ∧ ¬ ∃ q : ℚ,
          { exampleScreen with sync_ := false }.alignDelayToGridFloat 10 (fun d _ _ _ => d)
              FloatValue.nan = FloatValue.number q
            ∧ 0 ≤ q ∧ q ≤ 10 := by
  have h : { exampleScreen with sync_ := false }.alignDelayToGridFloat 10 (fun d _ _ _ => d)
      FloatValue.nan = FloatValue.nan := rfl
  refine ⟨h, ?_⟩
  rintro ⟨q, hq, _⟩
  rw [h] at hq
  exact FloatValue.noConfusion hq

/-- C8 (amended): with sync off `alignDelayToGrid d` is `d` clamped to the interval
from 0 to `GdMaxDelay` for every `d` that is not NaN, so it lies in that interval
and applying it twice gives what applying it once gives; this holds for every
number `d`, the infinities are taken to `GdMaxDelay` and to 0, and NaN is
returned as NaN. With sync on it is `GdAlignDelayToGrid` of the delay and the
current divisor, swing and tempo of the screen. -/
theorem alignDelayToGrid_spec (GdMaxDelay : ℚ) (GdAlignDelayToGrid : ℚ → Int → ℚ → ℚ → ℚ)
    (GdAlignDelayToGridFloat : FloatValue → Int → ℚ → ℚ → FloatValue)
    (s : TapEditScreen) (d : ℚ) (hM : 0 ≤ GdMaxDelay) :
    (s.sync_ = false →
        s.alignDelayToGrid GdMaxDelay GdAlignDelayToGrid d = clampTo 0 GdMaxDelay d
          ∧ 0 ≤ s.alignDelayToGrid GdMaxDelay GdAlignDelayToGrid d
          ∧ s.alignDelayToGrid GdMaxDelay GdAlignDelayToGrid d ≤ GdMaxDelay
          ∧ s.alignDelayToGrid GdMaxDelay GdAlignDelayToGrid
              (s.alignDelayToGrid GdMaxDelay GdAlignDelayToGrid d)
            = s.alignDelayToGrid GdMaxDelay GdAlignDelayToGrid d)
      ∧ (s.sync_ = true →
          s.alignDelayToGrid GdMaxDelay GdAlignDelayToGrid d
            = GdAlignDelayToGrid d s.div_ s.swing_ s.bpm_)
      ∧ (s.sync_ = false →
          s.alignDelayToGridFloat GdMaxDelay GdAlignDelayToGridFloat (FloatValue.number d)
              = FloatValue.number (s.alignDelayToGrid GdMaxDelay GdAlignDelayToGrid d)
            ∧ s.alignDelayToGridFloat GdMaxDelay GdAlignDelayToGridFloat FloatValue.posInf
              = FloatValue.number GdMaxDelay
            ∧ s.alignDelayToGridFloat GdMaxDelay GdAlignDelayToGridFloat FloatValue.negInf
              = FloatValue.number 0
            ∧ s.alignDelayToGridFloat GdMaxDelay GdAlignDelayToGridFloat FloatValue.nan
              = FloatValue.nan)
      ∧ (s.sync_ = true → ∀ delay : FloatValue,
          s.alignDelayToGridFloat GdMaxDelay GdAlignDelayToGridFloat delay
            = GdAlignDelayToGridFloat delay s.div_ s.swing_ s.bpm_) := by
  refine ⟨?_, ?_, ?_, ?_⟩
  · intro hs
    have hal : ∀ x, s.alignDelayToGrid GdMaxDelay GdAlignDelayToGrid x = jlimit 0 GdMaxDelay x := by
      intro x
      simp [TapEditScreen.alignDelayToGrid, hs]
    obtain ⟨h1, h2⟩ := jlimit_mem 0 GdMaxDelay d hM
    refine ⟨?_, ?_, ?_, ?_⟩
    · rw [hal, jlimit_eq_clampTo 0 GdMaxDelay d hM]
    · rw [hal]; exact h1
    · rw [hal]; exact h2
    · rw [hal, hal, jlimit_idem 0 GdMaxDelay d hM]
  · intro hs
    simp [TapEditScreen.alignDelayToGrid, hs]
  · intro hs
    have hal : ∀ x, s.alignDelayToGridFloat GdMaxDelay GdAlignDelayToGridFloat x
        = jlimitFloat (FloatValue.number 0) (FloatValue.number GdMaxDelay) x := by
      intro x
      simp [TapEditScreen.alignDelayToGridFloat, hs]
    refine ⟨?_, ?_, ?_, ?_⟩
    · rw [hal, jlimitFloat_number]
      simp [TapEditScreen.alignDelayToGrid, hs]
    · rw [hal]
      simp [jlimitFloat, FloatValue.lt]
    · rw [hal]
      simp [jlimitFloat, FloatValue.lt]
    · rw [hal]
      simp [jlimitFloat, FloatValue.lt]
  · intro hs delay
    simp [TapEditScreen.alignDelayToGridFloat, hs]

/-- C8 (amended) at a concrete screen: with sync off and `GdMaxDelay` = 10 the
delay 12 is aligned to 10 and the delay -3 to 0, also as floats. -/
theorem alignDelayToGrid_spec_witness :
    { exampleScreen with sync_ := false }.alignDelayToGrid 10 (fun d _ _ _ => d) 12 = 10
      ∧ { exampleScreen with sync_ := false }.alignDelayToGrid 10 (fun d _ _ _ => d) (-3) = 0
      ∧ { exampleScreen with sync_ := false }.alignDelayToGridFloat 10 (fun d _ _ _ => d)
          (FloatValue.number 12) = FloatValue.number 10 := by
  have h12 := (alignDelayToGrid_spec 10 (fun d _ _ _ => d) (fun d _ _ _ => d)
    { exampleScreen with sync_ := false } 12 (by norm_num))
  have h3 := (alignDelayToGrid_spec 10 (fun d _ _ _ => d) (fun d _ _ _ => d)
    { exampleScreen with sync_ := false } (-3) (by norm_num))
  refine ⟨?_, ?_, ?_⟩
  · rw [(h12.1 rfl).1]
    norm_num [clampTo]
  · rw [(h3.1 rfl).1]
    norm_num [clampTo]
  · rw [(h12.2.2.1 rfl).1, (h12.1 rfl).1]
    norm_num [clampTo]

/-- C9: while Shift is down `TapEditItem::hitTest` rejects every point, so the
click reaches the screen; otherwise it is the hit test of the base component. -/
theorem hitTest_shift (componentHitTest : Int → Int → Bool) (x y : Int) :
    TapEditItem.hitTest true componentHitTest x y = false
      ∧ TapEditItem.hitTest false componentHitTest x y = componentHitTest x y := by
  simp [TapEditItem.hitTest]

theorem findUnusedTapLoop_selected (items : Nat → TapEditItem) (GdMaxLines fuel i : Nat)
    (sel : Int) (h : sel ≠ -1) : findUnusedTapLoop items GdMaxLines fuel i sel = sel := by
  cases fuel <;> simp [findUnusedTapLoop, h]

theorem findUnusedTapLoop_all_enabled (items : Nat → TapEditItem) (GdMaxLines : Nat) :
    ∀ fuel i, (∀ j, i ≤ j → j < GdMaxLines → (items j).data_.enabled = true) →
      findUnusedTapLoop items GdMaxLines fuel i (-1) = -1 := by
  intro fuel
  induction fuel with
  | zero => intro i _; rfl
  | succ fuel ih =>
      intro i hall
      unfold findUnusedTapLoop
      by_cases hi : i < GdMaxLines
      · have hen := hall i (le_refl i) hi
        simp only [hi, true_and, if_true, hen, Bool.not_true, Bool.false_eq_true, if_false]
        exact ih (i + 1) (fun j hj hjN => hall j (by omega) hjN)
      · simp [hi]

theorem findUnusedTapLoop_first (items : Nat → TapEditItem) (GdMaxLines : Nat) :
    ∀ fuel i n, i ≤ n → n < GdMaxLines → (items n).data_.enabled = false →
      (∀ j, i ≤ j → j < n → (items j).data_.enabled = true) → n - i < fuel →
      findUnusedTapLoop items GdMaxLines fuel i (-1) = (n : Int) := by
  intro fuel
  induction fuel with
  | zero => intro i n _ _ _ _ hfuel; omega
  | succ fuel ih =>
      intro i n hin hn hdis hbefore hfuel
      unfold findUnusedTapLoop
      have hi : i < GdMaxLines := by omega
      by_cases heq : i = n
      · subst heq
        simp only [hi, true_and, if_true, hdis, Bool.not_false]
        exact findUnusedTapLoop_selected items GdMaxLines fuel (i + 1) (i : Int) (by omega)
      · have hen := hbefore i (le_refl i) (by omega)
        simp only [hi, true_and, if_true, hen, Bool.not_true, Bool.false_eq_true, if_false]
        exact ih (i + 1) n (by omega) hn hdis (fun j hj hjn => hbefore j (by omega) hjn)
          (by omega)

/-- C10: `findUnusedTap` returns the smallest tap number below `GdMaxLines` whose
tap is disabled, and returns -1 exactly when all `GdMaxLines` taps are enabled. -/
theorem findUnusedTap_spec (GdMaxLines : Nat) (s : TapEditScreen) :
    (∀ n, n < GdMaxLines → (s.items_ n).data_.enabled = false →
        (∀ j, j < n → (s.items_ j).data_.enabled = true) →
        s.findUnusedTap GdMaxLines = (n : Int))
      ∧ (s.findUnusedTap GdMaxLines = -1 ↔
          ∀ n, n < GdMaxLines → (s.items_ n).data_.enabled = true)
      ∧ (s.findUnusedTap GdMaxLines = -1 ∨
          ∃ n : Nat, n < GdMaxLines ∧ s.findUnusedTap GdMaxLines = (n : Int)
            ∧ (s.items_ n).data_.enabled = false
            ∧ ∀ j, j < n → (s.items_ j).data_.enabled = true) := by
  have first : ∀ n, n < GdMaxLines → (s.items_ n).data_.enabled = false →
      (∀ j, j < n → (s.items_ j).data_.enabled = true) →
      s.findUnusedTap GdMaxLines = (n : Int) := by
    intro n hn hdis hbefore
    exact findUnusedTapLoop_first s.items_ GdMaxLines GdMaxLines 0 n (Nat.zero_le n) hn hdis
      (fun j _ hjn => hbefore j hjn) (by omega)
  have allEnabled : (∀ n, n < GdMaxLines → (s.items_ n).data_.enabled = true) →
      s.findUnusedTap GdMaxLines = -1 := by
    intro hall
    exact findUnusedTapLoop_all_enabled s.items_ GdMaxLines GdMaxLines 0
      (fun j _ hj => hall j hj)
  have least : (∃ n, n < GdMaxLines ∧ (s.items_ n).data_.enabled = false) →
      ∃ n : Nat, n < GdMaxLines ∧ s.findUnusedTap GdMaxLines = (n : Int)
        ∧ (s.items_ n).data_.enabled = false
        ∧ ∀ j, j < n → (s.items_ j).data_.enabled = true := by
    intro hex
    classical
    refine ⟨Nat.find hex, (Nat.find_spec hex).1, ?_, (Nat.find_spec hex).2, ?_⟩
    · apply first _ (Nat.find_spec hex).1 (Nat.find_spec hex).2
      intro j hj
      have hmin := Nat.find_min hex hj
      have hjN : j < GdMaxLines := lt_trans hj (Nat.find_spec hex).1
      cases hen : (s.items_ j).data_.enabled
      · exact absurd ⟨hjN, hen⟩ hmin
      · rfl
    · intro j hj
      have hmin := Nat.find_min hex hj
      have hjN : j < GdMaxLines := lt_trans hj (Nat.find_spec hex).1
      cases hen : (s.items_ j).data_.enabled
      · exact absurd ⟨hjN, hen⟩ hmin
      · rfl
  refine ⟨first, ⟨?_, allEnabled⟩, ?_⟩
  · intro hneg n hn
    cases hen : (s.items_ n).data_.enabled
    · obtain ⟨k, _, hk, _, _⟩ := least ⟨n, hn, hen⟩
      rw [hk] at hneg
      omega
    · rfl
  · by_cases hex : ∃ n, n < GdMaxLines ∧ (s.items_ n).data_.enabled = false
    · exact Or.inr (least hex)
    · left
      apply allEnabled
      intro n hn
      cases hen : (s.items_ n).data_.enabled
      · exact absurd ⟨n, hn, hen⟩ hex
      · rfl

/-- C10 at a concrete screen: with taps 0 and 1 enabled and four taps in all, the
free tap found is tap 2; with only two taps in all, none is free. -/
theorem findUnusedTap_spec_witness :
    exampleScreen.findUnusedTap 4 = 2 ∧ exampleScreen.findUnusedTap 2 = -1 := by
  constructor
  · have h := (findUnusedTap_spec 4 exampleScreen).1 2 (by decide)
      (by simp [exampleScreen])
      (by intro j hj; simp [exampleScreen, TapEditItem.init, hj])
    simpa using h
  · exact (findUnusedTap_spec 2 exampleScreen).2.1.2
      (by intro n hn; simp [exampleScreen, TapEditItem.init, hn])

/-! ## Mini-map dragging: what a drag leaves alone -/

theorem moving_translates (GdMaxDelay : ℚ) (m : TapMiniMap) (event : MouseEvent)
    (hrec : m.timeRangeBeforeMove_.start ≤ m.timeRangeBeforeMove_.end_)
    (hst : m.status_ = MiniMapStatus.kStatusMoving) :
    ∃ dt : ℚ, (m.mouseDrag GdMaxDelay event).timeRange_
      = { start := m.timeRangeBeforeMove_.start + dt, end_ := m.timeRangeBeforeMove_.end_ + dt } := by
  unfold TapMiniMap.mouseDrag
  simp only [hst]
  generalize (if GdMaxDelay * ((event.x - (event.mouseDownX : ℚ)) / (m.width : ℚ)) > 0 then
      min (GdMaxDelay * ((event.x - (event.mouseDownX : ℚ)) / (m.width : ℚ)))
        (GdMaxDelay - m.timeRangeBeforeMove_.end_)
    else if GdMaxDelay * ((event.x - (event.mouseDownX : ℚ)) / (m.width : ℚ)) < 0 then
      max (GdMaxDelay * ((event.x - (event.mouseDownX : ℚ)) / (m.width : ℚ)))
        (-m.timeRangeBeforeMove_.start)
    else GdMaxDelay * ((event.x - (event.mouseDownX : ℚ)) / (m.width : ℚ))) = dt
  have hmake : Range.make (m.timeRangeBeforeMove_.start + dt) (m.timeRangeBeforeMove_.end_ + dt)
      = { start := m.timeRangeBeforeMove_.start + dt, end_ := m.timeRangeBeforeMove_.end_ + dt } := by
    simp only [Range.make]
    rw [max_eq_right (by linarith)]
  refine ⟨dt, ?_⟩
  by_cases hne : m.timeRange_ ≠
      Range.make (m.timeRangeBeforeMove_.start + dt) (m.timeRangeBeforeMove_.end_ + dt)
  · simp only [if_pos hne, TapMiniMap.announce]
    exact hmake
  · simp only [if_neg hne]
    rw [← hmake]
    exact not_not.mp hne

/-! ## Combo-box attachment: no echo -/

/-- C13: `setValue` does not echo a parameter update back to the parameter. Nothing
is sent to the parameter and `ignoreCallbacks_` has its previous value when
`setValue` returns; when the computed id is already selected `setValue` changes
nothing at all; when it is not, the id is selected and the callback raised while
the flag is set leaves the parameter alone. -/
theorem setValue_no_echo (a : ComboBoxParameterAttachmentByID) (v : ℚ) :
    (a.setValue v).sentToParameter = a.sentToParameter
      ∧ (a.setValue v).ignoreCallbacks_ = a.ignoreCallbacks_
      ∧ (1 + truncToInt v = a.selectedId → a.setValue v = a)
      ∧ (1 + truncToInt v ≠ a.selectedId →
          (a.setValue v).selectedId = 1 + truncToInt v
            ∧ ({ a with ignoreCallbacks_ := true }.setSelectedIdSync
                (1 + truncToInt v)).sentToParameter = a.sentToParameter
            ∧ ({ a with ignoreCallbacks_ := true }.setSelectedIdSync
                (1 + truncToInt v)).ignoreCallbacks_ = true) := by
  unfold ComboBoxParameterAttachmentByID.setValue
  by_cases h : 1 + truncToInt v = a.selectedId
  · simp [h]
  · simp [h, ComboBoxParameterAttachmentByID.setSelectedIdSync,
      ComboBoxParameterAttachmentByID.comboBoxChanged]

/-- C13 at a concrete attachment: with id 3 shown and nothing sent so far,
`setValue 5` selects id 6, sends nothing and leaves the flag off. -/
theorem setValue_no_echo_witness :
    (exampleAttachment.setValue 5).selectedId = 6
      ∧ (exampleAttachment.setValue 5).sentToParameter = []
      ∧ (exampleAttachment.setValue 5).ignoreCallbacks_ = false := by
  have h5 : truncToInt 5 = 5 := by
    have := truncToInt_intCast 5
    simpa using this
  obtain ⟨h1, h2, _, h4⟩ := setValue_no_echo exampleAttachment 5
  refine ⟨?_, h1, h2⟩
  rw [(h4 (by rw [h5]; decide)).1, h5]
  rfl

/-! ## Tap items: buttons and mini-map bars -/

theorem boolToFloat_not_not_floatToBool (v : ℚ) :
    boolToFloat (!(!floatToBool v)) = if v ≠ 0 then 1 else 0 := by
  by_cases h : v = 0 <;> simp [boolToFloat, floatToBool, h]

/-- C14: the button controls of a tap read back what was written. For a parameter
of the item's own tap, after `setTapValue (id, v)` the call `getTapValue (id)`
returns 1 if `v` is non-zero and 0 otherwise, for FILTER_ENABLE, FILTER,
TUNE_ENABLE, FLIP and MUTE; the toggle state of the button is the parameter for the
first three and its negation for FLIP and MUTE. -/
theorem button_values_read_back (screenEditMode : TapEditMode) (item : TapEditItem)
    (n : Nat) (v : ℚ) (hown : item.itemNumber_ = n) :
    ((item.setTapValue screenEditMode (GdParameter.tap TapParameter.FILTER_ENABLE n) v).getTapValue
          (GdParameter.tap TapParameter.FILTER_ENABLE n) = (if v ≠ 0 then 1 else 0)
        ∧ ((item.setTapValue screenEditMode (GdParameter.tap TapParameter.FILTER_ENABLE n)
            v).buttons_ TapEditMode.kTapEditCutoff).toggleState = decide (v ≠ 0))
      ∧ ((item.setTapValue screenEditMode (GdParameter.tap TapParameter.FILTER n) v).getTapValue
          (GdParameter.tap TapParameter.FILTER n) = (if v ≠ 0 then 1 else 0)
        ∧ ((item.setTapValue screenEditMode (GdParameter.tap TapParameter.FILTER n)
            v).buttons_ TapEditMode.kTapEditResonance).toggleState = decide (v ≠ 0))
      ∧ ((item.setTapValue screenEditMode (GdParameter.tap TapParameter.TUNE_ENABLE n) v).getTapValue
          (GdParameter.tap TapParameter.TUNE_ENABLE n) = (if v ≠ 0 then 1 else 0)
        ∧ ((item.setTapValue screenEditMode (GdParameter.tap TapParameter.TUNE_ENABLE n)
            v).buttons_ TapEditMode.kTapEditTune).toggleState = decide (v ≠ 0))
      ∧ ((item.setTapValue screenEditMode (GdParameter.tap TapParameter.FLIP n) v).getTapValue
          (GdParameter.tap TapParameter.FLIP n) = (if v ≠ 0 then 1 else 0)
        ∧ ((item.setTapValue screenEditMode (GdParameter.tap TapParameter.FLIP n)
            v).buttons_ TapEditMode.kTapEditPan).toggleState = !decide (v ≠ 0))
      ∧ ((item.setTapValue screenEditMode (GdParameter.tap TapParameter.MUTE n) v).getTapValue
          (GdParameter.tap TapParameter.MUTE n) = (if v ≠ 0 then 1 else 0)
        ∧ ((item.setTapValue screenEditMode (GdParameter.tap TapParameter.MUTE n)
            v).buttons_ TapEditMode.kTapEditLevel).toggleState = !decide (v ≠ 0)) := by
  have hne : ¬ ((item.itemNumber_ : Int) ≠ (n : Int)) := by simp [hown]
  refine ⟨⟨?_, ?_⟩, ⟨?_, ?_⟩, ⟨?_, ?_⟩, ⟨?_, ?_⟩, ⟨?_, ?_⟩⟩ <;>
    simp [TapEditItem.setTapValue, TapEditItem.getTapValue, GdDecomposeParameter, hown,
      TapEditItem.writeButton, TapEditItem.readButton, TapEditItem.getButtonForEditMode,
      TapEditItem.putButton, TapButton.setToggleState, boolToFloat, floatToBool]

/-- C14 at a concrete item: tap 1 of the example screen reads 1 for FLIP after
FLIP was written with 3, and the pan button is then toggled off. -/
theorem button_values_read_back_witness :
    ((exampleScreen.items_ 1).setTapValue TapEditMode.kTapEditPan
        (GdParameter.tap TapParameter.FLIP 1) 3).getTapValue
        (GdParameter.tap TapParameter.FLIP 1) = 1
      ∧ (((exampleScreen.items_ 1).setTapValue TapEditMode.kTapEditPan
        (GdParameter.tap TapParameter.FLIP 1) 3).buttons_
          TapEditMode.kTapEditPan).toggleState = false := by
  obtain ⟨_, _, _, ⟨h1, h2⟩, _⟩ :=
    button_values_read_back TapEditMode.kTapEditPan (exampleScreen.items_ 1) 1 3 rfl
  refine ⟨?_, ?_⟩
  · rw [h1]; norm_num
  · rw [h2]; simp

theorem makeMinimapValue_delay (item : TapEditItem) (a b : ℚ) :
    (item.makeMinimapValue a b).delay = item.data_.delay := by
  simp [TapEditItem.makeMinimapValue, TapEditItem.getTapValue, GdRecomposeParameter,
    GdDecomposeParameter]

theorem Range.make_of_le (a b : ℚ) (h : a ≤ b) : Range.make a b = { start := a, end_ := b } := by
  simp [Range.make, max_eq_right h]

/-- C15: `getMinimapValues` per edit mode. In mode off the value is the empty one.
For resonance and level the range is built from the proportion of the slider
minimum and the proportion of the slider value; for cutoff from the proportions
of the lower and upper values; for tune and pan from the proportions of
`min 0 v` and `max 0 v`, which are in order whenever the proportion map is
monotone. In every mode but off the delay is the delay of the tap. A range built
from `a` and `b` is the range from `a` to `b` when `a ≤ b`. -/
theorem getMinimapValues_spec (item : TapEditItem) :
    (item.editMode_ = TapEditMode.kTapEditOff →
        item.getMinimapValues = TapMiniMapValue.empty)
      ∧ (item.editMode_ = TapEditMode.kTapEditResonance
            ∨ item.editMode_ = TapEditMode.kTapEditLevel →
          item.getMinimapValues.range
            = Range.make
                ((item.sliders_ item.editMode_).valueToProportionOfLength
                  (item.sliders_ item.editMode_).minimum)
                ((item.sliders_ item.editMode_).valueToProportionOfLength
                  (item.sliders_ item.editMode_).value))
      ∧ (item.editMode_ = TapEditMode.kTapEditCutoff →
          item.getMinimapValues.range
            = Range.make
                ((item.sliders_ item.editMode_).valueToProportionOfLength
                  (item.sliders_ item.editMode_).minValue)
                ((item.sliders_ item.editMode_).valueToProportionOfLength
                  (item.sliders_ item.editMode_).maxValue))
      ∧ (item.editMode_ = TapEditMode.kTapEditTune ∨ item.editMode_ = TapEditMode.kTapEditPan →
          item.getMinimapValues.range
              = Range.make
                  ((item.sliders_ item.editMode_).valueToProportionOfLength
                    (min 0 (item.sliders_ item.editMode_).value))
                  ((item.sliders_ item.editMode_).valueToProportionOfLength
                    (max 0 (item.sliders_ item.editMode_).value))
            ∧ (Monotone (item.sliders_ item.editMode_).valueToProportionOfLength →
                (item.sliders_ item.editMode_).valueToProportionOfLength
                    (min 0 (item.sliders_ item.editMode_).value)
                  ≤ (item.sliders_ item.editMode_).valueToProportionOfLength
                    (max 0 (item.sliders_ item.editMode_).value)
                ∧ item.getMinimapValues.range
                  = { start := (item.sliders_ item.editMode_).valueToProportionOfLength
                        (min 0 (item.sliders_ item.editMode_).value),
                      end_ := (item.sliders_ item.editMode_).valueToProportionOfLength
                        (max 0 (item.sliders_ item.editMode_).value) }))
      ∧ (item.editMode_ ≠ TapEditMode.kTapEditOff →
          item.getMinimapValues.delay = item.data_.delay)
      ∧ (∀ a b : ℚ, a ≤ b → Range.make a b = { start := a, end_ := b }) := by
  have bipolar : ∀ v : ℚ,
      (if v < 0 then v else 0) = min 0 v ∧ (if v < 0 then 0 else v) = max 0 v := by
    intro v
    by_cases hv : v < 0
    · simp [hv, min_eq_right (le_of_lt hv), max_eq_left (le_of_lt hv)]
    · simp [hv, min_eq_left (not_lt.mp hv), max_eq_right (not_lt.mp hv)]
  have tune : ∀ mode : TapEditMode, item.editMode_ = mode →
      (mode = TapEditMode.kTapEditTune ∨ mode = TapEditMode.kTapEditPan) →
      item.getMinimapValues.range
        = Range.make
            ((item.sliders_ mode).valueToProportionOfLength (min 0 (item.sliders_ mode).value))
            ((item.sliders_ mode).valueToProportionOfLength
              (max 0 (item.sliders_ mode).value)) := by
    intro mode hmode hcase
    obtain ⟨h1, h2⟩ := bipolar (item.sliders_ mode).value
    rcases hcase with h | h <;> subst h <;>
      simp only [TapEditItem.getMinimapValues, hmode, TapEditItem.getSliderForEditMode,
        TapEditItem.makeMinimapValue, decide_eq_true_eq] <;>
      simp only [reduceCtorEq, if_false, h1, h2]
  refine ⟨?_, ?_, ?_, ?_, ?_, Range.make_of_le⟩
  · intro h
    simp [TapEditItem.getMinimapValues, h]
  · intro h
    rcases h with h | h <;>
      simp [TapEditItem.getMinimapValues, h, TapEditItem.getSliderForEditMode,
        TapEditItem.makeMinimapValue]
  · intro h
    simp [TapEditItem.getMinimapValues, h, TapEditItem.getSliderForEditMode,
      TapEditItem.makeMinimapValue]
  · intro h
    have hr := tune item.editMode_ rfl h
    refine ⟨hr, ?_⟩
    intro hmono
    have hle := hmono (le_trans (min_le_left 0 (item.sliders_ item.editMode_).value)
      (le_max_left 0 (item.sliders_ item.editMode_).value))
    exact ⟨hle, by rw [hr, Range.make_of_le _ _ hle]⟩
  · intro h
    cases hm : item.editMode_ with
    | kTapEditOff => exact absurd hm h
    | _ =>
        simp only [TapEditItem.getMinimapValues, hm, TapEditItem.getSliderForEditMode]
        simp [makeMinimapValue_delay]

/-- C15 at a concrete item: in mode pan with the slider at -1/2 on the range from
-1 to 1 and delay 3/2, the bar runs from proportion 1/4 to proportion 1/2 at
delay 3/2. -/
theorem getMinimapValues_spec_witness :
    panItem.getMinimapValues.range = { start := 1 / 4, end_ := 1 / 2 }
      ∧ panItem.getMinimapValues.delay = 3 / 2 := by
  obtain ⟨_, _, _, h4, h5, _⟩ := getMinimapValues_spec panItem
  have hmono : Monotone (panItem.sliders_ panItem.editMode_).valueToProportionOfLength := by
    intro a b hab
    simp only [panItem, TapEditItem.init]
    linarith
  refine ⟨?_, ?_⟩
  · rw [((h4 (Or.inr rfl)).2 hmono).2]
    norm_num [panItem, TapEditItem.init]
  · rw [h5 (by simp [panItem])]
    simp [panItem]

/-! ## Processor: tempo changes -/

theorem itemsLoop_eq (N : Nat) (step : Nat → TapEditScreen → TapEditScreen)
    (f : Nat → TapEditItem → TapEditItem) (s0 : TapEditScreen)
    (hstep : ∀ (i : Nat) (items : Nat → TapEditItem),
      step i { s0 with items_ := items } = { s0 with items_ := setAt items i (f i (items i)) }) :
    forLoop N step s0
      = { s0 with items_ := fun j => if j < N then f j (s0.items_ j) else s0.items_ j } := by
  induction N with
  | zero => simp [forLoop_zero]
  | succ N ih =>
      rw [forLoop_succ, ih, hstep]
      congr 1
      funext j
      simp only [setAt]
      by_cases hj : j = N
      · subst hj; simp
      · by_cases hlt : j < N
        · simp [hj, hlt, Nat.lt_succ_of_lt hlt]
        · have : ¬ j < N + 1 := by omega
          simp [hj, hlt, this]

theorem screen_setTapValue_tap (env : EditorEnv) (s : TapEditScreen) (kind : TapParameter)
    (n : Nat) (v : ℚ) :
    s.setTapValue env (GdParameter.tap kind n) v
      = { s with
          items_ := setAt s.items_ n
            ((s.items_ n).setTapValue s.editMode_ (GdParameter.tap kind n) v) } := by
  simp [TapEditScreen.setTapValue, GdDecomposeParameter]

theorem item_setEditMode_frame (item : TapEditItem) (mode : TapEditMode) :
    (item.setEditMode mode).editMode_ = mode
      ∧ (item.setEditMode mode).data_ = item.data_
      ∧ (item.setEditMode mode).itemNumber_ = item.itemNumber_
      ∧ (item.setEditMode mode).tapSelected_ = item.tapSelected_
      ∧ (item.setEditMode mode).visible = item.visible := by
  unfold TapEditItem.setEditMode
  split_ifs with h
  · exact ⟨h, rfl, rfl, rfl, rfl⟩
  · exact ⟨rfl, rfl, rfl, rfl, rfl⟩

theorem item_setTapValue_enable (screenEditMode : TapEditMode) (item : TapEditItem) (v : ℚ) :
    (item.setTapValue screenEditMode (GdParameter.tap TapParameter.ENABLE item.itemNumber_)
        v).data_ = { item.data_ with enabled := floatToBool v }
      ∧ (item.setTapValue screenEditMode (GdParameter.tap TapParameter.ENABLE item.itemNumber_)
        v).itemNumber_ = item.itemNumber_
      ∧ (item.setTapValue screenEditMode (GdParameter.tap TapParameter.ENABLE item.itemNumber_)
        v).tapSelected_ = item.tapSelected_
      ∧ (ItemFollowsScreen screenEditMode item →
          ItemFollowsScreen screenEditMode
            (item.setTapValue screenEditMode
              (GdParameter.tap TapParameter.ENABLE item.itemNumber_) v)) := by
  simp only [TapEditItem.setTapValue, GdDecomposeParameter, ne_eq, not_true_eq_false, if_false]
  by_cases h : item.data_.enabled = floatToBool v
  · simp only [h, if_true]
    refine ⟨?_, trivial, trivial, fun hf => hf⟩
    rw [← h]
  · simp only [h, if_false]
    obtain ⟨hm, hd, hn, hs, hv⟩ := item_setEditMode_frame
      { item with data_ := { item.data_ with enabled := floatToBool v }, visible := floatToBool v }
      (if floatToBool v = true then screenEditMode else TapEditMode.kTapEditOff)
    refine ⟨hd, hn, hs, ?_⟩
    intro _
    unfold ItemFollowsScreen
    rw [hv, hd, hm]
    exact ⟨Iff.rfl, rfl⟩

theorem item_setTapValue_foreign (screenEditMode : TapEditMode) (item : TapEditItem)
    (kind : TapParameter) (n : Nat) (v : ℚ) (h : item.itemNumber_ ≠ n) :
    item.setTapValue screenEditMode (GdParameter.tap kind n) v = item := by
  have : (item.itemNumber_ : Int) ≠ (n : Int) := by exact_mod_cast h
  simp [TapEditItem.setTapValue, GdDecomposeParameter, this]

/-! ## Items follow the screen -/

theorem setEditMode_eq (GdMaxLines : Nat) (s : TapEditScreen) (mode : TapEditMode)
    (hne : s.editMode_ ≠ mode) :
    s.setEditMode GdMaxLines mode
      = { s with
          editMode_ := mode
          items_ := fun j =>
            if j < GdMaxLines then
              (s.items_ j).setEditMode
                (if (s.items_ j).data_.enabled then mode else TapEditMode.kTapEditOff)
            else s.items_ j } := by
  unfold TapEditScreen.setEditMode
  rw [if_neg hne]
  exact itemsLoop_eq GdMaxLines _
    (fun _ item =>
      item.setEditMode (if item.data_.enabled then mode else TapEditMode.kTapEditOff))
    { s with editMode_ := mode } (fun _ _ => rfl)

/-- C19: every tap item follows the screen (it is visible exactly when its tap is
enabled, and its edit mode is the mode of the screen when enabled and
`kTapEditOff` when disabled). This holds after construction and is preserved,
for every tap below `GdMaxLines`, by `TapEditScreen::setEditMode` with any mode
and by `setTapValue` on the ENABLE parameter of any tap with any value. -/
theorem items_follow_screen (env : EditorEnv) :
    (∀ (width height divisor : Int) (sliders : Nat → TapEditMode → TapSlider) (n : Nat),
        ItemFollowsScreen (TapEditScreen.init width height divisor sliders).editMode_
          ((TapEditScreen.init width height divisor sliders).items_ n))
      ∧ (∀ (s : TapEditScreen) (mode : TapEditMode),
          (∀ n, n < env.GdMaxLines → ItemFollowsScreen s.editMode_ (s.items_ n)) →
          ∀ n, n < env.GdMaxLines →
            ItemFollowsScreen (s.setEditMode env.GdMaxLines mode).editMode_
              ((s.setEditMode env.GdMaxLines mode).items_ n))
      ∧ (∀ (s : TapEditScreen) (m : Nat) (v : ℚ),
          (∀ n, n < env.GdMaxLines → ItemFollowsScreen s.editMode_ (s.items_ n)) →
          ∀ n, n < env.GdMaxLines →
            ItemFollowsScreen
              (s.setTapValue env (GdParameter.tap TapParameter.ENABLE m) v).editMode_
              ((s.setTapValue env (GdParameter.tap TapParameter.ENABLE m) v).items_ n)) := by
  refine ⟨?_, ?_, ?_⟩
  · intro width height divisor sliders n
    simp [ItemFollowsScreen, TapEditScreen.init, TapEditItem.init]
  · intro s mode hinv n hn
    by_cases hsame : s.editMode_ = mode
    · have : s.setEditMode env.GdMaxLines mode = s := by
        simp [TapEditScreen.setEditMode, hsame]
      rw [this]
      exact hinv n hn
    · rw [setEditMode_eq env.GdMaxLines s mode hsame]
      simp only [hn, if_true]
      obtain ⟨hm, hd, _, _, hv⟩ := item_setEditMode_frame (s.items_ n)
        (if (s.items_ n).data_.enabled then mode else TapEditMode.kTapEditOff)
      unfold ItemFollowsScreen
      rw [hv, hd, hm]
      exact ⟨(hinv n hn).1, rfl⟩
  · intro s m v hinv n hn
    rw [screen_setTapValue_tap]
    by_cases hnm : n = m
    · subst hnm
      simp only [setAt, if_true]
      by_cases hnum : (s.items_ n).itemNumber_ = n
      · have h := (item_setTapValue_enable s.editMode_ (s.items_ n) v).2.2.2 (hinv n hn)
        rw [hnum] at h
        exact h
      · rw [item_setTapValue_foreign s.editMode_ (s.items_ n) TapParameter.ENABLE n v hnum]
        exact hinv n hn
    · simp only [setAt, hnm, if_false]
      exact hinv n hn

/-- C19 at a concrete screen: in the example screen, put in mode pan and with tap 2
then enabled, tap 2 is visible and in mode pan while the disabled tap 3 is hidden
and in mode off. -/
theorem items_follow_screen_witness :
    ItemFollowsScreen TapEditMode.kTapEditPan
        (((exampleScreen.setEditMode 4 TapEditMode.kTapEditPan).setTapValue exampleEnv
          (GdParameter.tap TapParameter.ENABLE 2) 1).items_ 2)
      ∧ ItemFollowsScreen TapEditMode.kTapEditPan
        (((exampleScreen.setEditMode 4 TapEditMode.kTapEditPan).setTapValue exampleEnv
          (GdParameter.tap TapParameter.ENABLE 2) 1).items_ 3) := by
  have h0 : ∀ n, n < exampleEnv.GdMaxLines →
      ItemFollowsScreen exampleScreen.editMode_ (exampleScreen.items_ n) := by
    intro n _
    by_cases hn : n < 2 <;>
      simp [ItemFollowsScreen, exampleScreen, TapEditScreen.init, TapEditItem.init, hn]
  have h1 := (items_follow_screen exampleEnv).2.1 exampleScreen TapEditMode.kTapEditPan h0
  have h2 := (items_follow_screen exampleEnv).2.2
    (exampleScreen.setEditMode 4 TapEditMode.kTapEditPan) 2 1 h1
  have hmode : ((exampleScreen.setEditMode 4 TapEditMode.kTapEditPan).setTapValue exampleEnv
      (GdParameter.tap TapParameter.ENABLE 2) 1).editMode_ = TapEditMode.kTapEditPan := by
    rw [screen_setTapValue_tap, setEditMode_eq 4 exampleScreen TapEditMode.kTapEditPan
      (by simp [exampleScreen, TapEditScreen.init])]
  exact ⟨hmode ▸ h2 2 (by decide), hmode ▸ h2 3 (by decide)⟩

/-! ## Keys -/

theorem setAt_self {α : Type} (a : Nat → α) (i : Nat) : setAt a i (a i) = a := by
  funext j
  by_cases hj : j = i <;> simp [setAt, hj]

theorem setTimeRange_frame (s : TapEditScreen) (r : Range) :
    (s.setTimeRange r).items_ = s.items_
      ∧ (s.setTimeRange r).tapHasBegun_ = s.tapHasBegun_
      ∧ (s.setTimeRange r).tapCaptureTimerRunning = s.tapCaptureTimerRunning
      ∧ (s.setTimeRange r).tapCaptureCount_ = s.tapCaptureCount_
      ∧ (s.setTimeRange r).status_ = s.status_
      ∧ (s.setTimeRange r).editMode_ = s.editMode_
      ∧ (s.setTimeRange r).timeRange_ = r := by
  unfold TapEditScreen.setTimeRange
  split_ifs with h
  · exact ⟨rfl, rfl, rfl, rfl, rfl, rfl, h⟩
  · exact ⟨rfl, rfl, rfl, rfl, rfl, rfl, rfl⟩

theorem setAllTapsSelected_eq (GdMaxLines : Nat) (s : TapEditScreen) (selected : Bool) :
    s.setAllTapsSelected GdMaxLines selected
      = { s with
          items_ := fun j =>
            if j < GdMaxLines then (s.items_ j).setTapSelected selected else s.items_ j } :=
  itemsLoop_eq GdMaxLines _ (fun _ item => item.setTapSelected selected) s (fun _ _ => rfl)

theorem item_setTapSelected_frame (item : TapEditItem) (selected : Bool) :
    (item.setTapSelected selected).tapSelected_ = selected
      ∧ (item.setTapSelected selected).data_ = item.data_
      ∧ (item.setTapSelected selected).itemNumber_ = item.itemNumber_
      ∧ (item.setTapSelected selected).sliders_ = item.sliders_
      ∧ (item.setTapSelected selected).buttons_ = item.buttons_
      ∧ (item.setTapSelected selected).editMode_ = item.editMode_
      ∧ (item.setTapSelected selected).visible = item.visible := by
  unfold TapEditItem.setTapSelected
  split_ifs with h
  · exact ⟨h, rfl, rfl, rfl, rfl, rfl, rfl⟩
  · exact ⟨rfl, rfl, rfl, rfl, rfl, rfl, rfl⟩

theorem disableLoop_eq (env : EditorEnv) (s : TapEditScreen) (pick : Nat → Bool) :
    forLoop env.GdMaxLines
        (fun tapNumber t =>
          if pick tapNumber then
            t.setTapValue env
              (GdRecomposeParameter (GdParameter.tap TapParameter.ENABLE 0) tapNumber)
              (boolToFloat false)
          else t) s
      = { s with
          items_ := fun j =>
            if j < env.GdMaxLines then
              (if pick j then
                (s.items_ j).setTapValue s.editMode_ (GdParameter.tap TapParameter.ENABLE j)
                  (boolToFloat false)
              else s.items_ j)
            else s.items_ j } := by
  apply itemsLoop_eq env.GdMaxLines _
    (fun j item =>
      if pick j then
        item.setTapValue s.editMode_ (GdParameter.tap TapParameter.ENABLE j) (boolToFloat false)
      else item) s
  intro i items
  by_cases hp : pick i = true
  · simp only [hp, if_true, GdRecomposeParameter]
    rw [screen_setTapValue_tap]
  · simp only [hp, if_false, Bool.false_eq_true]
    rw [setAt_self]

/-- C20: the Delete key disables every selected tap, leaves the enabled state and
the delay of every tap that was not selected as they were, leaves a selected
tap its delay, deselects all taps and returns true; the Escape key returns true
and ends a running tap capture, changing nothing when none is running; every
other key returns false and changes nothing. Taps are those below `GdMaxLines`,
each item carrying its own tap number. -/
theorem keyPressed_spec (env : EditorEnv) (s : TapEditScreen)
    (hnum : ∀ n, n < env.GdMaxLines → (s.items_ n).itemNumber_ = n) :
    ((s.keyPressed env KeyPress.deleteKey).1 = true
        ∧ ∀ n, n < env.GdMaxLines →
          (s.isTapSelected n = true →
              ((s.keyPressed env KeyPress.deleteKey).2.items_ n).data_.enabled = false
                ∧ ((s.keyPressed env KeyPress.deleteKey).2.items_ n).data_.delay
                  = (s.items_ n).data_.delay)
            ∧ (s.isTapSelected n = false →
              ((s.keyPressed env KeyPress.deleteKey).2.items_ n).data_ = (s.items_ n).data_)
            ∧ (s.keyPressed env KeyPress.deleteKey).2.isTapSelected n = false)
      ∧ ((s.keyPressed env KeyPress.escapeKey).1 = true
          ∧ (s.keyPressed env KeyPress.escapeKey).2.tapHasBegun_ = false
          ∧ (s.tapHasBegun_ = true →
              (s.keyPressed env KeyPress.escapeKey).2.tapCaptureTimerRunning = false
                ∧ (s.keyPressed env KeyPress.escapeKey).2.items_ = s.items_)
          ∧ (s.tapHasBegun_ = false → (s.keyPressed env KeyPress.escapeKey).2 = s))
      ∧ (∀ keyCode, s.keyPressed env (KeyPress.otherKey keyCode) = (false, s)) := by
  refine ⟨⟨rfl, ?_⟩, ⟨rfl, ?_, ?_, ?_⟩, fun _ => rfl⟩
  · intro n hn
    have hkey : (s.keyPressed env KeyPress.deleteKey).2.items_ n
        = ((if s.isTapSelected n then
              (s.items_ n).setTapValue s.editMode_ (GdParameter.tap TapParameter.ENABLE n)
                (boolToFloat false)
            else s.items_ n).setTapSelected false) := by
      simp only [TapEditScreen.keyPressed, if_true]
      rw [disableLoop_eq env s (fun tapNumber => s.isTapSelected tapNumber),
        setAllTapsSelected_eq]
      simp only [hn, if_true]
    have hen := item_setTapValue_enable s.editMode_ (s.items_ n) (boolToFloat false)
    rw [hnum n hn] at hen
    refine ⟨?_, ?_, ?_⟩
    · intro hsel
      rw [hkey, (item_setTapSelected_frame _ false).2.1]
      simp only [hsel, if_true]
      rw [hen.1]
      simp [floatToBool, boolToFloat]
    · intro hsel
      rw [hkey, (item_setTapSelected_frame _ false).2.1]
      simp [hsel]
    · unfold TapEditScreen.isTapSelected
      rw [hkey, (item_setTapSelected_frame _ false).1]
  · by_cases hb : s.tapHasBegun_ = true
    · simp only [TapEditScreen.keyPressed, hb, if_true, TapEditScreen.endTapCapture,
        TapEditScreen.autoZoomTimeRange]
      simp [(setTimeRange_frame _ _).2.1]
    · simp only [Bool.not_eq_true] at hb
      simp [TapEditScreen.keyPressed, hb]
  · intro hb
    simp only [TapEditScreen.keyPressed, hb, if_true, TapEditScreen.endTapCapture,
      TapEditScreen.autoZoomTimeRange]
    refine ⟨?_, ?_⟩
    · simp [(setTimeRange_frame _ _).2.2.1]
    · simp [(setTimeRange_frame _ _).1]
  · intro hb
    simp [TapEditScreen.keyPressed, hb]

/-- C20 at a concrete screen: with taps 0 and 1 enabled and taps 1 and 3 selected,
Delete leaves tap 0 enabled, disables tap 1 and deselects tap 3. -/
theorem keyPressed_spec_witness :
    ((selectionScreen.keyPressed exampleEnv KeyPress.deleteKey).2.items_ 0).data_.enabled = true
      ∧ ((selectionScreen.keyPressed exampleEnv KeyPress.deleteKey).2.items_ 1).data_.enabled
        = false
      ∧ (selectionScreen.keyPressed exampleEnv KeyPress.deleteKey).2.isTapSelected 3 = false := by
  obtain ⟨_, hdel⟩ := (keyPressed_spec exampleEnv selectionScreen
    (by intro n _; rfl)).1
  refine ⟨?_, ?_, ?_⟩
  · rw [(hdel 0 (by decide)).2.1 (by simp [TapEditScreen.isTapSelected, selectionScreen])]
    simp [selectionScreen, exampleScreen]
  · exact ((hdel 1 (by decide)).1
      (by simp [TapEditScreen.isTapSelected, selectionScreen])).1
  · exact (hdel 3 (by decide)).2.2

/-! ## Automatic zoom -/

theorem floatToBool_boolToFloat (b : Bool) : floatToBool (boolToFloat b) = b := by
  cases b <;> simp [floatToBool, boolToFloat]

theorem item_getTapValue_own (item : TapEditItem) :
    floatToBool (item.getTapValue (GdParameter.tap TapParameter.ENABLE item.itemNumber_))
        = item.data_.enabled
      ∧ item.getTapValue (GdParameter.tap TapParameter.DELAY item.itemNumber_)
        = item.data_.delay := by
  constructor
  · simp [TapEditItem.getTapValue, GdDecomposeParameter, floatToBool_boolToFloat]
  · simp [TapEditItem.getTapValue, GdDecomposeParameter]

theorem autoZoomScan_succ (N : Nat) (s : TapEditScreen) (hN : (s.items_ N).itemNumber_ = N) :
    s.autoZoomScan (N + 1)
      = if (s.items_ N).data_.enabled then
          ((s.autoZoomScan N).1 + 1, max (s.items_ N).data_.delay (s.autoZoomScan N).2)
        else s.autoZoomScan N := by
  have h := item_getTapValue_own (s.items_ N)
  rw [hN] at h
  unfold TapEditScreen.autoZoomScan
  rw [forLoop_succ]
  simp only [GdRecomposeParameter, h.1, h.2]

theorem autoZoomScan_spec (s : TapEditScreen) :
    ∀ N : Nat, (∀ n, n < N → (s.items_ n).itemNumber_ = n) →
      0 ≤ (s.autoZoomScan N).2
        ∧ (∀ n, n < N → (s.items_ n).data_.enabled = true →
            (s.items_ n).data_.delay ≤ (s.autoZoomScan N).2)
        ∧ ((s.autoZoomScan N).1 = 0 ↔ ∀ n, n < N → (s.items_ n).data_.enabled = false)
        ∧ ((s.autoZoomScan N).2 = 0
            ∨ ∃ n, n < N ∧ (s.items_ n).data_.enabled = true
                ∧ (s.items_ n).data_.delay = (s.autoZoomScan N).2) := by
  intro N
  induction N with
  | zero =>
      intro _
      simp [TapEditScreen.autoZoomScan, forLoop_zero]
  | succ N ih =>
      intro hnum
      obtain ⟨h0, hub, hcount, hatt⟩ := ih (fun n hn => hnum n (by omega))
      rw [autoZoomScan_succ N s (hnum N (by omega))]
      cases hen : (s.items_ N).data_.enabled
      · simp only [Bool.false_eq_true, if_false]
        refine ⟨h0, ?_, ?_, ?_⟩
        · intro n hn hn_en
          by_cases hnN : n = N
          · subst hnN; rw [hen] at hn_en; exact absurd hn_en (by simp)
          · exact hub n (by omega) hn_en
        · rw [hcount]
          constructor
          · intro h n hn
            by_cases hnN : n = N
            · subst hnN; exact hen
            · exact h n (by omega)
          · intro h n hn
            exact h n (by omega)
        · rcases hatt with h | ⟨n, hn, hne, hnd⟩
          · exact Or.inl h
          · exact Or.inr ⟨n, by omega, hne, hnd⟩
      · simp only [if_true]
        refine ⟨le_trans h0 (le_max_right _ _), ?_, ?_, ?_⟩
        · intro n hn hn_en
          by_cases hnN : n = N
          · subst hnN; exact le_max_left _ _
          · exact le_trans (hub n (by omega) hn_en) (le_max_right _ _)
        · constructor
          · intro h; omega
          · intro h
            have := h N (by omega)
            rw [hen] at this
            exact absurd this (by simp)
        · by_cases hle : (s.autoZoomScan N).2 ≤ (s.items_ N).data_.delay
          · right
            exact ⟨N, by omega, hen, by rw [max_eq_left hle]⟩
          · rw [max_eq_right (le_of_lt (not_le.mp hle))]
            rcases hatt with h | ⟨n, hn, hne, hnd⟩
            · exact Or.inl h
            · exact Or.inr ⟨n, by omega, hne, hnd⟩

theorem autoZoomScan_congr (s t : TapEditScreen) :
    ∀ N : Nat, (∀ n, n < N → (s.items_ n).itemNumber_ = n) →
      (∀ n, n < N → (t.items_ n).itemNumber_ = n) →
      (∀ n, n < N → (t.items_ n).data_.enabled = (s.items_ n).data_.enabled
        ∧ ((s.items_ n).data_.enabled = true →
            (t.items_ n).data_.delay = (s.items_ n).data_.delay)) →
      t.autoZoomScan N = s.autoZoomScan N := by
  intro N
  induction N with
  | zero => intro _ _ _; rfl
  | succ N ih =>
      intro hs ht hagree
      rw [autoZoomScan_succ N s (hs N (by omega)), autoZoomScan_succ N t (ht N (by omega)),
        ih (fun n hn => hs n (by omega)) (fun n hn => ht n (by omega))
          (fun n hn => hagree n (by omega)),
        (hagree N (by omega)).1]
      cases hen : (s.items_ N).data_.enabled
      · simp
      · simp [(hagree N (by omega)).2 hen]

theorem halfGrid_spec (m : ℚ) (hm : 0 ≤ m) :
    (1 / 2 : ℚ) * ((⌊(m + 1 / 2) / (1 / 2)⌋ : Int) : ℚ) ≤ m + 1 / 2
      ∧ m < (1 / 2 : ℚ) * ((⌊(m + 1 / 2) / (1 / 2)⌋ : Int) : ℚ)
      ∧ (1 / 2 : ℚ) ≤ (1 / 2 : ℚ) * ((⌊(m + 1 / 2) / (1 / 2)⌋ : Int) : ℚ) := by
  have hx : (m + 1 / 2) / (1 / 2) = 2 * m + 1 := by
    field_simp
    ring
  rw [hx]
  have h1 : ((⌊2 * m + 1⌋ : Int) : ℚ) ≤ 2 * m + 1 := Int.floor_le _
  have h2 : 2 * m + 1 < ((⌊2 * m + 1⌋ : Int) : ℚ) + 1 := Int.lt_floor_add_one _
  have h3 : (1 : Int) ≤ ⌊2 * m + 1⌋ := by
    rw [Int.le_floor]
    push_cast
    linarith
  have h3' : (1 : ℚ) ≤ ((⌊2 * m + 1⌋ : Int) : ℚ) := by exact_mod_cast h3
  refine ⟨by linarith, by linarith, by linarith⟩

theorem roundToFloat_nonneg (x : ℚ) (h : 0 ≤ x) : 0 ≤ roundToFloat x := by
  have := roundToFloat_mono 0 x h
  rwa [roundToFloat_zero] at this

theorem zoomGridEnd_mono (a b : ℚ) (h : a ≤ b) : zoomGridEnd a ≤ zoomGridEnd b := by
  unfold zoomGridEnd
  simp only
  apply roundToFloat_mono
  have h1 : roundToFloat (a + 1 / 2) ≤ roundToFloat (b + 1 / 2) :=
    roundToFloat_mono _ _ (by linarith)
  have h2 : roundToFloat (roundToFloat (a + 1 / 2) / (1 / 2))
      ≤ roundToFloat (roundToFloat (b + 1 / 2) / (1 / 2)) :=
    roundToFloat_mono _ _ (by linarith)
  have h3 : (⌊roundToFloat (roundToFloat (a + 1 / 2) / (1 / 2))⌋ : Int)
      ≤ ⌊roundToFloat (roundToFloat (b + 1 / 2) / (1 / 2))⌋ := Int.floor_mono h2
  have h4 : ((⌊roundToFloat (roundToFloat (a + 1 / 2) / (1 / 2))⌋ : Int) : ℚ)
      ≤ ((⌊roundToFloat (roundToFloat (b + 1 / 2) / (1 / 2))⌋ : Int) : ℚ) := by
    exact_mod_cast h3
  linarith

theorem zoomGridEnd_spec (m : ℚ) (hm : 0 ≤ m) (hb : m < 4194304) :
    zoomGridEnd m = (1 / 2 : ℚ) * ((⌊roundToFloat (m + 1 / 2) / (1 / 2)⌋ : Int) : ℚ)
      ∧ m < zoomGridEnd m
      ∧ zoomGridEnd m ≤ roundToFloat (m + 1 / 2)
      ∧ zoomGridEnd m ≤ m + 1
      ∧ (1 / 2 : ℚ) ≤ zoomGridEnd m
      ∧ (roundToFloat (m + 1 / 2) = m + 1 / 2 →
          zoomGridEnd m = (1 / 2 : ℚ) * ((⌊(m + 1 / 2) / (1 / 2)⌋ : Int) : ℚ)
            ∧ zoomGridEnd m ≤ m + 1 / 2) := by
  have hx : |m + 1 / 2| < (2 : ℚ) ^ ((-1 : Int) + 24) := by
    rw [abs_of_nonneg (by linarith)]
    norm_num
    linarith
  have hy0 : 0 ≤ roundToFloat (m + 1 / 2) := roundToFloat_nonneg _ (by linarith)
  have hj1 : ((⌊2 * m⌋ : Int) : ℚ) ≤ 2 * m := Int.floor_le _
  have hj2 : 2 * m < ((⌊2 * m⌋ : Int) : ℚ) + 1 := Int.lt_floor_add_one _
  have hj0 : (0 : Int) ≤ ⌊2 * m⌋ := Int.floor_nonneg.mpr (by linarith)
  have hlow : (((⌊2 * m⌋ + 1 : Int) : Int) : ℚ) * (2 : ℚ) ^ (-1 : Int)
      ≤ roundToFloat (m + 1 / 2) := by
    apply (roundToFloat_grid (m + 1 / 2) (⌊2 * m⌋ + 1) (-1) (by norm_num) hx).1
    push_cast
    norm_num
    linarith
  have hhigh : roundToFloat (m + 1 / 2)
      ≤ (((⌊2 * m⌋ + 2 : Int) : Int) : ℚ) * (2 : ℚ) ^ (-1 : Int) := by
    apply (roundToFloat_grid (m + 1 / 2) (⌊2 * m⌋ + 2) (-1) (by norm_num) hx).2
    push_cast
    norm_num
    linarith
  have htop : roundToFloat (m + 1 / 2) ≤ ((2 ^ 24 : Int) : ℚ) * (2 : ℚ) ^ (-1 : Int) := by
    apply (roundToFloat_grid (m + 1 / 2) (2 ^ 24) (-1) (by norm_num) hx).2
    norm_num
    linarith
  push_cast at hlow hhigh htop
  norm_num at hlow hhigh htop
  have hquot : roundToFloat (roundToFloat (m + 1 / 2) / (1 / 2))
      = roundToFloat (m + 1 / 2) / (1 / 2) := by
    have h2 : roundToFloat (m + 1 / 2) / (1 / 2) = 2 * roundToFloat (m + 1 / 2) := by
      rw [div_eq_mul_inv]
      norm_num
      ring
    rw [h2]
    exact roundToFloat_double (m + 1 / 2)
  have hq2 : roundToFloat (m + 1 / 2) / (1 / 2) = 2 * roundToFloat (m + 1 / 2) := by
    rw [div_eq_mul_inv]
    norm_num
    ring
  have hk1 : ((⌊roundToFloat (m + 1 / 2) / (1 / 2)⌋ : Int) : ℚ)
      ≤ 2 * roundToFloat (m + 1 / 2) := le_of_le_of_eq (Int.floor_le _) hq2
  have hk2 : 2 * roundToFloat (m + 1 / 2)
      < ((⌊roundToFloat (m + 1 / 2) / (1 / 2)⌋ : Int) : ℚ) + 1 :=
    lt_of_eq_of_lt hq2.symm (Int.lt_floor_add_one _)
  have hklow : ⌊2 * m⌋ + 1 ≤ ⌊roundToFloat (m + 1 / 2) / (1 / 2)⌋ := by
    rw [Int.le_floor, hq2]
    push_cast
    linarith
  have hkhigh : ⌊roundToFloat (m + 1 / 2) / (1 / 2)⌋ ≤ 2 ^ 24 := by
    have : ⌊roundToFloat (m + 1 / 2) / (1 / 2)⌋ < 2 ^ 24 + 1 := by
      rw [Int.floor_lt, hq2]
      push_cast
      linarith
    omega
  have hklow' : ((⌊2 * m⌋ : Int) : ℚ) + 1
      ≤ ((⌊roundToFloat (m + 1 / 2) / (1 / 2)⌋ : Int) : ℚ) := by exact_mod_cast hklow
  have hprod : zoomGridEnd m
      = (1 / 2 : ℚ) * ((⌊roundToFloat (m + 1 / 2) / (1 / 2)⌋ : Int) : ℚ) := by
    unfold zoomGridEnd
    simp only
    rw [hquot]
    have := roundToFloat_exact ⌊roundToFloat (m + 1 / 2) / (1 / 2)⌋ (-1)
      (by rw [abs_of_nonneg (by omega)]; exact hkhigh) (by norm_num)
    have he : (2 : ℚ) ^ (-1 : Int) = 1 / 2 := by norm_num
    rw [he, mul_comm] at this
    exact this
  have hj0' : (0 : ℚ) ≤ ((⌊2 * m⌋ : Int) : ℚ) := by exact_mod_cast hj0
  refine ⟨hprod, ?_, ?_, ?_, ?_, ?_⟩
  · rw [hprod]; linarith
  · rw [hprod]; linarith
  · rw [hprod]; linarith
  · rw [hprod]; linarith
  · intro hexact
    rw [hprod]
    constructor
    · rw [hexact]
    · have h := hk1
      rw [hexact] at h
      linarith

theorem zoomGridEnd_nonneg (m : ℚ) (hm : 0 ≤ m) : (1 / 2 : ℚ) ≤ zoomGridEnd m := by
  have h0 := (zoomGridEnd_spec 0 (le_refl 0) (by norm_num)).2.2.2.2.1
  exact le_trans h0 (zoomGridEnd_mono 0 m hm)

theorem autoZoomEnd_nonneg (env : EditorEnv) (s : TapEditScreen)
    (hnum : ∀ n, n < env.GdMaxLines → (s.items_ n).itemNumber_ = n)
    (hM : 0 ≤ env.GdMaxDelay) : 0 ≤ s.autoZoomEnd env := by
  obtain ⟨h0, _, _, _⟩ := autoZoomScan_spec s env.GdMaxLines hnum
  have hhalf := zoomGridEnd_nonneg (s.autoZoomScan env.GdMaxLines).2 h0
  simp only [TapEditScreen.autoZoomEnd]
  split_ifs
  · exact hM
  · exact le_min hM (by linarith)

theorem roundToFloat_below_one :
    roundToFloat (16777215 / 33554432 + 1 / 2) = 1 := by
  rw [roundToFloat_binade _ (-1) (by norm_num) (by norm_num) (by norm_num)]
  have h : ((16777215 : ℚ) / 33554432 + 1 / 2) / (2 : ℚ) ^ ((-1 : Int) - 23)
      = ((16777215 : Int) : ℚ) + 1 / 2 := by
    norm_num
  rw [h, roundHalfEven_tie]
  norm_num

theorem zoomGridEnd_below_half : zoomGridEnd (16777215 / 33554432) = 1 := by
  rw [(zoomGridEnd_spec (16777215 / 33554432) (by norm_num) (by norm_num)).1,
    roundToFloat_below_one]
  have h : ((1 : ℚ) / (1 / 2)) = ((2 : Int) : ℚ) := by norm_num
  rw [h, Int.floor_intCast]
  norm_num

theorem zoomGridEnd_one : zoomGridEnd 1 = 3 / 2 := by
  have hfl : roundToFloat ((1 : ℚ) + 1 / 2) = 3 / 2 := by
    have h := roundToFloat_exact 3 (-1) (by norm_num) (by norm_num)
    have he : ((3 : Int) : ℚ) * (2 : ℚ) ^ (-1 : Int) = (1 : ℚ) + 1 / 2 := by norm_num
    rw [he] at h
    rw [h]
    norm_num
  rw [(zoomGridEnd_spec 1 (by norm_num) (by norm_num)).1, hfl]
  have h : ((3 : ℚ) / 2 / (1 / 2)) = ((3 : Int) : ℚ) := by norm_num
  rw [h, Int.floor_intCast]
  norm_num

/-- C17 as stated fails, in two places. In the example screen, with `GdMaxDelay` =
10, tap 0 is enabled with delay 0 and tap 1 with delay 1; the zoom sets the
window from 0 to 3/2, and tap 0 sits on the start of the window, not strictly
inside it. In a screen whose only enabled tap has the delay
`m` = 16777215/33554432, the largest `float` below 0.5, the float sum `m + 0.5`
rounds to 1, so the zoom sets the window from 0 to 1, which is not capped and
exceeds `m + 0.5`. -/
theorem autoZoomTimeRange_counterexample :
    ((exampleScreen.items_ 0).data_.enabled = true
        ∧ (exampleScreen.items_ 0).data_.delay < exampleEnv.GdMaxDelay
        ∧ (exampleScreen.autoZoomTimeRange exampleEnv).timeRange_
          = { start := 0, end_ := 3 / 2 }
        ∧ ¬ ((exampleScreen.autoZoomTimeRange exampleEnv).timeRange_.start
              < (exampleScreen.items_ 0).data_.delay
            ∧ (exampleScreen.items_ 0).data_.delay
              < (exampleScreen.autoZoomTimeRange exampleEnv).timeRange_.end_))
      ∧ ((nearHalfScreen.autoZoomScan exampleEnv.GdMaxLines).2 = 16777215 / 33554432
        ∧ (nearHalfScreen.autoZoomTimeRange exampleEnv).timeRange_
          = { start := 0, end_ := 1 }
        ∧ (1 : ℚ) < exampleEnv.GdMaxDelay
        ∧ ¬ ((nearHalfScreen.autoZoomTimeRange exampleEnv).timeRange_.end_
            ≤ (nearHalfScreen.autoZoomScan exampleEnv.GdMaxLines).2 + 1 / 2)) := by
  have hscan : exampleScreen.autoZoomScan 4 = (2, 1) := by
    have h1 := autoZoomScan_succ 0 exampleScreen rfl
    have h2 := autoZoomScan_succ 1 exampleScreen rfl
    have h3 := autoZoomScan_succ 2 exampleScreen rfl
    have h4 := autoZoomScan_succ 3 exampleScreen rfl
    have h0 : exampleScreen.autoZoomScan 0 = (0, 0) := rfl
    rw [h4, h3, h2, h1, h0]
    norm_num [exampleScreen, TapEditItem.init]
  have hend : exampleScreen.autoZoomEnd exampleEnv = 3 / 2 := by
    simp only [TapEditScreen.autoZoomEnd]
    have hcount : (exampleScreen.autoZoomScan exampleEnv.GdMaxLines).1 = 2 := by
      show (exampleScreen.autoZoomScan 4).1 = 2
      rw [hscan]
    have hmax : (exampleScreen.autoZoomScan exampleEnv.GdMaxLines).2 = 1 := by
      show (exampleScreen.autoZoomScan 4).2 = 1
      rw [hscan]
    rw [hcount, hmax, zoomGridEnd_one]
    norm_num [exampleEnv]
  have hrange : (exampleScreen.autoZoomTimeRange exampleEnv).timeRange_
      = { start := 0, end_ := 3 / 2 } := by
    unfold TapEditScreen.autoZoomTimeRange
    rw [(setTimeRange_frame _ _).2.2.2.2.2.2, hend]
    norm_num [Range.make]
  have hscan2 : nearHalfScreen.autoZoomScan 4 = (1, 16777215 / 33554432) := by
    have h1 := autoZoomScan_succ 0 nearHalfScreen rfl
    have h2 := autoZoomScan_succ 1 nearHalfScreen rfl
    have h3 := autoZoomScan_succ 2 nearHalfScreen rfl
    have h4 := autoZoomScan_succ 3 nearHalfScreen rfl
    have h0 : nearHalfScreen.autoZoomScan 0 = (0, 0) := rfl
    rw [h4, h3, h2, h1, h0]
    norm_num [nearHalfScreen, TapEditItem.init]
  have hmax2 : (nearHalfScreen.autoZoomScan exampleEnv.GdMaxLines).2
      = 16777215 / 33554432 := by
    show (nearHalfScreen.autoZoomScan 4).2 = 16777215 / 33554432
    rw [hscan2]
  have hend2 : nearHalfScreen.autoZoomEnd exampleEnv = 1 := by
    simp only [TapEditScreen.autoZoomEnd]
    have hcount : (nearHalfScreen.autoZoomScan exampleEnv.GdMaxLines).1 = 1 := by
      show (nearHalfScreen.autoZoomScan 4).1 = 1
      rw [hscan2]
    rw [hcount, hmax2, zoomGridEnd_below_half]
    norm_num [exampleEnv]
  have hrange2 : (nearHalfScreen.autoZoomTimeRange exampleEnv).timeRange_
      = { start := 0, end_ := 1 } := by
    unfold TapEditScreen.autoZoomTimeRange
    rw [(setTimeRange_frame _ _).2.2.2.2.2.2, hend2]
    norm_num [Range.make]
  refine ⟨⟨by simp [exampleScreen], by norm_num [exampleScreen, exampleEnv], hrange, ?_⟩,
    ⟨hmax2, hrange2, by norm_num [exampleEnv], ?_⟩⟩
  · rw [hrange]
    norm_num [exampleScreen]
  · rw [hrange2, hmax2]
    norm_num

/-- C17 (amended): `autoZoomTimeRange` sets the window to the range from 0 to `e`.
With no enabled tap `e` is `GdMaxDelay`. Otherwise, with `m` the largest delay
among the enabled taps, floored at 0, `e` is the smaller of `GdMaxDelay` and
`g = 0.5 * floor (y / 0.5)`, where `y` is the float sum `m + 0.5` (`zoomGridEnd`).
This `g` is at least 0.5, and for `m` below `2 ^ 22` it is a multiple of 0.5
with `m < g ≤ y`, hence `g ≤ m + 1`, and `g ≤ m + 0.5` with the formula of exact
arithmetic when the sum `m + 0.5` is a `float`. Uncapped, the window is at least
0.5 long. Every enabled tap whose delay is at least 0, below `GdMaxDelay` and
below `2 ^ 22` has its delay in the window and strictly before the end `e`. The
delays of disabled taps do not influence `e`. -/
theorem autoZoomTimeRange_spec (env : EditorEnv) (s : TapEditScreen)
    (hnum : ∀ n, n < env.GdMaxLines → (s.items_ n).itemNumber_ = n)
    (hM : 0 ≤ env.GdMaxDelay) :
    (s.autoZoomTimeRange env).timeRange_ = { start := 0, end_ := s.autoZoomEnd env }
      ∧ ((∀ n, n < env.GdMaxLines → (s.items_ n).data_.enabled = false) →
          s.autoZoomEnd env = env.GdMaxDelay)
      ∧ ((∃ n, n < env.GdMaxLines ∧ (s.items_ n).data_.enabled = true) →
          ∃ m : ℚ, 0 ≤ m
            ∧ (∀ n, n < env.GdMaxLines → (s.items_ n).data_.enabled = true →
                (s.items_ n).data_.delay ≤ m)
            ∧ (m = 0 ∨ ∃ n, n < env.GdMaxLines ∧ (s.items_ n).data_.enabled = true
                ∧ (s.items_ n).data_.delay = m)
            ∧ s.autoZoomEnd env = min env.GdMaxDelay (zoomGridEnd m)
            ∧ (1 / 2 : ℚ) ≤ zoomGridEnd m
            ∧ (m < 4194304 →
                zoomGridEnd m
                    = (1 / 2 : ℚ) * ((⌊roundToFloat (m + 1 / 2) / (1 / 2)⌋ : Int) : ℚ)
                  ∧ m < zoomGridEnd m
                  ∧ zoomGridEnd m ≤ roundToFloat (m + 1 / 2)
                  ∧ zoomGridEnd m ≤ m + 1
                  ∧ (roundToFloat (m + 1 / 2) = m + 1 / 2 →
                      zoomGridEnd m = (1 / 2 : ℚ) * ((⌊(m + 1 / 2) / (1 / 2)⌋ : Int) : ℚ)
                        ∧ zoomGridEnd m ≤ m + 1 / 2))
            ∧ (zoomGridEnd m ≤ env.GdMaxDelay →
                s.autoZoomEnd env = zoomGridEnd m
                  ∧ (s.autoZoomTimeRange env).timeRange_.getLength ≥ 1 / 2)
            ∧ (∀ n, n < env.GdMaxLines → (s.items_ n).data_.enabled = true →
                0 ≤ (s.items_ n).data_.delay → (s.items_ n).data_.delay < env.GdMaxDelay →
                (s.items_ n).data_.delay < 4194304 →
                (s.autoZoomTimeRange env).timeRange_.start ≤ (s.items_ n).data_.delay
                  ∧ (s.items_ n).data_.delay < (s.autoZoomTimeRange env).timeRange_.end_))
      ∧ (∀ t : TapEditScreen, (∀ n, n < env.GdMaxLines → (t.items_ n).itemNumber_ = n) →
          (∀ n, n < env.GdMaxLines →
            (t.items_ n).data_.enabled = (s.items_ n).data_.enabled
              ∧ ((s.items_ n).data_.enabled = true →
                  (t.items_ n).data_.delay = (s.items_ n).data_.delay)) →
          t.autoZoomEnd env = s.autoZoomEnd env) := by
  obtain ⟨h0, hub, hcount, hatt⟩ := autoZoomScan_spec s env.GdMaxLines hnum
  have hhalf := zoomGridEnd_nonneg (s.autoZoomScan env.GdMaxLines).2 h0
  have hrange : (s.autoZoomTimeRange env).timeRange_
      = { start := 0, end_ := s.autoZoomEnd env } := by
    unfold TapEditScreen.autoZoomTimeRange
    rw [(setTimeRange_frame _ _).2.2.2.2.2.2]
    exact Range.make_of_le 0 _ (autoZoomEnd_nonneg env s hnum hM)
  refine ⟨hrange, ?_, ?_, ?_⟩
  · intro hnone
    simp only [TapEditScreen.autoZoomEnd]
    rw [if_pos (hcount.mpr hnone)]
  · rintro ⟨n, hn, hen⟩
    have hc : (s.autoZoomScan env.GdMaxLines).1 ≠ 0 := by
      intro h
      have := hcount.mp h n hn
      rw [hen] at this
      exact absurd this (by simp)
    have hend : s.autoZoomEnd env
        = min env.GdMaxDelay (zoomGridEnd (s.autoZoomScan env.GdMaxLines).2) := by
      simp only [TapEditScreen.autoZoomEnd]
      rw [if_neg hc]
    refine ⟨(s.autoZoomScan env.GdMaxLines).2, h0, hub, hatt, hend, hhalf, ?_, ?_, ?_⟩
    · intro hb
      obtain ⟨h1, h2, h3, h4, _, h6⟩ :=
        zoomGridEnd_spec (s.autoZoomScan env.GdMaxLines).2 h0 hb
      exact ⟨h1, h2, h3, h4, h6⟩
    · intro hcap
      have he : s.autoZoomEnd env = zoomGridEnd (s.autoZoomScan env.GdMaxLines).2 := by
        rw [hend, min_eq_right hcap]
      refine ⟨he, ?_⟩
      rw [hrange]
      simp only [Range.getLength]
      rw [he]
      linarith
    · intro k hk hken hk0 hkM hkb
      rw [hrange]
      refine ⟨hk0, ?_⟩
      show (s.items_ k).data_.delay < s.autoZoomEnd env
      rw [hend]
      have hown := (zoomGridEnd_spec (s.items_ k).data_.delay hk0 hkb).2.1
      exact lt_min hkM (lt_of_lt_of_le hown (zoomGridEnd_mono _ _ (hub k hk hken)))
  · intro t ht hagree
    simp only [TapEditScreen.autoZoomEnd]
    rw [autoZoomScan_congr s t env.GdMaxLines hnum ht hagree]

/-- C17 (amended) at a concrete screen: the example screen, whose enabled taps have
delays 0 and 1, is zoomed to the window from 0 to 3/2 when `GdMaxDelay` is 10. -/
theorem autoZoomTimeRange_spec_witness :
    (exampleScreen.autoZoomTimeRange exampleEnv).timeRange_.start = 0
      ∧ (1 : ℚ) < (exampleScreen.autoZoomTimeRange exampleEnv).timeRange_.end_ := by
  obtain ⟨hr, _, hsome, _⟩ := autoZoomTimeRange_spec exampleEnv exampleScreen
    (by intro n _; rfl) (by norm_num [exampleEnv])
  obtain ⟨m, _, _, _, _, _, _, _, hin⟩ := hsome ⟨1, by decide, by simp [exampleScreen]⟩
  refine ⟨by rw [hr], ?_⟩
  have h := (hin 1 (by decide) (by simp [exampleScreen])
    (by norm_num [exampleScreen]) (by norm_num [exampleScreen, exampleEnv])
    (by norm_num [exampleScreen])).2
  simpa [exampleScreen] using h

/-! ## One item: writes to one parameter leave the others alone -/

theorem land_three (div : Int) (hdiv : 0 ≤ div) : Int.land div 3 = div % 4 := by
  obtain ⟨n, rfl⟩ := Int.eq_ofNat_of_zero_le hdiv
  show ((n &&& 3 : Nat) : Int) = _
  rw [show (3 : Nat) = 2 ^ 2 - 1 from rfl, Nat.and_pow_two_sub_one_eq_mod]
  norm_num

theorem majorDivOf_eq (div : Int) (hdiv : 0 ≤ div) :
    majorDivOf div = if div % 4 ≠ 0 then div / 2 else div / 4 := by
  unfold majorDivOf
  rw [land_three div hdiv]
  split_ifs
  · exact Int.tdiv_eq_ediv hdiv (by decide)
  · exact Int.tdiv_eq_ediv hdiv (by decide)

theorem majorDivOf_eq_zero (div : Int) (hdiv : 1 ≤ div) : majorDivOf div = 0 ↔ div = 1 := by
  rw [majorDivOf_eq div (by omega)]
  split_ifs <;> omega

/-- C22: for a grid divisor `div` of at least 1 and a tick index `i` of at least
0, the colour of the tick in `TapEditScreen::paint` is chosen without a
remainder whose divisor is zero. Here `superMajorDiv` is `div`, and `majorDiv`
is `div / 2` when `div` is not a multiple of 4 and `div / 4` when it is;
`majorDiv` is zero exactly when `div` is 1; the remainder by `superMajorDiv` is
always evaluated and the remainder by `majorDiv` only when the first one is
non-zero, which never happens for `div` = 1. -/
theorem paintTickColour_no_zero_divisor (div i : Int) (hdiv : 1 ≤ div) (hi : 0 ≤ i) :
    (∀ d, d ∈ (paintTickColour div i).divisors → d ≠ 0)
      ∧ (paintTickColour div i).colour
        = some (if i % div = 0 then TickColour.superMajorIntervalTickColour
            else if i % majorDivOf div = 0 then TickColour.majorIntervalTickColour
            else TickColour.minorIntervalTickColour)
      ∧ majorDivOf div = (if div % 4 ≠ 0 then div / 2 else div / 4)
      ∧ (majorDivOf div = 0 ↔ div = 1)
      ∧ (paintTickColour div i).divisors
        = (if i % div = 0 then [div] else [div, majorDivOf div]) := by
  have hd0 : div ≠ 0 := by omega
  have hmajor := majorDivOf_eq_zero div hdiv
  have hm0 : 0 ≤ majorDivOf div := by
    rw [majorDivOf_eq div (by omega)]
    split_ifs <;> omega
  have hr1 : Int.tmod i div = i % div := Int.tmod_eq_emod hi (by omega)
  have hr2 : Int.tmod i (majorDivOf div) = i % majorDivOf div := Int.tmod_eq_emod hi hm0
  refine ⟨?_, ?_, majorDivOf_eq div (by omega), hmajor, ?_⟩
  · intro d hd
    unfold paintTickColour intRemainder at hd
    simp only [if_neg hd0, hr1] at hd
    by_cases h1 : i % div = 0
    · simp only [if_pos h1, List.mem_singleton] at hd
      rw [hd]
      exact hd0
    · have hm : majorDivOf div ≠ 0 := by
        intro h
        have h1d := hmajor.1 h
        rw [h1d, Int.emod_one] at h1
        exact h1 rfl
      simp only [if_neg h1, if_neg hm] at hd
      have hmem : d = div ∨ d = majorDivOf div := by
        split_ifs at hd <;> simpa using hd
      rcases hmem with h | h
      · rw [h]; exact hd0
      · rw [h]; exact hm
  · unfold paintTickColour intRemainder
    simp only [if_neg hd0, hr1]
    by_cases h1 : i % div = 0
    · simp only [if_pos h1]
    · have hm : majorDivOf div ≠ 0 := by
        intro h
        have h1d := hmajor.1 h
        rw [h1d, Int.emod_one] at h1
        exact h1 rfl
      simp only [if_neg h1, if_neg hm, hr2]
      split_ifs <;> rfl
  · unfold paintTickColour intRemainder
    simp only [if_neg hd0, hr1]
    by_cases h1 : i % div = 0
    · simp only [if_pos h1]
    · have hm : majorDivOf div ≠ 0 := by
        intro h
        have h1d := hmajor.1 h
        rw [h1d, Int.emod_one] at h1
        exact h1 rfl
      simp only [if_neg h1, if_neg hm]
      split_ifs <;> rfl

/-- C22 at concrete ticks: for `div` = 1, where `majorDiv` is 0, tick 5 is
coloured super-major after the one remainder by 1; for `div` = 8 tick 6 is
coloured major after the remainders by 8 and by 2. -/
theorem paintTickColour_no_zero_divisor_witness :
    paintTickColour 1 5
        = { divisors := [1], colour := some TickColour.superMajorIntervalTickColour }
      ∧ majorDivOf 1 = 0
      ∧ paintTickColour 8 6
        = { divisors := [8, 2], colour := some TickColour.majorIntervalTickColour }
      ∧ ∀ d, d ∈ (paintTickColour 8 6).divisors → d ≠ 0 := by
  refine ⟨by decide, by decide, by decide, ?_⟩
  exact (paintTickColour_no_zero_divisor 8 6 (by decide) (by decide)).1

/-! ## The audio callback -/

/-- With a play head that gives a position, `processBlock` dereferences nothing
absent: it calls `updateBPM` once with the tempo when the position has one and
not at all when it has none, and then hands `impl.gd_` to `GdProcess`, which is
the null pointer when there is no engine. -/
theorem processBlock_with_position (P : ParameterTable) (GdMaxLines GDP_SYNC : Nat)
    (delayIndex : Nat → Nat) (s : Processor) (positionInfo : PositionInfo)
    (numSamples : Nat) :
    (∀ bpm, positionInfo.getBpm = some bpm →
        processBlock P GdMaxLines GDP_SYNC delayIndex s
            (some { getPosition := some positionInfo }) numSamples
          = Except.ok
              { processor := updateBPM P GdMaxLines GDP_SYNC delayIndex s bpm,
                updateBPMCalls := [bpm],
                gdProcessArgument := (updateBPM P GdMaxLines GDP_SYNC delayIndex s bpm).gd_,
                numSamples := numSamples })
      ∧ (positionInfo.getBpm = none →
        processBlock P GdMaxLines GDP_SYNC delayIndex s
            (some { getPosition := some positionInfo }) numSamples
          = Except.ok
              { processor := s, updateBPMCalls := [], gdProcessArgument := s.gd_,
                numSamples := numSamples }) := by
  constructor
  · intro bpm h
    simp only [processBlock, h]
  · intro h
    simp only [processBlock, h]

theorem processBlock_without_position (P : ParameterTable) (GdMaxLines GDP_SYNC : Nat)
    (delayIndex : Nat → Nat) (s : Processor) (numSamples : Nat) :
    processBlock P GdMaxLines GDP_SYNC delayIndex s none numSamples
        = Except.error Fault.nullPlayHead
      ∧ processBlock P GdMaxLines GDP_SYNC delayIndex s (some { getPosition := none })
          numSamples = Except.error Fault.emptyPositionInfo :=
  ⟨rfl, rfl⟩

/-- C21 fails on the code: for a processor between `prepareToPlay` and
`releaseResources` and a block of 512 samples, `processBlock` with no play head
dereferences the null `playHead`, and with a play head that gives no position
it dereferences the empty `positionInfo`; for a processor without an engine and
a play head that gives the tempo 120, it calls `updateBPM` with 120 and then
calls `GdProcess` with the null engine pointer. -/
theorem processBlock_absent_values :
    processBlock exampleTable 0 0 id exampleProcessor none 512
        = Except.error Fault.nullPlayHead
      ∧ processBlock exampleTable 0 0 id exampleProcessor (some silentPlayHead) 512
        = Except.error Fault.emptyPositionInfo
      ∧ tempoProcessor.gd_ = none
      ∧ (processBlock tempoTable 2 0 (fun k => k + 1) tempoProcessor (some tempoPlayHead)
          512).toOption.map (fun effect => (effect.updateBPMCalls, effect.numSamples))
        = some ([120], 512)
      ∧ (processBlock tempoTable 2 0 (fun k => k + 1) tempoProcessor (some tempoPlayHead)
          512).toOption.map (fun effect => effect.gdProcessArgument.isSome)
        = some false := by
  refine ⟨rfl, rfl, rfl, rfl, ?_⟩
  have hsame : updateBPM tempoTable 2 0 (fun k => k + 1) tempoProcessor 120 = tempoProcessor := by
    simp only [updateBPM]
    exact if_pos rfl
  simp only [processBlock, tempoPlayHead, hsame]
  rfl

/-! ## Binary32 rounding: the size of the error -/
theorem roundHalfEven_err (q : ℚ) : |(roundHalfEven q : ℚ) - q| ≤ 1 / 2 := by
  have h1 : ((⌊q⌋ : Int) : ℚ) ≤ q := Int.floor_le q
  have h2 : q < ((⌊q⌋ : Int) : ℚ) + 1 := Int.lt_floor_add_one q
  unfold roundHalfEven
  simp only []
  rw [abs_le]
  split_ifs with ha hb hc
  · constructor <;> linarith
  · push_cast
    constructor <;> linarith
  · have : q - ((⌊q⌋ : Int) : ℚ) = 1 / 2 := le_antisymm (not_lt.mp hb) (not_lt.mp ha)
    constructor <;> linarith
  · have : q - ((⌊q⌋ : Int) : ℚ) = 1 / 2 := le_antisymm (not_lt.mp hb) (not_lt.mp ha)
    push_cast
    constructor <;> linarith

theorem ulp_le (x : ℚ) (hx : x ≠ 0) :
    (2 : ℚ) ^ ulpExponent x ≤ |x| / 2 ^ 23 + 1 / 2 ^ 149 := by
  have habs : 0 ≤ |x| := abs_nonneg x
  unfold ulpExponent
  rcases le_total (Int.log 2 |x|) (-126) with h | h
  · rw [max_eq_right h]
    have : (2 : ℚ) ^ ((-126 : Int) - 23) = 1 / 2 ^ 149 := by norm_num [zpow_neg]
    rw [this]
    have : 0 ≤ |x| / 2 ^ 23 := by positivity
    linarith
  · rw [max_eq_left h]
    · have hpos : 0 < |x| := abs_pos.mpr hx
      have h1 : (2 : ℚ) ^ Int.log 2 |x| ≤ |x| := Int.zpow_log_le_self (by norm_num) hpos
      have h2 : (2 : ℚ) ^ (Int.log 2 |x| - 23) = (2 : ℚ) ^ Int.log 2 |x| / 2 ^ 23 := by
        rw [zpow_sub₀ (by norm_num)]
        norm_num
      rw [h2]
      have h3 : (2 : ℚ) ^ Int.log 2 |x| / 2 ^ 23 ≤ |x| / 2 ^ 23 :=
        div_le_div_of_nonneg_right h1 (by positivity)
      have : (0 : ℚ) ≤ 1 / 2 ^ 149 := by positivity
      linarith

theorem roundToFloat_err (x : ℚ) :
    |roundToFloat x - x| ≤ |x| / 2 ^ 24 + 1 / 2 ^ 150 := by
  by_cases hx : x = 0
  · subst hx
    rw [roundToFloat_zero]
    norm_num
  have hp : (0 : ℚ) < (2 : ℚ) ^ ulpExponent x := by positivity
  have h1 := roundHalfEven_err (x / (2 : ℚ) ^ ulpExponent x)
  have h2 : roundToFloat x - x
      = ((roundHalfEven (x / (2 : ℚ) ^ ulpExponent x) : ℚ) - x / (2 : ℚ) ^ ulpExponent x)
        * (2 : ℚ) ^ ulpExponent x := by
    unfold roundToFloat
    field_simp
  rw [h2, abs_mul, abs_of_pos hp]
  have h3 := ulp_le x hx
  have h4 : |(roundHalfEven (x / (2 : ℚ) ^ ulpExponent x) : ℚ) - x / (2 : ℚ) ^ ulpExponent x|
      * (2 : ℚ) ^ ulpExponent x ≤ 1 / 2 * (2 : ℚ) ^ ulpExponent x :=
    mul_le_mul_of_nonneg_right h1 hp.le
  have h5 : |x| / 2 ^ 24 + 1 / 2 ^ 150 = 1 / 2 * (|x| / 2 ^ 23 + 1 / 2 ^ 149) := by ring
  rw [h5]
  linarith

/-- Rounding a number that is not negative: at most one part in `2 ^ 24` up, and
the smallest subnormal step. -/
theorem roundToFloat_upper (x : ℚ) (hx : 0 ≤ x) :
    roundToFloat x ≤ x * (1 + 1 / 16777216) + 1 / 2 ^ 150 := by
  have h := roundToFloat_err x
  rw [abs_of_nonneg hx, abs_le] at h
  have : x / 2 ^ 24 = x * (1 / 16777216) := by ring
  linarith [h.2]

theorem roundToFloat_lower (x : ℚ) (hx : 0 ≤ x) :
    x * (1 - 1 / 16777216) - 1 / 2 ^ 150 ≤ roundToFloat x := by
  have h := roundToFloat_err x
  rw [abs_of_nonneg hx, abs_le] at h
  have : x / 2 ^ 24 = x * (1 / 16777216) := by ring
  linarith [h.1]

theorem roundToFloat_one : roundToFloat 1 = 1 := by
  have := roundToFloat_exact 1 0 (by norm_num) (by norm_num)
  simpa using this

theorem roundToFloat_ge_one (x : ℚ) (hx : 1 ≤ x) : 1 ≤ roundToFloat x := by
  have := roundToFloat_mono 1 x hx
  rwa [roundToFloat_one] at this

/-! ## Mini-map on floats: the arithmetic of the two edges -/
theorem roundToFloat_maxDelay (G : ℚ) (hG1 : 1 / 5 ≤ G) (hG2 : G ≤ 1024) :
    1 / 8 ≤ roundToFloat G ∧ roundToFloat G ≤ 1024
      ∧ G * (1 - 1 / 16777216) - 1 / 2 ^ 150 ≤ roundToFloat G
      ∧ roundToFloat G ≤ G * (1 + 1 / 16777216) + 1 / 2 ^ 150 := by
  have h1 := roundToFloat_mono (1 / 8) G (by linarith)
  have h2 := roundToFloat_mono G 1024 hG2
  have e1 : roundToFloat (1 / 8) = 1 / 8 := by
    have := roundToFloat_exact 1 (-3) (by norm_num) (by norm_num)
    norm_num at this
    simpa using this
  have e2 : roundToFloat 1024 = 1024 := by
    have := roundToFloat_exact 1024 0 (by norm_num) (by norm_num)
    simpa using this
  rw [e1] at h1
  rw [e2] at h2
  exact ⟨h1, h2, roundToFloat_lower G (by linarith), roundToFloat_upper G (by linarith)⟩

/-- Monotonicity of the pixel of a delay, `getXForDelay`, in the delay. -/
theorem pixel_mono (Gf w s e : ℚ) (hGf : 0 < Gf) (hw : 0 ≤ w) (hse : s ≤ e) :
    roundToFloat (1 + roundToFloat (w * roundToFloat (s / Gf)))
      ≤ roundToFloat (1 + roundToFloat (w * roundToFloat (e / Gf))) := by
  apply roundToFloat_mono
  have h1 : s / Gf ≤ e / Gf := div_le_div_of_nonneg_right hse hGf.le
  have h2 := roundToFloat_mono _ _ h1
  have h3 := roundToFloat_mono _ _ (mul_le_mul_of_nonneg_left h2 hw)
  linarith

theorem pixel_ge_one (Gf w t : ℚ) (hGf : 0 < Gf) (hw : 0 ≤ w) (ht : 0 ≤ t) :
    1 ≤ roundToFloat (1 + roundToFloat (w * roundToFloat (t / Gf))) := by
  apply roundToFloat_ge_one
  have h1 : 0 ≤ roundToFloat (t / Gf) := roundToFloat_nonneg _ (div_nonneg ht hGf.le)
  have h2 : 0 ≤ roundToFloat (w * roundToFloat (t / Gf)) :=
    roundToFloat_nonneg _ (mul_nonneg hw h1)
  linarith

/-- The left edge: the largest start that `mouseDrag` allows in status
dragging-left, computed on floats from the pixel of the end, is not above the end
of the window. -/
theorem dragLeft_core (G w s e : ℚ) (hw : 1 ≤ w) (hG1 : 1 / 5 ≤ G) (hG2 : G ≤ 1024)
    (hs : 0 ≤ s) (he : e ≤ G) (hlen : 1 / 5 ≤ e - s) :
    roundToFloat (roundToFloat (roundToFloat G * roundToFloat (roundToFloat
      (roundToFloat (roundToFloat (1 + roundToFloat (w * roundToFloat (s / roundToFloat G)))
        + roundToFloat (roundToFloat (1 + roundToFloat (w * roundToFloat (e / roundToFloat G)))
          - roundToFloat (1 + roundToFloat (w * roundToFloat (s / roundToFloat G))))) - 1) / w))
      - roundToFloat (1 / 5)) ≤ e := by
  obtain ⟨hGa, hGb, hGc, hGd⟩ := roundToFloat_maxDelay G hG1 hG2
  have hXs1 := pixel_ge_one (roundToFloat G) w s (by linarith) (by linarith) hs
  have hXse := pixel_mono (roundToFloat G) w s e (by linarith) (by linarith) (by linarith)
  generalize roundToFloat (1 + roundToFloat (w * roundToFloat (s / roundToFloat G))) = Xs
    at hXs1 hXse ⊢
  generalize hGf : roundToFloat G = Gf at *
  have hGf0 : 0 < Gf := by linarith
  have hw0 : 0 < w := by linarith
  have he0 : 0 ≤ e := by linarith
  have hA0 : 0 ≤ e / Gf := div_nonneg he0 hGf0.le
  have hA : e / Gf * Gf = e := div_mul_cancel₀ e hGf0.ne.symm
  generalize e / Gf = A at *
  have ha := roundToFloat_upper A hA0
  have ha0 := roundToFloat_nonneg A hA0
  generalize roundToFloat A = a at *
  have hwa : w * a ≤ w * (A * (1 + 1 / 16777216) + 1 / 2 ^ 150) :=
    mul_le_mul_of_nonneg_left ha hw0.le
  have hwa0 : 0 ≤ w * a := mul_nonneg hw0.le ha0
  have hb := roundToFloat_upper (w * a) hwa0
  have hb0 := roundToFloat_nonneg (w * a) hwa0
  generalize roundToFloat (w * a) = b at *
  have hXe := roundToFloat_upper (1 + b) (by linarith)
  generalize roundToFloat (1 + b) = Xe at *
  have hw2 := roundToFloat_upper (Xe - Xs) (by linarith)
  have hw20 := roundToFloat_nonneg (Xe - Xs) (by linarith)
  generalize roundToFloat (Xe - Xs) = w2 at *
  have hR := roundToFloat_upper (Xs + w2) (by linarith)
  have hR1 := roundToFloat_ge_one (Xs + w2) (by linarith)
  generalize roundToFloat (Xs + w2) = R at *
  have hc1 := roundToFloat_upper (R - 1) (by linarith)
  have hc10 := roundToFloat_nonneg (R - 1) (by linarith)
  generalize roundToFloat (R - 1) = c1 at *
  have hwA0 : 0 ≤ w * A := mul_nonneg hw0.le hA0
  have hc1b : c1 ≤ (1 + 10 / 16777216) * (w * A) + 5 / 2 ^ 150 * w + 6 / 16777216 := by
    norm_num at *
    linarith
  have hq : c1 / w ≤ (1 + 10 / 16777216) * A + 7 / 16777216 := by
    rw [div_le_iff₀ hw0]
    norm_num at *
    nlinarith
  have hq0 : 0 ≤ c1 / w := div_nonneg hc10 hw0.le
  have hc2 := roundToFloat_upper (c1 / w) hq0
  have hc20 := roundToFloat_nonneg (c1 / w) hq0
  generalize roundToFloat (c1 / w) = c2 at *
  have hc2b : c2 ≤ (1 + 12 / 16777216) * A + 8 / 16777216 := by
    norm_num at *
    linarith
  have hGc2 : Gf * c2 ≤ Gf * ((1 + 12 / 16777216) * A + 8 / 16777216) :=
    mul_le_mul_of_nonneg_left hc2b hGf0.le
  have hGc20 : 0 ≤ Gf * c2 := mul_nonneg hGf0.le hc20
  have hD := roundToFloat_upper (Gf * c2) hGc20
  generalize roundToFloat (Gf * c2) = D at *
  have hGc2b : Gf * c2 ≤ (1 + 12 / 16777216) * e + 8 / 16777216 * Gf := by
    have hr : Gf * ((1 + 12 / 16777216) * A + 8 / 16777216)
        = (1 + 12 / 16777216) * (A * Gf) + 8 / 16777216 * Gf := by ring
    rw [hr, hA] at hGc2
    exact hGc2
  have hDb : D ≤ e + 1 / 512 := by
    clear hXs1 hXse hA ha hwa hb hXe hw2 hR hc1 hc1b hq hc2 hc2b hGc2
    norm_num at hD hGc2b
    linarith
  have hc := roundToFloat_lower (1 / 5) (by norm_num)
  generalize roundToFloat (1 / 5) = c at *
  rcases le_total (D - c) 0 with hneg | hpos
  · have := roundToFloat_mono _ _ hneg
    rw [roundToFloat_zero] at this
    linarith
  · have hfin := roundToFloat_upper (D - c) hpos
    clear hXs1 hXse hA ha hwa hb hXe hw2 hR hc1 hc1b hq hc2 hc2b hGc2 hGc2b hD
    norm_num at hfin hc
    linarith

/-- The right edge: the smallest end that `mouseDrag` allows in status
dragging-right, computed on floats from the pixel of the start, is not below the
start of the window, and neither is the float `GdMaxDelay`. -/
theorem dragRight_core (G w s e : ℚ) (hw : 1 ≤ w) (hG1 : 1 / 5 ≤ G) (hG2 : G ≤ 1024)
    (hs : 0 ≤ s) (he : e ≤ G) (hlen : 1 / 5 ≤ e - s) :
    s ≤ roundToFloat (roundToFloat (roundToFloat G * roundToFloat (roundToFloat
        (roundToFloat (1 + roundToFloat (w * roundToFloat (s / roundToFloat G))) - 1) / w))
        + roundToFloat (1 / 5))
      ∧ s ≤ roundToFloat G := by
  obtain ⟨hGa, hGb, hGc, hGd⟩ := roundToFloat_maxDelay G hG1 hG2
  have hsG : s ≤ roundToFloat G := by
    norm_num at hGc
    linarith
  refine ⟨?_, hsG⟩
  generalize hGf : roundToFloat G = Gf at *
  have hGf0 : 0 < Gf := by linarith
  have hw0 : 0 < w := by linarith
  have hA0 : 0 ≤ s / Gf := div_nonneg hs hGf0.le
  have hA : s / Gf * Gf = s := div_mul_cancel₀ s hGf0.ne.symm
  generalize s / Gf = A at *
  have ha := roundToFloat_lower A hA0
  have ha0 := roundToFloat_nonneg A hA0
  generalize roundToFloat A = a at *
  have hwa : w * (A * (1 - 1 / 16777216) - 1 / 2 ^ 150) ≤ w * a :=
    mul_le_mul_of_nonneg_left ha hw0.le
  have hwa0 : 0 ≤ w * a := mul_nonneg hw0.le ha0
  have hb := roundToFloat_lower (w * a) hwa0
  have hb0 := roundToFloat_nonneg (w * a) hwa0
  generalize roundToFloat (w * a) = b at *
  have hXs := roundToFloat_lower (1 + b) (by linarith)
  have hXs1 := roundToFloat_ge_one (1 + b) (by linarith)
  generalize roundToFloat (1 + b) = Xs at *
  have hc1 := roundToFloat_lower (Xs - 1) (by linarith)
  have hc10 := roundToFloat_nonneg (Xs - 1) (by linarith)
  generalize roundToFloat (Xs - 1) = c1 at *
  have hwA0 : 0 ≤ w * A := mul_nonneg hw0.le hA0
  have hc1b : (1 - 4 / 16777216) * (w * A) - 2 / 2 ^ 150 * w - 2 / 16777216 ≤ c1 := by
    norm_num at ha hwa hb hXs hc1 ⊢
    linarith
  have hq : (1 - 4 / 16777216) * A - 3 / 16777216 ≤ c1 / w := by
    rw [le_div_iff₀ hw0]
    norm_num at hc1b ⊢
    nlinarith
  have hq0 : 0 ≤ c1 / w := div_nonneg hc10 hw0.le
  have hc2 := roundToFloat_lower (c1 / w) hq0
  have hc20 := roundToFloat_nonneg (c1 / w) hq0
  generalize roundToFloat (c1 / w) = c2 at *
  have hc2b : (1 - 5 / 16777216) * A - 4 / 16777216 ≤ c2 := by
    norm_num at hq hc2 ⊢
    linarith
  have hGc2 : Gf * ((1 - 5 / 16777216) * A - 4 / 16777216) ≤ Gf * c2 :=
    mul_le_mul_of_nonneg_left hc2b hGf0.le
  have hGc20 : 0 ≤ Gf * c2 := mul_nonneg hGf0.le hc20
  have hD := roundToFloat_lower (Gf * c2) hGc20
  have hD0 := roundToFloat_nonneg (Gf * c2) hGc20
  generalize roundToFloat (Gf * c2) = D at *
  have hGc2b : (1 - 5 / 16777216) * s - 4 / 16777216 * Gf ≤ Gf * c2 := by
    have hr : Gf * ((1 - 5 / 16777216) * A - 4 / 16777216)
        = (1 - 5 / 16777216) * (A * Gf) - 4 / 16777216 * Gf := by ring
    rw [hr, hA] at hGc2
    exact hGc2
  have hDb : s - 1 / 512 ≤ D := by
    clear hA ha hwa hb hXs hc1 hc1b hq hc2 hc2b hGc2
    norm_num at hD hGc2b
    linarith
  have hc := roundToFloat_lower (1 / 5) (by norm_num)
  have hc0 := roundToFloat_nonneg (1 / 5) (by norm_num)
  generalize roundToFloat (1 / 5) = c at *
  have hfin := roundToFloat_lower (D + c) (by linarith)
  clear hA ha hwa hb hXs hc1 hc1b hq hc2 hc2b hGc2 hGc2b hD
  norm_num at hfin hc
  linarith

/-! ## Mini-map on floats: evaluation of the float operations -/
theorem roundToFloat_pow_two (n : ℕ) : roundToFloat ((2 : ℚ) ^ n) = (2 : ℚ) ^ n := by
  have := roundToFloat_exact 1 (n : Int) (by norm_num) (by omega)
  simpa using this

theorem roundToFloat_le_pow (x : ℚ) (n : ℕ) (h : x ≤ (2 : ℚ) ^ n) :
    roundToFloat x ≤ (2 : ℚ) ^ n := by
  have := roundToFloat_mono x _ h
  rwa [roundToFloat_pow_two] at this

theorem roundToFloat_abs_le_pow (x : ℚ) (n : ℕ) (h : |x| ≤ (2 : ℚ) ^ n) :
    |roundToFloat x| ≤ (2 : ℚ) ^ n := by
  rw [abs_le] at h ⊢
  constructor
  · have := roundToFloat_le_pow (-x) n (by linarith [h.1])
    rw [roundToFloat_neg] at this
    linarith
  · exact roundToFloat_le_pow x n h.2

theorem ofRat_number (x : ℚ) (h : |x| ≤ (2 : ℚ) ^ 127) :
    FloatValue.ofRat x = FloatValue.number (roundToFloat x) := by
  have h1 := roundToFloat_abs_le_pow x 127 h
  rw [abs_le] at h1
  have h2 : ¬ ((2 : ℚ) ^ 128 ≤ roundToFloat x) := by
    have : (2 : ℚ) ^ 127 < (2 : ℚ) ^ 128 := by norm_num
    linarith [h1.2]
  have h3 : ¬ (roundToFloat x ≤ -(2 : ℚ) ^ 128) := by
    have : (2 : ℚ) ^ 127 < (2 : ℚ) ^ 128 := by norm_num
    linarith [h1.1]
  unfold FloatValue.ofRat
  rw [if_neg h2, if_neg h3]

theorem ofRat_nonneg_number (x : ℚ) (n : ℕ) (hn : n ≤ 127) (h0 : 0 ≤ x) (h : x ≤ (2 : ℚ) ^ n) :
    FloatValue.ofRat x = FloatValue.number (roundToFloat x)
      ∧ 0 ≤ roundToFloat x ∧ roundToFloat x ≤ (2 : ℚ) ^ n := by
  have hp : (2 : ℚ) ^ n ≤ (2 : ℚ) ^ 127 := pow_le_pow_right₀ (by norm_num) hn
  refine ⟨ofRat_number x ?_, roundToFloat_nonneg x h0, roundToFloat_le_pow x n h⟩
  rw [abs_of_nonneg h0]
  linarith

theorem ofRat_zero : FloatValue.ofRat 0 = FloatValue.number 0 := by
  have := ofRat_number 0 (by norm_num)
  rwa [roundToFloat_zero] at this

theorem ofRat_one : FloatValue.ofRat 1 = FloatValue.number 1 := by
  have := ofRat_number 1 (by norm_num)
  rwa [roundToFloat_one] at this

theorem number_sub (a b : ℚ) :
    (FloatValue.number a).sub (FloatValue.number b) = FloatValue.ofRat (a - b) := by
  simp only [FloatValue.sub, FloatValue.neg, FloatValue.add, sub_eq_add_neg]

theorem number_add (a b : ℚ) :
    (FloatValue.number a).add (FloatValue.number b) = FloatValue.ofRat (a + b) := rfl

theorem number_mul (a b : ℚ) :
    (FloatValue.number a).mul (FloatValue.number b) = FloatValue.ofRat (a * b) := rfl

theorem number_div (a b : ℚ) (h : b ≠ 0) :
    (FloatValue.number a).div (FloatValue.number b) = FloatValue.ofRat (a / b) := by
  simp only [FloatValue.div, if_neg h]

theorem maxFloat_number (a b : ℚ) :
    maxFloat (FloatValue.number a) (FloatValue.number b) = FloatValue.number (max a b) := by
  unfold maxFloat
  simp only [FloatValue.lt, decide_eq_true_eq]
  split_ifs with h
  · rw [max_eq_right h.le]
  · rw [max_eq_left (not_lt.mp h)]

theorem minFloat_number (a b : ℚ) :
    minFloat (FloatValue.number a) (FloatValue.number b) = FloatValue.number (min a b) := by
  unfold minFloat
  simp only [FloatValue.lt, decide_eq_true_eq]
  split_ifs with h
  · rw [min_eq_right h.le]
  · rw [min_eq_left (not_lt.mp h)]

/-- The clamp between two numbers yields a number between them, or NaN. -/
theorem jlimitFloat_between (lo hi : ℚ) (h : lo ≤ hi) (v : FloatValue) :
    jlimitFloat (FloatValue.number lo) (FloatValue.number hi) v = FloatValue.nan
      ∨ ∃ r : ℚ, jlimitFloat (FloatValue.number lo) (FloatValue.number hi) v
          = FloatValue.number r ∧ lo ≤ r ∧ r ≤ hi := by
  cases v with
  | number x =>
      right
      unfold jlimitFloat
      simp only [FloatValue.lt, decide_eq_true_eq]
      split_ifs with h1 h2
      · exact ⟨lo, rfl, le_refl _, h⟩
      · exact ⟨hi, rfl, h, le_refl _⟩
      · exact ⟨x, rfl, not_lt.mp h1, not_lt.mp h2⟩
  | posInf =>
      right
      exact ⟨hi, by simp [jlimitFloat, FloatValue.lt], h, le_refl _⟩
  | negInf =>
      right
      exact ⟨lo, by simp [jlimitFloat, FloatValue.lt], le_refl _, h⟩
  | nan =>
      left
      simp [jlimitFloat, FloatValue.lt]

theorem getDrawBounds_x (m : FloatMiniMap) : m.getDrawBounds.x = FloatValue.number 1 := by
  simp only [FloatMiniMap.getDrawBounds, Rectangle.toFloat, Rectangle.reduced,
    Rectangle.expanded]
  norm_num
  exact ofRat_one

theorem getDrawBounds_w (m : FloatMiniMap) (hint : m.width < 2 ^ 31) :
    ∃ w : ℚ, m.getDrawBounds.w = FloatValue.number w ∧ w ≤ 2 ^ 31
      ∧ (m.width ≤ 2 → w = 0) ∧ (3 ≤ m.width → 1 ≤ w) := by
  have hw : m.getDrawBounds.w = FloatValue.ofRat (max 0 ((m.width : ℚ) - 2)) := by
    simp only [FloatMiniMap.getDrawBounds, Rectangle.toFloat, Rectangle.reduced,
      Rectangle.expanded]
    norm_num
    rw [sub_eq_add_neg]
  have hq : (m.width : ℚ) < 2 ^ 31 := by exact_mod_cast hint
  have h0 : (0 : ℚ) ≤ max 0 ((m.width : ℚ) - 2) := le_max_left _ _
  have h1 : max 0 ((m.width : ℚ) - 2) ≤ (2 : ℚ) ^ 31 := by
    apply max_le
    · norm_num
    · linarith
  obtain ⟨e1, e2, e3⟩ := ofRat_nonneg_number _ 31 (by norm_num) h0 h1
  refine ⟨roundToFloat (max 0 ((m.width : ℚ) - 2)), by rw [hw, e1], e3, ?_, ?_⟩
  · intro h
    have hq2 : (m.width : ℚ) ≤ 2 := by exact_mod_cast h
    rw [max_eq_left (by linarith), roundToFloat_zero]
  · intro h
    have hq2 : (3 : ℚ) ≤ (m.width : ℚ) := by exact_mod_cast h
    apply roundToFloat_ge_one
    rw [max_eq_right (by linarith)]
    linarith

theorem ofRat_maxDelay (G : ℚ) (hG1 : 1 / 5 ≤ G) (hG2 : G ≤ 1024) :
    FloatValue.ofRat G = FloatValue.number (roundToFloat G) := by
  apply ofRat_number
  rw [abs_of_nonneg (by linarith)]
  have : (1024 : ℚ) ≤ 2 ^ 127 := by norm_num
  linarith

/-- The pixel of a delay, `getXForDelay`, is a number when the delay is a number
from 0 to 1024 s. -/
theorem getXForDelay_number (G : ℚ) (m : FloatMiniMap) (w t : ℚ)
    (hw : m.getDrawBounds.w = FloatValue.number w) (hw0 : 0 ≤ w) (hw2 : w ≤ 2 ^ 31)
    (hG1 : 1 / 5 ≤ G) (hG2 : G ≤ 1024) (ht0 : 0 ≤ t) (ht : t ≤ 1024) :
    m.getXForDelay G (FloatValue.number t)
        = FloatValue.number
            (roundToFloat (1 + roundToFloat (w * roundToFloat (t / roundToFloat G))))
      ∧ roundToFloat (1 + roundToFloat (w * roundToFloat (t / roundToFloat G))) ≤ 2 ^ 45 := by
  obtain ⟨hGa, hGb, -, -⟩ := roundToFloat_maxDelay G hG1 hG2
  have hGf0 : 0 < roundToFloat G := by linarith
  have hq0 : 0 ≤ t / roundToFloat G := div_nonneg ht0 hGf0.le
  have hq1 : t / roundToFloat G ≤ 2 ^ 13 := by
    rw [div_le_iff₀ hGf0]
    norm_num
    linarith
  obtain ⟨a1, a2, a3⟩ := ofRat_nonneg_number _ 13 (by norm_num) hq0 hq1
  have hp0 : 0 ≤ w * roundToFloat (t / roundToFloat G) := mul_nonneg hw0 a2
  have hp1 : w * roundToFloat (t / roundToFloat G) ≤ 2 ^ 44 := by
    have := mul_le_mul hw2 a3 a2 (by norm_num : (0 : ℚ) ≤ 2 ^ 31)
    norm_num at this ⊢
    linarith
  obtain ⟨b1, b2, b3⟩ := ofRat_nonneg_number _ 44 (by norm_num) hp0 hp1
  have hs0 : 0 ≤ 1 + roundToFloat (w * roundToFloat (t / roundToFloat G)) := by linarith
  have hs1 : 1 + roundToFloat (w * roundToFloat (t / roundToFloat G)) ≤ 2 ^ 45 := by
    norm_num at b3 ⊢
    linarith
  obtain ⟨c1, c2, c3⟩ := ofRat_nonneg_number _ 45 (by norm_num) hs0 hs1
  refine ⟨?_, c3⟩
  unfold FloatMiniMap.getXForDelay
  simp only []
  rw [getDrawBounds_x, hw, ofRat_maxDelay G hG1 hG2]
  simp only [FloatValue.div, if_neg hGf0.ne.symm, a1, FloatValue.mul, b1, FloatValue.add, c1]

/-- The window rectangle, `getRangeBounds`, of a window from `s` to `e`: its left
edge is the pixel of `s` and its right edge the rounded sum of that pixel and the
rounded distance to the pixel of `e`. -/
theorem getRangeBounds_number (G : ℚ) (m : FloatMiniMap) (w s e : ℚ)
    (hw : m.getDrawBounds.w = FloatValue.number w) (hw0 : 0 ≤ w) (hw2 : w ≤ 2 ^ 31)
    (hG1 : 1 / 5 ≤ G) (hG2 : G ≤ 1024)
    (hrange : m.timeRange_ = { start := FloatValue.number s, end_ := FloatValue.number e })
    (hs : 0 ≤ s) (hse : s ≤ e) (he : e ≤ 1024) :
    (m.getRangeBounds G).x = FloatValue.number
        (roundToFloat (1 + roundToFloat (w * roundToFloat (s / roundToFloat G))))
      ∧ (m.getRangeBounds G).getRight = FloatValue.number
          (roundToFloat (roundToFloat (1 + roundToFloat (w * roundToFloat (s / roundToFloat G)))
            + roundToFloat
              (roundToFloat (1 + roundToFloat (w * roundToFloat (e / roundToFloat G)))
                - roundToFloat (1 + roundToFloat (w * roundToFloat (s / roundToFloat G))))))
      ∧ 1 ≤ roundToFloat
          (roundToFloat (1 + roundToFloat (w * roundToFloat (s / roundToFloat G)))
            + roundToFloat
              (roundToFloat (1 + roundToFloat (w * roundToFloat (e / roundToFloat G)))
                - roundToFloat (1 + roundToFloat (w * roundToFloat (s / roundToFloat G)))))
      ∧ roundToFloat
          (roundToFloat (1 + roundToFloat (w * roundToFloat (s / roundToFloat G)))
            + roundToFloat
              (roundToFloat (1 + roundToFloat (w * roundToFloat (e / roundToFloat G)))
                - roundToFloat (1 + roundToFloat (w * roundToFloat (s / roundToFloat G)))))
          ≤ 2 ^ 46 := by
  obtain ⟨hGa, hGb, -, -⟩ := roundToFloat_maxDelay G hG1 hG2
  have hGf0 : 0 < roundToFloat G := by linarith
  obtain ⟨hXs, hXsb⟩ := getXForDelay_number G m w s hw hw0 hw2 hG1 hG2 hs (by linarith)
  obtain ⟨hXe, hXeb⟩ := getXForDelay_number G m w e hw hw0 hw2 hG1 hG2 (by linarith) he
  have hXs1 := pixel_ge_one (roundToFloat G) w s hGf0 hw0 hs
  have hmono := pixel_mono (roundToFloat G) w s e hGf0 hw0 hse
  unfold FloatMiniMap.getRangeBounds
  simp only [hrange, FloatRectangle.withRight, FloatRectangle.withLeft,
    FloatRectangle.getRight, hXs, hXe]
  generalize roundToFloat (1 + roundToFloat (w * roundToFloat (s / roundToFloat G))) = Xs
    at hXsb hXs1 hmono ⊢
  generalize roundToFloat (1 + roundToFloat (w * roundToFloat (e / roundToFloat G))) = Xe
    at hXeb hmono ⊢
  have hd0 : 0 ≤ Xe - Xs := by linarith
  have hd1 : Xe - Xs ≤ 2 ^ 45 := by linarith
  obtain ⟨d1, d2, d3⟩ := ofRat_nonneg_number _ 45 (by norm_num) hd0 hd1
  have hr0 : 0 ≤ Xs + roundToFloat (Xe - Xs) := by linarith
  have hr1 : Xs + roundToFloat (Xe - Xs) ≤ 2 ^ 46 := by
    norm_num at hXsb d3 ⊢
    linarith
  obtain ⟨r1, r2, r3⟩ := ofRat_nonneg_number _ 46 (by norm_num) hr0 hr1
  rw [minFloat_number, number_sub, d1, maxFloat_number, min_eq_left hmono,
    max_eq_right d2]
  refine ⟨rfl, ?_, roundToFloat_ge_one _ (by linarith), r3⟩
  simp only [FloatValue.add, r1]

/-- The delay of a pixel, `getDelayForX`, for a drawable area at least one pixel
wide. -/
theorem getDelayForX_number (G : ℚ) (m : FloatMiniMap) (w x : ℚ)
    (hw : m.getDrawBounds.w = FloatValue.number w) (hw1 : 1 ≤ w)
    (hG1 : 1 / 5 ≤ G) (hG2 : G ≤ 1024) (hx1 : 1 ≤ x) (hx2 : x ≤ 2 ^ 46) :
    m.getDelayForX G (FloatValue.number x)
        = FloatValue.number
            (roundToFloat (roundToFloat G * roundToFloat (roundToFloat (x - 1) / w)))
      ∧ 0 ≤ roundToFloat (roundToFloat G * roundToFloat (roundToFloat (x - 1) / w))
      ∧ roundToFloat (roundToFloat G * roundToFloat (roundToFloat (x - 1) / w)) ≤ 2 ^ 56 := by
  obtain ⟨hGa, hGb, -, -⟩ := roundToFloat_maxDelay G hG1 hG2
  have hGf0 : 0 < roundToFloat G := by linarith
  have hw0 : 0 < w := by linarith
  obtain ⟨a1, a2, a3⟩ := ofRat_nonneg_number (x - 1) 46 (by norm_num) (by linarith)
    (by linarith)
  have hq0 : 0 ≤ roundToFloat (x - 1) / w := div_nonneg a2 hw0.le
  have hq1 : roundToFloat (x - 1) / w ≤ 2 ^ 46 := by
    rw [div_le_iff₀ hw0]
    have : (0 : ℚ) ≤ 2 ^ 46 := by norm_num
    nlinarith
  obtain ⟨b1, b2, b3⟩ := ofRat_nonneg_number _ 46 (by norm_num) hq0 hq1
  have hp0 : 0 ≤ roundToFloat G * roundToFloat (roundToFloat (x - 1) / w) :=
    mul_nonneg hGf0.le b2
  have hp1 : roundToFloat G * roundToFloat (roundToFloat (x - 1) / w) ≤ 2 ^ 56 := by
    have := mul_le_mul hGb b3 b2 (by norm_num : (0 : ℚ) ≤ 1024)
    norm_num at this ⊢
    linarith
  obtain ⟨c1, c2, c3⟩ := ofRat_nonneg_number _ 56 (by norm_num) hp0 hp1
  refine ⟨?_, c2, c3⟩
  unfold FloatMiniMap.getDelayForX
  simp only []
  rw [getDrawBounds_x, hw, ofRat_maxDelay G hG1 hG2, number_sub, a1]
  simp only [FloatValue.div, if_neg hw0.ne.symm, b1, FloatValue.mul, c1]

/-- The delay of the right edge of the window rectangle when the drawable area has
no width: `0 / 0`, which is NaN. -/
theorem getDelayForX_zero_width (G : ℚ) (m : FloatMiniMap)
    (hw : m.getDrawBounds.w = FloatValue.number 0)
    (hG1 : 1 / 5 ≤ G) (hG2 : G ≤ 1024) :
    m.getDelayForX G (FloatValue.number 1) = FloatValue.nan := by
  unfold FloatMiniMap.getDelayForX
  simp only []
  rw [getDrawBounds_x, hw, ofRat_maxDelay G hG1 hG2, number_sub]
  norm_num
  rw [ofRat_zero]
  simp [FloatValue.div, FloatValue.signedInf, FloatValue.mul]

/-! ## Mini-map on floats: the edge that is not dragged -/
theorem ofRat_fifth :
    FloatValue.ofRat (1 / 5) = FloatValue.number (roundToFloat (1 / 5)) :=
  ofRat_number _ (by rw [abs_of_nonneg (by norm_num)]; norm_num)

/-- The largest start allowed in status dragging-left is a number from 0 to the end
of the window, whatever the width of the mini-map. -/
theorem dragLeft_maxT (G : ℚ) (m : FloatMiniMap) (s e : ℚ) (hint : m.width < 2 ^ 31)
    (hG2 : G ≤ 1024)
    (hrange : m.timeRange_ = { start := FloatValue.number s, end_ := FloatValue.number e })
    (hwf : WindowWellFormed G { start := s, end_ := e }) :
    ∃ M : ℚ, maxFloat (FloatValue.number 0)
        ((m.getDelayForX G (m.getRangeBounds G).getRight).sub (FloatValue.ofRat (1 / 5)))
          = FloatValue.number M ∧ 0 ≤ M ∧ M ≤ e := by
  obtain ⟨hs, he, hlen⟩ := hwf
  simp only at hs he hlen
  have hG1 : 1 / 5 ≤ G := by linarith
  obtain ⟨w, hw, hw2, hsmall, hlarge⟩ := getDrawBounds_w m hint
  rcases le_or_lt m.width 2 with hW | hW
  · have hw0 : w = 0 := hsmall hW
    subst hw0
    obtain ⟨-, hR, -, -⟩ := getRangeBounds_number G m 0 s e hw (le_refl _) (by norm_num)
      hG1 hG2 hrange hs (by linarith) (by linarith)
    have hone : roundToFloat (roundToFloat (1 + roundToFloat (0 * roundToFloat (s / roundToFloat G)))
        + roundToFloat (roundToFloat (1 + roundToFloat (0 * roundToFloat (e / roundToFloat G)))
          - roundToFloat (1 + roundToFloat (0 * roundToFloat (s / roundToFloat G))))) = 1 := by
      simp only [zero_mul, roundToFloat_zero, add_zero, roundToFloat_one, sub_self]
    rw [hone] at hR
    rw [hR, getDelayForX_zero_width G m hw hG1 hG2]
    refine ⟨0, ?_, le_refl _, by linarith⟩
    rw [ofRat_fifth]
    simp [FloatValue.sub, FloatValue.add, FloatValue.neg, maxFloat, FloatValue.lt]
  · have hw1 : 1 ≤ w := hlarge (by omega)
    obtain ⟨-, hR, hR1, hR2⟩ := getRangeBounds_number G m w s e hw (by linarith) hw2
      hG1 hG2 hrange hs (by linarith) (by linarith)
    have hcore := dragLeft_core G w s e hw1 hG1 hG2 hs he hlen
    rw [hR]
    obtain ⟨hD, hD0, hD1⟩ := getDelayForX_number G m w _ hw hw1 hG1 hG2 hR1 hR2
    rw [hD, ofRat_fifth, number_sub]
    generalize roundToFloat (roundToFloat G * roundToFloat (roundToFloat
      (roundToFloat (roundToFloat (1 + roundToFloat (w * roundToFloat (s / roundToFloat G)))
        + roundToFloat (roundToFloat (1 + roundToFloat (w * roundToFloat (e / roundToFloat G)))
          - roundToFloat (1 + roundToFloat (w * roundToFloat (s / roundToFloat G))))) - 1) / w))
      = D at hcore hD0 hD1 ⊢
    have hc0 := roundToFloat_nonneg (1 / 5) (by norm_num)
    have hc1 := roundToFloat_le_pow (1 / 5) 0 (by norm_num)
    have habs : |D - roundToFloat (1 / 5)| ≤ (2 : ℚ) ^ 127 := by
      rw [abs_le]
      norm_num at hD1 hc1 ⊢
      constructor <;> linarith
    rw [ofRat_number _ habs, maxFloat_number]
    exact ⟨_, rfl, le_max_left _ _, max_le (by linarith) hcore⟩

/-- The smallest end allowed in status dragging-right is a number from the start of
the window to the float `GdMaxDelay`, whatever the width of the mini-map. -/
theorem dragRight_minT (G : ℚ) (m : FloatMiniMap) (s e : ℚ) (hint : m.width < 2 ^ 31)
    (hG2 : G ≤ 1024)
    (hrange : m.timeRange_ = { start := FloatValue.number s, end_ := FloatValue.number e })
    (hwf : WindowWellFormed G { start := s, end_ := e }) :
    ∃ M : ℚ, minFloat (FloatValue.ofRat G)
        ((m.getDelayForX G (m.getRangeBounds G).x).add (FloatValue.ofRat (1 / 5)))
          = FloatValue.number M ∧ s ≤ M ∧ M ≤ roundToFloat G
        ∧ FloatValue.ofRat G = FloatValue.number (roundToFloat G) := by
  obtain ⟨hs, he, hlen⟩ := hwf
  simp only at hs he hlen
  have hG1 : 1 / 5 ≤ G := by linarith
  obtain ⟨w, hw, hw2, hsmall, hlarge⟩ := getDrawBounds_w m hint
  have hGn := ofRat_maxDelay G hG1 hG2
  rcases le_or_lt m.width 2 with hW | hW
  · have hw0 : w = 0 := hsmall hW
    subst hw0
    obtain ⟨hL, -, -, -⟩ := getRangeBounds_number G m 0 s e hw (le_refl _) (by norm_num)
      hG1 hG2 hrange hs (by linarith) (by linarith)
    have hone : roundToFloat (1 + roundToFloat (0 * roundToFloat (s / roundToFloat G))) = 1 := by
      simp only [zero_mul, roundToFloat_zero, add_zero, roundToFloat_one]
    rw [hone] at hL
    rw [hL, getDelayForX_zero_width G m hw hG1 hG2, hGn]
    refine ⟨roundToFloat G, ?_, (dragRight_core G 1 s e (le_refl _) hG1 hG2 hs he hlen).2,
      le_refl _, rfl⟩
    simp [FloatValue.add, minFloat, FloatValue.lt]
  · have hw1 : 1 ≤ w := hlarge (by omega)
    obtain ⟨hL, -, -, -⟩ := getRangeBounds_number G m w s e hw (by linarith) hw2
      hG1 hG2 hrange hs (by linarith) (by linarith)
    obtain ⟨hcore, hsG⟩ := dragRight_core G w s e hw1 hG1 hG2 hs he hlen
    obtain ⟨hGa, hGb, -, -⟩ := roundToFloat_maxDelay G hG1 hG2
    have hX1 := pixel_ge_one (roundToFloat G) w s (by linarith) (by linarith) hs
    obtain ⟨-, hX2⟩ := getXForDelay_number G m w s hw (by linarith) hw2 hG1 hG2 hs
      (by linarith)
    have hX2b : roundToFloat (1 + roundToFloat (w * roundToFloat (s / roundToFloat G)))
        ≤ 2 ^ 46 := by
      norm_num at hX2 ⊢
      linarith
    rw [hL]
    obtain ⟨hD, hD0, hD1⟩ := getDelayForX_number G m w _ hw hw1 hG1 hG2 hX1 hX2b
    rw [hD, ofRat_fifth, hGn]
    generalize roundToFloat (roundToFloat G * roundToFloat (roundToFloat
      (roundToFloat (1 + roundToFloat (w * roundToFloat (s / roundToFloat G))) - 1) / w))
      = D at hcore hD0 hD1 ⊢
    have hc0 := roundToFloat_nonneg (1 / 5) (by norm_num)
    have hc1 := roundToFloat_le_pow (1 / 5) 0 (by norm_num)
    have habs : |D + roundToFloat (1 / 5)| ≤ (2 : ℚ) ^ 127 := by
      rw [abs_le]
      norm_num at hD1 hc1 ⊢
      constructor <;> linarith
    simp only [FloatValue.add]
    rw [ofRat_number _ habs, minFloat_number]
    exact ⟨_, rfl, le_min hsG hcore, min_le_left _ _, trivial⟩

theorem setStart_keeps_end (r : FloatRange) (e : ℚ) (n : FloatValue)
    (hr : r.end_ = FloatValue.number e)
    (hn : n = FloatValue.nan ∨ ∃ x : ℚ, n = FloatValue.number x ∧ x ≤ e) :
    (r.setStart n).end_ = FloatValue.number e := by
  unfold FloatRange.setStart
  rcases hn with hn | ⟨x, hn, hx⟩
  · subst hn
    simp [hr, FloatValue.lt]
  · subst hn
    simp [hr, FloatValue.lt, not_lt.mpr hx]

theorem setEnd_keeps_start (r : FloatRange) (s : ℚ) (n : FloatValue)
    (hr : r.start = FloatValue.number s)
    (hn : n = FloatValue.nan ∨ ∃ x : ℚ, n = FloatValue.number x ∧ s ≤ x) :
    (r.setEnd n).start = FloatValue.number s := by
  unfold FloatRange.setEnd
  rcases hn with hn | ⟨x, hn, hx⟩
  · subst hn
    simp [hr, FloatValue.lt]
  · subst hn
    simp [hr, FloatValue.lt, not_lt.mpr hx]

/-- Status dragging-left on floats: the end of the window is left as it is. -/
theorem dragLeft_end (G : ℚ) (m : FloatMiniMap) (event : MouseEvent) (s e : ℚ)
    (hint : m.width < 2 ^ 31) (hG2 : G ≤ 1024)
    (hrange : m.timeRange_ = { start := FloatValue.number s, end_ := FloatValue.number e })
    (hwf : WindowWellFormed G { start := s, end_ := e })
    (hst : m.status_ = MiniMapStatus.kStatusDraggingLeft) :
    (m.mouseDrag G event).timeRange_.end_ = FloatValue.number e := by
  obtain ⟨M, hM, hM0, hMe⟩ := dragLeft_maxT G m s e hint hG2 hrange hwf
  have hend : m.timeRange_.end_ = FloatValue.number e := by rw [hrange]
  unfold FloatMiniMap.mouseDrag
  simp only [hst]
  rw [hM]
  have hj := jlimitFloat_between 0 M hM0 (m.getDelayForX G (FloatValue.number event.x))
  generalize jlimitFloat (FloatValue.number 0) (FloatValue.number M)
    (m.getDelayForX G (FloatValue.number event.x)) = newT at hj ⊢
  split_ifs
  · simp only [FloatMiniMap.announce]
    apply setStart_keeps_end _ _ _ hend
    rcases hj with hj | ⟨r, hr, -, hr2⟩
    · exact Or.inl hj
    · exact Or.inr ⟨r, hr, by linarith⟩
  · exact hend

/-- Status dragging-right on floats: the start of the window is left as it is. -/
theorem dragRight_start (G : ℚ) (m : FloatMiniMap) (event : MouseEvent) (s e : ℚ)
    (hint : m.width < 2 ^ 31) (hG2 : G ≤ 1024)
    (hrange : m.timeRange_ = { start := FloatValue.number s, end_ := FloatValue.number e })
    (hwf : WindowWellFormed G { start := s, end_ := e })
    (hst : m.status_ = MiniMapStatus.kStatusDraggingRight) :
    (m.mouseDrag G event).timeRange_.start = FloatValue.number s := by
  obtain ⟨M, hM, hsM, hMG, hGn⟩ := dragRight_minT G m s e hint hG2 hrange hwf
  have hstart : m.timeRange_.start = FloatValue.number s := by rw [hrange]
  unfold FloatMiniMap.mouseDrag
  simp only [hst]
  rw [hM, hGn]
  have hj := jlimitFloat_between M (roundToFloat G) hMG
    (m.getDelayForX G (FloatValue.number event.x))
  generalize jlimitFloat (FloatValue.number M) (FloatValue.number (roundToFloat G))
    (m.getDelayForX G (FloatValue.number event.x)) = newT at hj ⊢
  split_ifs
  · simp only [FloatMiniMap.announce]
    apply setEnd_keeps_start _ _ _ hstart
    rcases hj with hj | ⟨r, hr, hr1, -⟩
    · exact Or.inl hj
    · exact Or.inr ⟨r, hr, by linarith⟩
  · exact hstart

/-! ## Mini-map on floats: status moving -/
theorem floatValue_eq_of_not_ne (a b : FloatValue) (h : a.ne b = false) : a = b := by
  cases a <;> cases b <;> simp_all [FloatValue.ne]

theorem floatRange_eq_of_not_ne (a b : FloatRange) (h : a.ne b = false) : a = b := by
  unfold FloatRange.ne at h
  rw [Bool.or_eq_false_iff] at h
  cases a
  cases b
  simp only [FloatRange.mk.injEq]
  exact ⟨floatValue_eq_of_not_ne _ _ h.1, floatValue_eq_of_not_ne _ _ h.2⟩

/-- Status moving on floats: the new window is built from the recorded range and
one offset. -/
theorem moving_float_translates (G : ℚ) (m : FloatMiniMap) (event : MouseEvent)
    (hst : m.status_ = MiniMapStatus.kStatusMoving) :
    ∃ dt : FloatValue, (m.mouseDrag G event).timeRange_
      = FloatRange.make (m.timeRangeBeforeMove_.start.add dt)
          (m.timeRangeBeforeMove_.end_.add dt) := by
  unfold FloatMiniMap.mouseDrag
  simp only [hst]
  generalize (if (FloatValue.number 0).lt ((FloatValue.ofRat G).mul
        (((FloatValue.number event.x).sub (FloatValue.ofRat (event.mouseDownX : ℚ))).div
          (FloatValue.ofRat (m.width : ℚ)))) = true then
      minFloat ((FloatValue.ofRat G).mul
        (((FloatValue.number event.x).sub (FloatValue.ofRat (event.mouseDownX : ℚ))).div
          (FloatValue.ofRat (m.width : ℚ)))) ((FloatValue.ofRat G).sub m.timeRangeBeforeMove_.end_)
    else if ((FloatValue.ofRat G).mul
        (((FloatValue.number event.x).sub (FloatValue.ofRat (event.mouseDownX : ℚ))).div
          (FloatValue.ofRat (m.width : ℚ)))).lt (FloatValue.number 0) = true then
      maxFloat ((FloatValue.ofRat G).mul
        (((FloatValue.number event.x).sub (FloatValue.ofRat (event.mouseDownX : ℚ))).div
          (FloatValue.ofRat (m.width : ℚ)))) m.timeRangeBeforeMove_.start.neg
    else (FloatValue.ofRat G).mul
        (((FloatValue.number event.x).sub (FloatValue.ofRat (event.mouseDownX : ℚ))).div
          (FloatValue.ofRat (m.width : ℚ)))) = dt
  refine ⟨dt, ?_⟩
  split_ifs with hne
  · rfl
  · exact floatRange_eq_of_not_ne _ _ (by simpa using hne)

/-- Two rounded sums of a range and one offset, in order. -/
theorem make_translated (s0 e0 d : ℚ) (hrec : s0 ≤ e0)
    (hs : FloatValue.ofRat (s0 + d) = FloatValue.number (s0 + d))
    (he : FloatValue.ofRat (e0 + d) = FloatValue.number (e0 + d)) :
    FloatRange.make ((FloatValue.number s0).add (FloatValue.number d))
        ((FloatValue.number e0).add (FloatValue.number d))
      = { start := FloatValue.number (s0 + d), end_ := FloatValue.number (e0 + d) } := by
  simp only [FloatRange.make, FloatValue.add, hs, he, maxFloat_number]
  rw [max_eq_right (by linarith)]

theorem ofRat_eval (x v : ℚ) (h : roundToFloat x = v) (h1 : v < 2 ^ 128)
    (h2 : -(2 : ℚ) ^ 128 < v) : FloatValue.ofRat x = FloatValue.number v := by
  unfold FloatValue.ofRat
  rw [h, if_neg (not_le.mpr h1), if_neg (not_le.mpr h2)]

theorem roundToFloat_eval (x : ℚ) (e n : Int) (he : -126 ≤ e) (h1 : (2 : ℚ) ^ e ≤ x)
    (h2 : x < (2 : ℚ) ^ (e + 1)) (h3 : (n : ℚ) - 1 / 2 < x / (2 : ℚ) ^ (e - 23))
    (h4 : x / (2 : ℚ) ^ (e - 23) < (n : ℚ) + 1 / 2) :
    roundToFloat x = (n : ℚ) * (2 : ℚ) ^ (e - 23) := by
  rw [roundToFloat_binade x e he h1 h2, roundHalfEven_near _ n h3 h4]

theorem roundToFloat_tenth_plus_one :
    roundToFloat (13421773 / 134217728 + 1) = 9227469 / 8388608 := by
  rw [roundToFloat_eval _ 0 9227469 (by norm_num) (by norm_num) (by norm_num)
    (by norm_num) (by norm_num)]
  norm_num

theorem roundToFloat_four_tenths_plus_one :
    roundToFloat (13421773 / 33554432 + 1) = 11744051 / 8388608 := by
  rw [roundToFloat_eval _ 0 11744051 (by norm_num) (by norm_num) (by norm_num)
    (by norm_num) (by norm_num)]
  norm_num

theorem roundToFloat_three_tenths :
    roundToFloat (13421773 / 33554432 - 13421773 / 134217728) = 5033165 / 16777216 := by
  rw [roundToFloat_eval _ (-2) 10066330 (by norm_num) (by norm_num) (by norm_num)
    (by norm_num) (by norm_num)]
  norm_num

theorem roundToFloat_moved_length :
    roundToFloat (11744051 / 8388608 - 9227469 / 8388608) = 1258291 / 4194304 := by
  have := roundToFloat_exact 1258291 (-22) (by norm_num) (by norm_num)
  norm_num at this ⊢
  exact this

theorem roundToFloat_eighth : roundToFloat (1 / 8) = 1 / 8 := by
  have := roundToFloat_exact 1 (-3) (by norm_num) (by norm_num)
  norm_num at this ⊢
  exact this

theorem tenthsMiniMap_offset :
    (FloatValue.ofRat 8).mul
      (((FloatValue.number 132).sub (FloatValue.ofRat ((100 : Int) : ℚ))).div
        (FloatValue.ofRat ((256 : Int) : ℚ))) = FloatValue.number 1 := by
  have e8 : FloatValue.ofRat 8 = FloatValue.number 8 :=
    ofRat_eval 8 8 (by simpa using roundToFloat_intCast 8 (by norm_num)) (by norm_num)
      (by norm_num)
  have e100 : FloatValue.ofRat ((100 : Int) : ℚ) = FloatValue.number 100 :=
    ofRat_eval _ 100 (by simpa using roundToFloat_intCast 100 (by norm_num)) (by norm_num)
      (by norm_num)
  have e256 : FloatValue.ofRat ((256 : Int) : ℚ) = FloatValue.number 256 :=
    ofRat_eval _ 256 (by simpa using roundToFloat_intCast 256 (by norm_num)) (by norm_num)
      (by norm_num)
  have e32 : FloatValue.ofRat (132 - 100) = FloatValue.number 32 :=
    ofRat_eval _ 32 (by norm_num; simpa using roundToFloat_intCast 32 (by norm_num))
      (by norm_num) (by norm_num)
  have e18 : FloatValue.ofRat (32 / 256) = FloatValue.number (1 / 8) :=
    ofRat_eval _ (1 / 8) (by norm_num; simpa using roundToFloat_eighth) (by norm_num)
      (by norm_num)
  have e1 : FloatValue.ofRat (8 * (1 / 8)) = FloatValue.number 1 :=
    ofRat_eval _ 1 (by norm_num; exact roundToFloat_one) (by norm_num) (by norm_num)
  rw [e8, e100, e256, number_sub, e32, number_div _ _ (by norm_num), e18, number_mul, e1]

/-- A move on floats that changes the length: with `GdMaxDelay` = 8, on a mini-map
256 pixels wide whose recorded range runs from 0.1f to 0.4f, a move by 32 pixels,
an offset of exactly 1 s, gives the range from 9227469/8388608 to
11744051/8388608. -/
theorem moving_length_changes :
    (tenthsMiniMap.mouseDrag 8
        { x := 132, y := 10, mouseDownX := 100, shiftDown := false }).timeRange_
      = { start := FloatValue.number (9227469 / 8388608),
          end_ := FloatValue.number (11744051 / 8388608) }
      ∧ (tenthsMiniMap.mouseDrag 8
          { x := 132, y := 10, mouseDownX := 100, shiftDown := false }).timeRange_.getLength
        = FloatValue.number (1258291 / 4194304)
      ∧ tenthsMiniMap.timeRangeBeforeMove_.getLength = FloatValue.number (5033165 / 16777216)
      ∧ (11744051 / 8388608 - 9227469 / 8388608 : ℚ)
        ≠ 13421773 / 33554432 - 13421773 / 134217728 := by
  have hG : FloatValue.ofRat 8 = FloatValue.number 8 :=
    ofRat_eval 8 8 (by simpa using roundToFloat_intCast 8 (by norm_num)) (by norm_num)
      (by norm_num)
  have hroom : ∃ r : ℚ, FloatValue.ofRat (8 - 13421773 / 33554432) = FloatValue.number r
      ∧ 1 ≤ r := by
    obtain ⟨a1, a2, a3⟩ := ofRat_nonneg_number (8 - 13421773 / 33554432) 3 (by norm_num)
      (by norm_num) (by norm_num)
    exact ⟨_, a1, roundToFloat_ge_one _ (by norm_num)⟩
  obtain ⟨r, hr, hr1⟩ := hroom
  have hs : FloatValue.ofRat (13421773 / 134217728 + 1) = FloatValue.number (9227469 / 8388608) :=
    ofRat_eval _ _ roundToFloat_tenth_plus_one (by norm_num) (by norm_num)
  have he : FloatValue.ofRat (13421773 / 33554432 + 1) = FloatValue.number (11744051 / 8388608) :=
    ofRat_eval _ _ roundToFloat_four_tenths_plus_one (by norm_num) (by norm_num)
  have hmove : (tenthsMiniMap.mouseDrag 8
        { x := 132, y := 10, mouseDownX := 100, shiftDown := false }).timeRange_
      = { start := FloatValue.number (9227469 / 8388608),
          end_ := FloatValue.number (11744051 / 8388608) } := by
    unfold FloatMiniMap.mouseDrag
    simp only [tenthsMiniMap]
    rw [tenthsMiniMap_offset]
    simp only [number_sub, hG, hr]
    have hlt : (FloatValue.number 0).lt (FloatValue.number 1) = true := by
      simp [FloatValue.lt]
    rw [if_pos hlt, minFloat_number, min_eq_left hr1]
    simp only [number_add, hs, he, FloatRange.make, maxFloat_number]
    norm_num [FloatRange.ne, FloatValue.ne, FloatMiniMap.announce]
  refine ⟨hmove, ?_, ?_, by norm_num⟩
  · rw [hmove]
    simp only [FloatRange.getLength, number_sub]
    exact ofRat_eval _ _ roundToFloat_moved_length (by norm_num) (by norm_num)
  · simp only [tenthsMiniMap, FloatRange.getLength, number_sub]
    exact ofRat_eval _ _ roundToFloat_three_tenths (by norm_num) (by norm_num)

/-! ## Mini-map on floats: a constant `GdMaxDelay` of `2 ^ 30` s -/
theorem longDelay_maxDelay :
    FloatValue.ofRat 1073741824 = FloatValue.number 1073741824 :=
  ofRat_eval _ _ (by have := roundToFloat_pow_two 30; norm_num at this; exact this)
    (by norm_num) (by norm_num)

theorem longDelay_drawBounds_w : longDelayMiniMap.getDrawBounds.w = FloatValue.number 1 := by
  simp only [FloatMiniMap.getDrawBounds, Rectangle.toFloat, Rectangle.reduced,
    Rectangle.expanded, longDelayMiniMap]
  norm_num
  exact ofRat_one

theorem longDelay_pixel_start :
    longDelayMiniMap.getXForDelay 1073741824 (FloatValue.number 0) = FloatValue.number 1 := by
  unfold FloatMiniMap.getXForDelay
  simp only []
  rw [getDrawBounds_x, longDelay_drawBounds_w, longDelay_maxDelay,
    number_div _ _ (by norm_num), zero_div, ofRat_zero, number_mul, mul_zero, ofRat_zero,
    number_add, add_zero, ofRat_one]

theorem longDelay_pixel_end :
    longDelayMiniMap.getXForDelay 1073741824 (FloatValue.number (65537 / 1024))
      = FloatValue.number (8388609 / 8388608) := by
  have e1 : FloatValue.ofRat (65537 / 1024 / 1073741824)
      = FloatValue.number (65537 / 1099511627776) :=
    ofRat_eval _ _ (by
      have := roundToFloat_exact 65537 (-40) (by norm_num) (by norm_num)
      norm_num at this ⊢
      exact this) (by norm_num) (by norm_num)
  have e2 : FloatValue.ofRat (1 * (65537 / 1099511627776))
      = FloatValue.number (65537 / 1099511627776) :=
    ofRat_eval _ _ (by
      have := roundToFloat_exact 65537 (-40) (by norm_num) (by norm_num)
      norm_num at this ⊢
      exact this) (by norm_num) (by norm_num)
  have e3 : FloatValue.ofRat (1 + 65537 / 1099511627776)
      = FloatValue.number (8388609 / 8388608) :=
    ofRat_eval _ _ (by
      rw [roundToFloat_eval _ 0 8388609 (by norm_num) (by norm_num) (by norm_num)
        (by norm_num) (by norm_num)]
      norm_num) (by norm_num) (by norm_num)
  unfold FloatMiniMap.getXForDelay
  simp only []
  rw [getDrawBounds_x, longDelay_drawBounds_w, longDelay_maxDelay,
    number_div _ _ (by norm_num), e1, number_mul, e2, number_add, e3]

theorem longDelay_right :
    (longDelayMiniMap.getRangeBounds 1073741824).getRight
      = FloatValue.number (8388609 / 8388608) := by
  have e1 : FloatValue.ofRat (8388609 / 8388608 - 1) = FloatValue.number (1 / 8388608) :=
    ofRat_eval _ _ (by
      have := roundToFloat_exact 1 (-23) (by norm_num) (by norm_num)
      norm_num at this ⊢
      exact this) (by norm_num) (by norm_num)
  have e2 : FloatValue.ofRat (1 + 1 / 8388608) = FloatValue.number (8388609 / 8388608) :=
    ofRat_eval _ _ (by
      have := roundToFloat_exact 8388609 (-23) (by norm_num) (by norm_num)
      norm_num at this ⊢
      exact this) (by norm_num) (by norm_num)
  unfold FloatMiniMap.getRangeBounds
  simp only [FloatRectangle.withRight, FloatRectangle.withLeft, FloatRectangle.getRight]
  have hr : longDelayMiniMap.timeRange_
      = { start := FloatValue.number 0, end_ := FloatValue.number (65537 / 1024) } := rfl
  rw [hr]
  simp only []
  rw [longDelay_pixel_start, longDelay_pixel_end, minFloat_number, number_sub, e1,
    maxFloat_number, min_eq_left (by norm_num), max_eq_right (by norm_num), number_add, e2]

theorem longDelay_delay (x v : ℚ) (h : roundToFloat (x - 1) = v) (h0 : 0 ≤ v)
    (h1 : v ≤ 1) :
    longDelayMiniMap.getDelayForX 1073741824 (FloatValue.number x)
      = FloatValue.ofRat (1073741824 * v) := by
  have e1 : FloatValue.ofRat (x - 1) = FloatValue.number v :=
    ofRat_eval _ _ h (by linarith [show (1 : ℚ) < 2 ^ 128 by norm_num])
      (by linarith [show -(2 : ℚ) ^ 128 < 0 by norm_num])
  have hv : roundToFloat v = v := by rw [← h, roundToFloat_idem]
  have e2 : FloatValue.ofRat (v / 1) = FloatValue.number v := by
    rw [div_one]
    exact ofRat_eval _ _ hv (by linarith [show (1 : ℚ) < 2 ^ 128 by norm_num])
      (by linarith [show -(2 : ℚ) ^ 128 < 0 by norm_num])
  unfold FloatMiniMap.getDelayForX
  simp only []
  rw [getDrawBounds_x, longDelay_drawBounds_w, longDelay_maxDelay, number_sub, e1,
    number_div _ _ (by norm_num), e2, number_mul]

/-- Status dragging-left when the mouse is beyond the largest start allowed and
that start is beyond the end of the window: both ends become that start. -/
theorem dragLeft_pushes_end (G : ℚ) (m : FloatMiniMap) (event : MouseEvent) (s e M v : ℚ)
    (hst : m.status_ = MiniMapStatus.kStatusDraggingLeft)
    (hrange : m.timeRange_ = { start := FloatValue.number s, end_ := FloatValue.number e })
    (hmaxT : maxFloat (FloatValue.number 0)
        ((m.getDelayForX G (m.getRangeBounds G).getRight).sub (FloatValue.ofRat (1 / 5)))
          = FloatValue.number M)
    (hx : m.getDelayForX G (FloatValue.number event.x) = FloatValue.number v)
    (hM : 0 ≤ M) (hv : M < v) (hs : s < M) (he : e < M) :
    (m.mouseDrag G event).timeRange_
      = { start := FloatValue.number M, end_ := FloatValue.number M } := by
  have hj : jlimitFloat (FloatValue.number 0) (FloatValue.number M) (FloatValue.number v)
      = FloatValue.number M := by
    unfold jlimitFloat
    simp only [FloatValue.lt, decide_eq_true_eq]
    rw [if_neg (by linarith), if_pos hv]
  have hne : (FloatValue.number s).ne (FloatValue.number M) = true := by
    simp only [FloatValue.ne, decide_eq_true_eq, ne_eq, FloatValue.number.injEq]
    exact hs.ne
  unfold FloatMiniMap.mouseDrag
  simp only [hst]
  rw [hmaxT, hx, hj, hrange]
  simp only [hne, if_true, FloatMiniMap.announce, FloatRange.setStart, FloatValue.lt,
    decide_eq_true_eq]
  rw [if_pos he]

/-- With a constant `GdMaxDelay` of `2 ^ 30` s the pixel of a delay is too coarse
for the left edge: on a mini-map 3 pixels wide showing the window from 0 s to
64.0009765625 s, a drag of the left edge to x = 2 moves the end of the window to
more than 127 s. -/
theorem longDelay_end_moves :
    ∃ M : ℚ, (longDelayMiniMap.mouseDrag 1073741824
        { x := 2, y := 10, mouseDownX := 1, shiftDown := false }).timeRange_
      = { start := FloatValue.number M, end_ := FloatValue.number M } ∧ 127 ≤ M := by
  have e128 : FloatValue.ofRat (1073741824 * (1 / 8388608)) = FloatValue.number 128 :=
    ofRat_eval _ _ (by
      have := roundToFloat_pow_two 7
      norm_num at this ⊢
      exact this) (by norm_num) (by norm_num)
  have hD : longDelayMiniMap.getDelayForX 1073741824 (FloatValue.number (8388609 / 8388608))
      = FloatValue.number 128 := by
    rw [longDelay_delay _ (1 / 8388608) (by
      have := roundToFloat_exact 1 (-23) (by norm_num) (by norm_num)
      norm_num at this ⊢
      exact this) (by norm_num) (by norm_num), e128]
  have hx : longDelayMiniMap.getDelayForX 1073741824 (FloatValue.number 2)
      = FloatValue.number 1073741824 := by
    rw [longDelay_delay _ 1 (by norm_num; exact roundToFloat_one) (by norm_num) (by norm_num),
      mul_one, longDelay_maxDelay]
  have hc0 := roundToFloat_nonneg (1 / 5) (by norm_num)
  have hc1 := roundToFloat_le_pow (1 / 5) 0 (by norm_num)
  rw [pow_zero] at hc1
  have hM0 : (127 : ℚ) ≤ roundToFloat (128 - roundToFloat (1 / 5)) := by
    have h127 : roundToFloat 127 = 127 := by
      simpa using roundToFloat_intCast 127 (by norm_num)
    have := roundToFloat_mono 127 (128 - roundToFloat (1 / 5)) (by linarith)
    rwa [h127] at this
  have hM1 : roundToFloat (128 - roundToFloat (1 / 5)) ≤ 128 := by
    have := roundToFloat_le_pow (128 - roundToFloat (1 / 5)) 7 (by norm_num; linarith)
    norm_num at this
    exact this
  have hMn : FloatValue.ofRat (128 - roundToFloat (1 / 5))
      = FloatValue.number (roundToFloat (128 - roundToFloat (1 / 5))) :=
    ofRat_number _ (by
      rw [abs_of_nonneg (by linarith)]
      have : (128 : ℚ) ≤ 2 ^ 127 := by norm_num
      linarith)
  have hmaxT : maxFloat (FloatValue.number 0)
      ((longDelayMiniMap.getDelayForX 1073741824
        (longDelayMiniMap.getRangeBounds 1073741824).getRight).sub (FloatValue.ofRat (1 / 5)))
        = FloatValue.number (roundToFloat (128 - roundToFloat (1 / 5))) := by
    rw [longDelay_right, hD, ofRat_fifth, number_sub, hMn, maxFloat_number,
      max_eq_right (by linarith)]
  exact ⟨_, dragLeft_pushes_end 1073741824 longDelayMiniMap
    { x := 2, y := 10, mouseDownX := 1, shiftDown := false } 0 (65537 / 1024) _ 1073741824
    rfl rfl hmaxT hx (by linarith) (by linarith) (by linarith) (by linarith), hM0⟩

/-! ## Mini-map on floats: what a drag leaves alone -/

/-- C12 as stated fails on floats, in two ways. With `GdMaxDelay` = 8, on a
mini-map 256 pixels wide whose recorded range runs from 0.1f to 0.4f, a move by
32 pixels, an offset of exactly 1 s, gives the range from 9227469/8388608 to
11744051/8388608: the start has moved by more than 1 and the end by less, and
the length is 0.29999995 where the recorded range is 0.3 long, 0.30000001 as a
float. And with `GdMaxDelay` = `2 ^ 30`, on a mini-map 3 pixels wide showing the
window from 0 s to 64.0009765625 s, which satisfies the three conditions, a drag
of the left edge to x = 2 moves the end of the window beyond 127 s. -/
theorem mouseDrag_changes_only_dragged_counterexample :
    ((tenthsMiniMap.mouseDrag 8
        { x := 132, y := 10, mouseDownX := 100, shiftDown := false }).timeRange_
      = { start := FloatValue.number (9227469 / 8388608),
          end_ := FloatValue.number (11744051 / 8388608) }
      ∧ (tenthsMiniMap.mouseDrag 8
          { x := 132, y := 10, mouseDownX := 100, shiftDown := false }).timeRange_.getLength
        = FloatValue.number (1258291 / 4194304)
      ∧ tenthsMiniMap.timeRangeBeforeMove_.getLength = FloatValue.number (5033165 / 16777216)
      ∧ (11744051 / 8388608 - 9227469 / 8388608 : ℚ)
        ≠ 13421773 / 33554432 - 13421773 / 134217728)
    ∧ (longDelayMiniMap.status_ = MiniMapStatus.kStatusDraggingLeft
      ∧ longDelayMiniMap.timeRange_
        = { start := FloatValue.number 0, end_ := FloatValue.number (65537 / 1024) }
      ∧ WindowWellFormed 1073741824 { start := 0, end_ := 65537 / 1024 }
      ∧ ∃ M : ℚ, (longDelayMiniMap.mouseDrag 1073741824
          { x := 2, y := 10, mouseDownX := 1, shiftDown := false }).timeRange_
        = { start := FloatValue.number M, end_ := FloatValue.number M } ∧ 127 ≤ M) :=
  ⟨moving_length_changes,
    rfl, rfl, by norm_num [WindowWellFormed], longDelay_end_moves⟩

/-- C12 (amended): a drag of the mini-map changes only what is dragged, on floats.
In status moving the new window is built from the range recorded at mouse-down
and one offset, added to both ends with each sum rounded to float; when the
offset is a number and both sums are exact the new window is the recorded range
translated and its length is the recorded length, and so it is for every mouse
position in exact arithmetic. In status dragging-left the end of the window is
unchanged and in status dragging-right its start is unchanged, whatever the width
of the mini-map, for a window that satisfies the three conditions and a constant
`GdMaxDelay` of at most 1024 s. -/
theorem mouseDrag_changes_only_dragged (GdMaxDelay : ℚ) (m : FloatMiniMap)
    (event : MouseEvent) (s e : ℚ) (hint : m.width < 2 ^ 31) (hmax : GdMaxDelay ≤ 1024)
    (hrange : m.timeRange_ = { start := FloatValue.number s, end_ := FloatValue.number e })
    (hwf : WindowWellFormed GdMaxDelay { start := s, end_ := e }) :
    (m.status_ = MiniMapStatus.kStatusMoving →
        ∃ dt : FloatValue,
          (m.mouseDrag GdMaxDelay event).timeRange_
              = FloatRange.make (m.timeRangeBeforeMove_.start.add dt)
                  (m.timeRangeBeforeMove_.end_.add dt)
            ∧ ∀ s0 e0 d : ℚ,
                m.timeRangeBeforeMove_
                    = { start := FloatValue.number s0, end_ := FloatValue.number e0 } →
                s0 ≤ e0 → dt = FloatValue.number d →
                FloatValue.ofRat (s0 + d) = FloatValue.number (s0 + d) →
                FloatValue.ofRat (e0 + d) = FloatValue.number (e0 + d) →
                (m.mouseDrag GdMaxDelay event).timeRange_
                    = { start := FloatValue.number (s0 + d),
                        end_ := FloatValue.number (e0 + d) }
                  ∧ (m.mouseDrag GdMaxDelay event).timeRange_.getLength
                    = m.timeRangeBeforeMove_.getLength)
      ∧ (m.status_ = MiniMapStatus.kStatusDraggingLeft →
          (m.mouseDrag GdMaxDelay event).timeRange_.end_ = FloatValue.number e)
      ∧ (m.status_ = MiniMapStatus.kStatusDraggingRight →
          (m.mouseDrag GdMaxDelay event).timeRange_.start = FloatValue.number s)
      ∧ (∀ q : TapMiniMap, q.timeRangeBeforeMove_.start ≤ q.timeRangeBeforeMove_.end_ →
          q.status_ = MiniMapStatus.kStatusMoving →
          (∃ dt : ℚ, (q.mouseDrag GdMaxDelay event).timeRange_
              = { start := q.timeRangeBeforeMove_.start + dt,
                  end_ := q.timeRangeBeforeMove_.end_ + dt })
            ∧ (q.mouseDrag GdMaxDelay event).timeRange_.getLength
              = q.timeRangeBeforeMove_.getLength) := by
  refine ⟨?_, ?_, ?_, ?_⟩
  · intro hst
    obtain ⟨dt, hdt⟩ := moving_float_translates GdMaxDelay m event hst
    refine ⟨dt, hdt, ?_⟩
    intro s0 e0 d hbefore hrec hd hs0 he0
    have hnew : (m.mouseDrag GdMaxDelay event).timeRange_
        = { start := FloatValue.number (s0 + d), end_ := FloatValue.number (e0 + d) } := by
      rw [hdt, hbefore, hd]
      exact make_translated s0 e0 d hrec hs0 he0
    refine ⟨hnew, ?_⟩
    rw [hnew, hbefore]
    simp only [FloatRange.getLength, number_sub]
    congr 1
    ring
  · intro hst
    exact dragLeft_end GdMaxDelay m event s e hint hmax hrange hwf hst
  · intro hst
    exact dragRight_start GdMaxDelay m event s e hint hmax hrange hwf hst
  · intro q hrec hst
    obtain ⟨dt, hdt⟩ := moving_translates GdMaxDelay q event hrec hst
    refine ⟨⟨dt, hdt⟩, ?_⟩
    rw [hdt]
    simp only [Range.getLength]
    ring

/-- C12 at a concrete mini-map: the window from 1 s to 3 s, 200 pixels wide with
`GdMaxDelay` = 10, keeps its end 3 when its left edge is dragged to x = 500. -/
theorem mouseDrag_changes_only_dragged_witness :
    ((exampleFloatMiniMap MiniMapStatus.kStatusDraggingLeft).mouseDrag 10
        { x := 500, y := 10, mouseDownX := 20, shiftDown := false }).timeRange_.end_
      = FloatValue.number 3 :=
  (mouseDrag_changes_only_dragged 10 (exampleFloatMiniMap MiniMapStatus.kStatusDraggingLeft)
    { x := 500, y := 10, mouseDownX := 20, shiftDown := false } 1 3 (by decide)
    (by norm_num) rfl (by norm_num [WindowWellFormed])).2.1 rfl

end DelayArchitect
